import Mathlib

/-!
# BufferQueueConsumer: the consumer side of the graphics buffer exchange

A shallow embedding of `frameworks/native/libs/gui/BufferQueueConsumer.cpp`.
The shared `BufferQueueCore` is an explicit state value; every consumer
operation is a total function from the state before the call to a result
record holding the status code, the state after the call, and whatever the
call writes through its out-parameters.  The mutex is not modelled: each
operation runs under the lock from start to end, so a call is one atomic
state transition.
-/

namespace android

/-! ## Data model -/

/-- Result codes returned by the consumer operations (`status_t` values of
`utils/Errors.h` and `IGraphicBufferConsumer`); only their distinctness is used. -/
inductive status_t
  | NO_ERROR
  | BAD_VALUE
  | NO_INIT
  | INVALID_OPERATION
  | NO_MEMORY
  | STALE_BUFFER_SLOT
  | NO_BUFFER_AVAILABLE
  | PRESENT_LATER
  deriving DecidableEq, Repr

/-- Ownership state of a slot (`BufferSlot::BufferState`). -/
inductive BufferState
  | FREE
  | DEQUEUED
  | QUEUED
  | ACQUIRED
  deriving DecidableEq, Repr

/-- A fence object: the `Fence::NO_FENCE` sentinel or a real fence, named by
its descriptor.  An `sp<Fence>` is an `Option Fence`, `none` being `NULL`. -/
inductive Fence
  | NO_FENCE
  | fd (id : Nat)
  deriving DecidableEq, Repr

/-- Modelled from the spec: `BufferSlot.h` is not among the sources; the fields
are those of section 3 (state, buffer, fence, frameNumber, acquireCalled,
attachedByConsumer, needsCleanupOnRelease) plus the two platform sync handles
that `releaseBuffer` stores.  A `sp<GraphicBuffer>` is an `Option Nat`: `none`
is `NULL`, `some h` a buffer with native handle `h`. -/
structure BufferSlot where
  mGraphicBuffer : Option Nat
  mEglDisplay : Nat
  mEglFence : Nat
  mBufferState : BufferState
  mFrameNumber : Nat
  mFence : Option Fence
  mAcquireCalled : Bool
  mNeedsCleanupOnRelease : Bool
  mAttachedByConsumer : Bool
  deriving DecidableEq, Repr

/-- Modelled from the spec: `BufferItem.h` is not among the sources; the fields
are those of a Pending Queue entry in section 3 plus the `mAcquireCalled` flag
that `acquireBuffer` and `getReleasedBuffers` read.  `mTimestamp` is an
`nsecs_t` (signed 64-bit), `mSlot` an `int`. -/
structure BufferItem where
  mGraphicBuffer : Option Nat
  mFence : Option Fence
  mTimestamp : Int
  mIsAutoTimestamp : Bool
  mFrameNumber : Nat
  mSlot : Int
  mAcquireCalled : Bool
  deriving DecidableEq, Repr

/-- Modelled from the spec: `BufferQueueCore.h` is not among the sources; the
fields are the shared state of section 3 that the consumer code reads or
writes.  Listeners are `Option Nat` (`none` is `NULL`). -/
structure BufferQueueCore where
  mSlots : List BufferSlot
  mQueue : List BufferItem
  mMaxAcquiredBufferCount : Int
  mIsAbandoned : Bool
  mConsumerListener : Option Nat
  mConsumerControlledByApp : Bool
  mConnectedProducerListener : Option Nat
  mConnectedApi : Int
  mDefaultWidth : Nat
  mDefaultHeight : Nat
  mDefaultBufferFormat : Nat
  mConsumerUsageBits : Nat
  mTransformHint : Nat
  mUseAsyncBuffer : Bool
  mDefaultMaxBufferCount : Int
  mConsumerName : String
  deriving DecidableEq, Repr

/-- Modelled from the spec: `BufferQueueDefs::NUM_BUFFER_SLOTS` is defined
outside the sources; section 3 gives the slot count as a small compile-time
constant, 64. -/
def NUM_BUFFER_SLOTS : Nat := 64

/-- Modelled from the spec: `BufferQueueCore::MAX_MAX_ACQUIRED_BUFFERS` is defined
outside the sources; section 4.7 names it as the ceiling of the valid range of
`setMaxAcquiredBufferCount`.  The value is the upstream one, two less than the
slot count. -/
def MAX_MAX_ACQUIRED_BUFFERS : Int := 62

/-- Modelled from the spec: `BufferQueueCore::INVALID_BUFFER_SLOT` is defined
outside the sources; it is the "no slot" index, outside `[0, NUM_BUFFER_SLOTS)`. -/
def INVALID_BUFFER_SLOT : Int := -1

/-- Modelled from the spec: `BufferQueueCore::NO_CONNECTED_API` is defined outside
the sources; it is the value of `mConnectedApi` while no producer is connected. -/
def NO_CONNECTED_API : Int := 0

/-- Modelled from the spec: `EGL_NO_SYNC_KHR` comes from the platform headers; it
is the "no sync object" handle. -/
def EGL_NO_SYNC_KHR : Nat := 0

/-- The slot read when an index is outside the table; the source indexes the
array unchecked, so such a read is outside the defined behaviour of the code and
every theorem that depends on a slot access states the index range it needs. -/
instance : Inhabited BufferSlot :=
  ⟨{ mGraphicBuffer := none, mEglDisplay := 0, mEglFence := EGL_NO_SYNC_KHR,
     mBufferState := BufferState.FREE, mFrameNumber := 0,
     mFence := some Fence.NO_FENCE, mAcquireCalled := false,
     mNeedsCleanupOnRelease := false, mAttachedByConsumer := false }⟩

/-- Reads `mSlots[s]`. -/
def slotAt (mSlots : List BufferSlot) (s : Int) : BufferSlot :=
  if 0 ≤ s then mSlots.getD s.toNat default else default

/-- Performs `mSlots[s] = f(mSlots[s])`; an index outside the table writes nothing. -/
def updateSlot (mSlots : List BufferSlot) (s : Int) (f : BufferSlot → BufferSlot) :
    List BufferSlot :=
  if 0 ≤ s then mSlots.set s.toNat (f (mSlots.getD s.toNat default)) else mSlots

/-! ## 64-bit signed arithmetic -/

/-- Smallest `int64_t`. -/
def INT64_MIN : Int := -9223372036854775808

/-- Largest `int64_t`. -/
def INT64_MAX : Int := 9223372036854775807

/-- Reduces an integer to the `int64_t` it is congruent to modulo `2^64`. -/
def wrapInt64 (x : Int) : Int :=
  (x + 9223372036854775808) % 18446744073709551616 - 9223372036854775808

/-- The integer is representable as an `int64_t`. -/
def isInt64 (x : Int) : Prop := INT64_MIN ≤ x ∧ x ≤ INT64_MAX

instance (x : Int) : Decidable (isInt64 x) := by
  unfold isInt64; exact inferInstance

/-- The constant `MAX_REASONABLE_NSEC` of `acquireBuffer`: one second, in nanoseconds. -/
def MAX_REASONABLE_NSEC : Int := 1000000000

/-! ## acquireBuffer -/

/-- The loop of `acquireBuffer` (and of `attachBuffer`) that counts the slots in
state ACQUIRED: the value of the counter after `s` iterations. -/
def numAcquiredBuffers (mSlots : List BufferSlot) : Nat → Nat
  | 0 => 0
  | s + 1 =>
    if (slotAt mSlots s).mBufferState = BufferState.ACQUIRED then
      numAcquiredBuffers mSlots s + 1
    else numAcquiredBuffers mSlots s

/-- Modelled from the spec: `BufferQueueCore::stillTracking` is defined outside the
sources.  An entry's slot is still tracked when the slot holds a buffer and that
buffer is the one of the entry (same native handle); it is not once the slot's
buffer reference has been released or replaced. -/
def stillTracking (mSlots : List BufferSlot) (item : BufferItem) : Bool :=
  (slotAt mSlots item.mSlot).mGraphicBuffer != none &&
    item.mGraphicBuffer == (slotAt mSlots item.mSlot).mGraphicBuffer

/-- The test of the drop loop on the second entry: true when the loop breaks
(`desiredPresent < expectedPresent - MAX_REASONABLE_NSEC ||
desiredPresent > expectedPresent`). -/
def noDrop (expectedPresent desiredPresent : Int) : Bool :=
  decide (desiredPresent < wrapInt64 (expectedPresent - MAX_REASONABLE_NSEC)) ||
    decide (desiredPresent > expectedPresent)

/-- The slot table after the head entry `front` has been dropped: its slot is
marked FREE when it is still tracked. -/
def dropFront (mSlots : List BufferSlot) (front : BufferItem) : List BufferSlot :=
  if stillTracking mSlots front then
    updateSlot mSlots front.mSlot (fun b => { b with mBufferState := BufferState.FREE })
  else mSlots

/-- One evaluation of the drop loop of `acquireBuffer`: `none` when the loop
stops (condition false, or `break`), otherwise the slot table and queue after
the body has erased the head. -/
def dropStep (expectedPresent : Int) (mSlots : List BufferSlot) (mQueue : List BufferItem) :
    Option (List BufferSlot × List BufferItem) :=
  match mQueue with
  | front :: second :: rest =>
    if front.mIsAutoTimestamp then none
    else if noDrop expectedPresent second.mTimestamp then none
    else some (dropFront mSlots front, second :: rest)
  | _ => none

/-- The drop loop of `acquireBuffer`, run to completion: the slot table and the
queue when the loop exits. -/
def dropLoop (expectedPresent : Int) :
    List BufferSlot → List BufferItem → List BufferSlot × List BufferItem
  | mSlots, front :: second :: rest =>
    if front.mIsAutoTimestamp then (mSlots, front :: second :: rest)
    else if noDrop expectedPresent second.mTimestamp then (mSlots, front :: second :: rest)
    else dropLoop expectedPresent (dropFront mSlots front) (second :: rest)
  | mSlots, [front] => (mSlots, [front])
  | mSlots, [] => (mSlots, [])

/-- The test "the front buffer is not due yet" of `acquireBuffer`
(`desiredPresent > expectedPresent &&
desiredPresent < expectedPresent + MAX_REASONABLE_NSEC`). -/
def presentLater (expectedPresent desiredPresent : Int) : Bool :=
  decide (desiredPresent > expectedPresent) &&
    decide (desiredPresent < wrapInt64 (expectedPresent + MAX_REASONABLE_NSEC))

/-- What `acquireBuffer` hands back: the status, the core after the call and the
item written to `*outBuffer` (`none` when nothing was written). -/
structure AcquireResult where
  status : status_t
  core : BufferQueueCore
  outBuffer : Option BufferItem
  deriving DecidableEq, Repr

/-- The tail of `acquireBuffer`, from `int slot = front->mSlot` on: `front` is the
head of the queue, `rest` the entries behind it. -/
def acquireFront (mCore : BufferQueueCore) (mSlots : List BufferSlot)
    (front : BufferItem) (rest : List BufferItem) : AcquireResult :=
  { status := status_t.NO_ERROR
    core :=
      { mCore with
        mSlots :=
          if stillTracking mSlots front then
            updateSlot mSlots front.mSlot (fun b =>
              { b with
                mAcquireCalled := true
                mNeedsCleanupOnRelease := false
                mBufferState := BufferState.ACQUIRED
                mFence := some Fence.NO_FENCE })
          else mSlots
        mQueue := rest }
    outBuffer :=
      some (if front.mAcquireCalled then { front with mGraphicBuffer := none } else front) }

/-- The consumer operation `BufferQueueConsumer::acquireBuffer(outBuffer, expectedPresent)`. -/
def acquireBuffer (mCore : BufferQueueCore) (expectedPresent : Int) : AcquireResult :=
  if (numAcquiredBuffers mCore.mSlots NUM_BUFFER_SLOTS : Int) ≥
      mCore.mMaxAcquiredBufferCount + 1 then
    { status := status_t.INVALID_OPERATION, core := mCore, outBuffer := none }
  else if mCore.mQueue.isEmpty then
    { status := status_t.NO_BUFFER_AVAILABLE, core := mCore, outBuffer := none }
  else if expectedPresent ≠ 0 then
    match dropLoop expectedPresent mCore.mSlots mCore.mQueue with
    | (mSlots, front :: rest) =>
      if presentLater expectedPresent front.mTimestamp then
        { status := status_t.PRESENT_LATER
          core := { mCore with mSlots := mSlots, mQueue := front :: rest }
          outBuffer := none }
      else acquireFront mCore mSlots front rest
    | (_, []) =>
      -- not reached: the loop runs only while more than one entry is queued
      { status := status_t.NO_BUFFER_AVAILABLE, core := mCore, outBuffer := none }
  else
    match mCore.mQueue with
    | front :: rest => acquireFront mCore mCore.mSlots front rest
    | [] => { status := status_t.NO_BUFFER_AVAILABLE, core := mCore, outBuffer := none }

/-! ## detachBuffer, attachBuffer -/

/-- Modelled from the spec: `BufferQueueCore::freeBufferLocked` is defined outside
the sources.  Section 4.1 (`freeSlot`): releases the buffer reference and the
fence, resets the bookkeeping and sets the state FREE; by section 3 a slot freed
while the consumer still holds it is marked `needsCleanupOnRelease`.  The reset
values (frame number, sync handle) are the upstream ones. -/
def freeBufferLocked (mSlots : List BufferSlot) (slot : Int) : List BufferSlot :=
  updateSlot mSlots slot (fun b =>
    { b with
      mGraphicBuffer := none
      mNeedsCleanupOnRelease :=
        if b.mBufferState = BufferState.ACQUIRED then true else b.mNeedsCleanupOnRelease
      mBufferState := BufferState.FREE
      mFrameNumber := 4294967295
      mAcquireCalled := false
      mEglFence := EGL_NO_SYNC_KHR
      mFence := some Fence.NO_FENCE })

/-- Modelled from the spec: `BufferQueueCore::freeAllBuffersLocked` is defined
outside the sources; full teardown frees every slot (section 3, lifecycle).  The
table after the first `s` slots have been freed. -/
def freeAllBuffersLocked (mSlots : List BufferSlot) : Nat → List BufferSlot
  | 0 => mSlots
  | s + 1 => freeBufferLocked (freeAllBuffersLocked mSlots s) s

/-- What an operation without out-parameters hands back. -/
structure OpResult where
  status : status_t
  core : BufferQueueCore
  deriving DecidableEq, Repr

/-- The consumer operation `BufferQueueConsumer::detachBuffer(slot)`. -/
def detachBuffer (mCore : BufferQueueCore) (slot : Int) : OpResult :=
  if mCore.mIsAbandoned then
    { status := status_t.NO_INIT, core := mCore }
  else if slot < 0 ∨ slot ≥ NUM_BUFFER_SLOTS then
    { status := status_t.BAD_VALUE, core := mCore }
  else if (slotAt mCore.mSlots slot).mBufferState ≠ BufferState.ACQUIRED then
    { status := status_t.BAD_VALUE, core := mCore }
  else
    { status := status_t.NO_ERROR
      core := { mCore with mSlots := freeBufferLocked mCore.mSlots slot } }

/-- The two variables of the scan loop of `attachBuffer`. -/
structure AttachScan where
  numAcquiredBuffers : Nat
  found : Int
  deriving DecidableEq, Repr

/-- The scan loop of `attachBuffer`: the counter of ACQUIRED slots and the
candidate free slot after `s` iterations. -/
def attachScan (mSlots : List BufferSlot) : Nat → AttachScan
  | 0 => { numAcquiredBuffers := 0, found := INVALID_BUFFER_SLOT }
  | s + 1 =>
    let r := attachScan mSlots s
    if (slotAt mSlots s).mBufferState = BufferState.ACQUIRED then
      { r with numAcquiredBuffers := r.numAcquiredBuffers + 1 }
    else if (slotAt mSlots s).mBufferState = BufferState.FREE then
      if r.found = INVALID_BUFFER_SLOT ∨
          (slotAt mSlots s).mFrameNumber < (slotAt mSlots r.found).mFrameNumber then
        { r with found := s }
      else r
    else r

/-- What `attachBuffer` hands back; `outSlot` is the cell `outSlot` points to
after the call (`none` for a `NULL` pointer). -/
structure AttachResult where
  status : status_t
  core : BufferQueueCore
  outSlot : Option Int
  deriving DecidableEq, Repr

/-- The consumer operation `BufferQueueConsumer::attachBuffer(outSlot, buffer)`.
The argument `outSlot` is the cell the pointer designates (`none` for `NULL`,
`some v` for a cell holding `v`). -/
def attachBuffer (mCore : BufferQueueCore) (outSlot : Option Int) (buffer : Option Nat) :
    AttachResult :=
  match outSlot with
  | none => { status := status_t.BAD_VALUE, core := mCore, outSlot := none }
  | some old =>
    if buffer = none then
      { status := status_t.BAD_VALUE, core := mCore, outSlot := some old }
    else
      let r := attachScan mCore.mSlots NUM_BUFFER_SLOTS
      if (r.numAcquiredBuffers : Int) ≥ mCore.mMaxAcquiredBufferCount + 1 then
        { status := status_t.INVALID_OPERATION, core := mCore, outSlot := some old }
      else if r.found = INVALID_BUFFER_SLOT then
        { status := status_t.NO_MEMORY, core := mCore, outSlot := some old }
      else
        { status := status_t.NO_ERROR
          core :=
            { mCore with
              mSlots := updateSlot mCore.mSlots r.found (fun b =>
                { b with
                  mGraphicBuffer := buffer
                  mBufferState := BufferState.ACQUIRED
                  mAttachedByConsumer := true
                  mNeedsCleanupOnRelease := false
                  mFence := some Fence.NO_FENCE
                  mFrameNumber := 0
                  mAcquireCalled := false }) }
          outSlot := some r.found }

/-! ## releaseBuffer -/

/-- The scan of `releaseBuffer` over the queue: some entry refers to `slot`. -/
def isQueued (mQueue : List BufferItem) (slot : Int) : Bool :=
  match mQueue with
  | [] => false
  | current :: rest => if current.mSlot = slot then true else isQueued rest slot

/-- What `releaseBuffer` hands back; `released` counts the calls of
`onBufferReleased` made on the producer listener. -/
structure ReleaseResult where
  status : status_t
  core : BufferQueueCore
  released : Nat
  deriving DecidableEq, Repr

/-- The consumer operation
`BufferQueueConsumer::releaseBuffer(slot, frameNumber, releaseFence, eglDisplay, eglFence)`. -/
def releaseBuffer (mCore : BufferQueueCore) (slot : Int) (frameNumber : Nat)
    (releaseFence : Option Fence) (eglDisplay eglFence : Nat) : ReleaseResult :=
  if slot < 0 ∨ slot ≥ NUM_BUFFER_SLOTS ∨ releaseFence = none then
    { status := status_t.BAD_VALUE, core := mCore, released := 0 }
  else if frameNumber ≠ (slotAt mCore.mSlots slot).mFrameNumber then
    { status := status_t.STALE_BUFFER_SLOT, core := mCore, released := 0 }
  else if isQueued mCore.mQueue slot then
    { status := status_t.BAD_VALUE, core := mCore, released := 0 }
  else if (slotAt mCore.mSlots slot).mBufferState = BufferState.ACQUIRED then
    { status := status_t.NO_ERROR
      core :=
        { mCore with
          mSlots := updateSlot mCore.mSlots slot (fun b =>
            { b with
              mEglDisplay := eglDisplay
              mEglFence := eglFence
              mFence := releaseFence
              mBufferState := BufferState.FREE }) }
      released := if mCore.mConnectedProducerListener ≠ none then 1 else 0 }
  else if (slotAt mCore.mSlots slot).mNeedsCleanupOnRelease then
    { status := status_t.STALE_BUFFER_SLOT
      core :=
        { mCore with
          mSlots := updateSlot mCore.mSlots slot (fun b =>
            { b with mNeedsCleanupOnRelease := false }) }
      released := 0 }
  else
    { status := status_t.BAD_VALUE, core := mCore, released := 0 }

/-! ## connect, disconnect, getReleasedBuffers -/

/-- The consumer operation `BufferQueueConsumer::connect(consumerListener, controlledByApp)`. -/
def connect (mCore : BufferQueueCore) (consumerListener : Option Nat)
    (controlledByApp : Bool) : OpResult :=
  if consumerListener = none then
    { status := status_t.BAD_VALUE, core := mCore }
  else if mCore.mIsAbandoned then
    { status := status_t.NO_INIT, core := mCore }
  else
    { status := status_t.NO_ERROR
      core :=
        { mCore with
          mConsumerListener := consumerListener
          mConsumerControlledByApp := controlledByApp } }

/-- The consumer operation `BufferQueueConsumer::disconnect()`. -/
def disconnect (mCore : BufferQueueCore) : OpResult :=
  if mCore.mConsumerListener = none then
    { status := status_t.BAD_VALUE, core := mCore }
  else
    { status := status_t.NO_ERROR
      core :=
        { mCore with
          mIsAbandoned := true
          mConsumerListener := none
          mQueue := []
          mSlots := freeAllBuffersLocked mCore.mSlots NUM_BUFFER_SLOTS } }

/-- The first loop of `getReleasedBuffers`: the mask after `s` iterations, with
bit `s` set for every slot whose `mAcquireCalled` is false. -/
def releasedMask (mSlots : List BufferSlot) : Nat → Nat
  | 0 => 0
  | s + 1 =>
    if !(slotAt mSlots s).mAcquireCalled then releasedMask mSlots s ||| (1 <<< s) % 2 ^ 64
    else releasedMask mSlots s

/-- The second loop of `getReleasedBuffers`: clears from the 64-bit mask the bit
of every queued entry whose `mAcquireCalled` is true
(`mask &= ~(1ULL << current->mSlot)`). -/
def clearQueued (mask : Nat) (mQueue : List BufferItem) : Nat :=
  match mQueue with
  | [] => mask
  | current :: rest =>
    if current.mAcquireCalled then
      clearQueued (mask &&& (2 ^ 64 - 1 - (1 <<< current.mSlot.toNat) % 2 ^ 64)) rest
    else clearQueued mask rest

/-- What `getReleasedBuffers` hands back; `outSlotMask` is the cell the pointer
designates after the call (`none` for a `NULL` pointer). -/
structure MaskResult where
  status : status_t
  core : BufferQueueCore
  outSlotMask : Option Nat
  deriving DecidableEq, Repr

/-- The consumer operation `BufferQueueConsumer::getReleasedBuffers(outSlotMask)`. -/
def getReleasedBuffers (mCore : BufferQueueCore) (outSlotMask : Option Nat) : MaskResult :=
  match outSlotMask with
  | none => { status := status_t.BAD_VALUE, core := mCore, outSlotMask := none }
  | some old =>
    if mCore.mIsAbandoned then
      { status := status_t.NO_INIT, core := mCore, outSlotMask := some old }
    else
      { status := status_t.NO_ERROR
        core := mCore
        outSlotMask :=
          some (clearQueued (releasedMask mCore.mSlots NUM_BUFFER_SLOTS) mCore.mQueue) }

/-! ## Configuration setters -/

/-- The consumer operation `BufferQueueConsumer::setDefaultBufferSize(width, height)`. -/
def setDefaultBufferSize (mCore : BufferQueueCore) (width height : Nat) : OpResult :=
  if width = 0 ∨ height = 0 then
    { status := status_t.BAD_VALUE, core := mCore }
  else
    { status := status_t.NO_ERROR
      core := { mCore with mDefaultWidth := width, mDefaultHeight := height } }

/-- Modelled from the spec: `BufferQueueCore::setDefaultMaxBufferCountLocked` is
defined outside the sources; section 4.7 describes the setter as a simple guarded
field write.  The guard is the upstream one: the count is at least 2 with the
asynchronous buffer in use, at least 1 without, and at most the slot count. -/
def setDefaultMaxBufferCountLocked (mCore : BufferQueueCore) (count : Int) : OpResult :=
  if count < (if mCore.mUseAsyncBuffer then 2 else 1) ∨ count > NUM_BUFFER_SLOTS then
    { status := status_t.BAD_VALUE, core := mCore }
  else
    { status := status_t.NO_ERROR, core := { mCore with mDefaultMaxBufferCount := count } }

/-- The consumer operation `BufferQueueConsumer::setDefaultMaxBufferCount(bufferCount)`. -/
def setDefaultMaxBufferCount (mCore : BufferQueueCore) (bufferCount : Int) : OpResult :=
  setDefaultMaxBufferCountLocked mCore bufferCount

/-- The consumer operation `BufferQueueConsumer::disableAsyncBuffer()`. -/
def disableAsyncBuffer (mCore : BufferQueueCore) : OpResult :=
  if mCore.mConsumerListener ≠ none then
    { status := status_t.INVALID_OPERATION, core := mCore }
  else
    { status := status_t.NO_ERROR, core := { mCore with mUseAsyncBuffer := false } }

/-- The consumer operation `BufferQueueConsumer::setMaxAcquiredBufferCount(maxAcquiredBuffers)`. -/
def setMaxAcquiredBufferCount (mCore : BufferQueueCore) (maxAcquiredBuffers : Int) :
    OpResult :=
  if maxAcquiredBuffers < 1 ∨ maxAcquiredBuffers > MAX_MAX_ACQUIRED_BUFFERS then
    { status := status_t.BAD_VALUE, core := mCore }
  else if mCore.mConnectedApi ≠ NO_CONNECTED_API then
    { status := status_t.INVALID_OPERATION, core := mCore }
  else
    { status := status_t.NO_ERROR
      core := { mCore with mMaxAcquiredBufferCount := maxAcquiredBuffers } }

/-- The consumer operation `BufferQueueConsumer::setConsumerName(name)`. -/
def setConsumerName (mCore : BufferQueueCore) (name : String) : BufferQueueCore :=
  { mCore with mConsumerName := name }

/-- The consumer operation `BufferQueueConsumer::setDefaultBufferFormat(defaultFormat)`. -/
def setDefaultBufferFormat (mCore : BufferQueueCore) (defaultFormat : Nat) : OpResult :=
  { status := status_t.NO_ERROR, core := { mCore with mDefaultBufferFormat := defaultFormat } }

/-- The consumer operation `BufferQueueConsumer::setConsumerUsageBits(usage)`. -/
def setConsumerUsageBits (mCore : BufferQueueCore) (usage : Nat) : OpResult :=
  { status := status_t.NO_ERROR, core := { mCore with mConsumerUsageBits := usage } }

/-- The consumer operation `BufferQueueConsumer::setTransformHint(hint)`. -/
def setTransformHint (mCore : BufferQueueCore) (hint : Nat) : OpResult :=
  { status := status_t.NO_ERROR, core := { mCore with mTransformHint := hint } }

/-! ## Sequences of consumer calls -/

/-- One call of a consumer operation, with its arguments. -/
inductive ConsumerOp
  | acquire (expectedPresent : Int)
  | release (slot : Int) (frameNumber : Nat) (releaseFence : Option Fence)
      (eglDisplay eglFence : Nat)
  | attach (outSlot : Option Int) (buffer : Option Nat)
  | detach (slot : Int)
  | connect (consumerListener : Option Nat) (controlledByApp : Bool)
  | disconnect
  | getReleasedBuffers (outSlotMask : Option Nat)
  | setDefaultBufferSize (width height : Nat)
  | setDefaultMaxBufferCount (bufferCount : Int)
  | disableAsyncBuffer
  | setMaxAcquiredBufferCount (maxAcquiredBuffers : Int)
  | setConsumerName (name : String)
  | setDefaultBufferFormat (defaultFormat : Nat)
  | setConsumerUsageBits (usage : Nat)
  | setTransformHint (hint : Nat)
  deriving DecidableEq, Repr

/-- The core after one consumer call. -/
def ConsumerOp.apply (mCore : BufferQueueCore) : ConsumerOp → BufferQueueCore
  | .acquire expectedPresent => (acquireBuffer mCore expectedPresent).core
  | .release slot frameNumber releaseFence eglDisplay eglFence =>
    (releaseBuffer mCore slot frameNumber releaseFence eglDisplay eglFence).core
  | .attach outSlot buffer => (attachBuffer mCore outSlot buffer).core
  | .detach slot => (detachBuffer mCore slot).core
  | .connect consumerListener controlledByApp =>
    (android.connect mCore consumerListener controlledByApp).core
  | .disconnect => (android.disconnect mCore).core
  | .getReleasedBuffers outSlotMask => (android.getReleasedBuffers mCore outSlotMask).core
  | .setDefaultBufferSize width height => (android.setDefaultBufferSize mCore width height).core
  | .setDefaultMaxBufferCount bufferCount =>
    (android.setDefaultMaxBufferCount mCore bufferCount).core
  | .disableAsyncBuffer => (android.disableAsyncBuffer mCore).core
  | .setMaxAcquiredBufferCount maxAcquiredBuffers =>
    (android.setMaxAcquiredBufferCount mCore maxAcquiredBuffers).core
  | .setConsumerName name => android.setConsumerName mCore name
  | .setDefaultBufferFormat defaultFormat =>
    (android.setDefaultBufferFormat mCore defaultFormat).core
  | .setConsumerUsageBits usage => (android.setConsumerUsageBits mCore usage).core
  | .setTransformHint hint => (android.setTransformHint mCore hint).core

/-- The core after a sequence of consumer calls, made in list order. -/
def runOps (mCore : BufferQueueCore) : List ConsumerOp → BufferQueueCore
  | [] => mCore
  | op :: ops => runOps (op.apply mCore) ops

/-- The number of slots of the table in state ACQUIRED. -/
def acquiredCount (mCore : BufferQueueCore) : Nat :=
  numAcquiredBuffers mCore.mSlots NUM_BUFFER_SLOTS

/-- A freshly constructed slot: FREE, no buffer, nothing recorded. -/
def freshSlot : BufferSlot := default

/-- An initial state in the sense of the acquired-count invariant: the table has
its `NUM_BUFFER_SLOTS` slots, all FREE, the Pending Queue is empty and the queue
is not abandoned. -/
def isInitial (mCore : BufferQueueCore) : Prop :=
  mCore.mSlots.length = NUM_BUFFER_SLOTS ∧
    (∀ b ∈ mCore.mSlots, b.mBufferState = BufferState.FREE) ∧
    mCore.mQueue = [] ∧ mCore.mIsAbandoned = false

/-- The core as constructed: 64 fresh slots, nothing queued, one buffer may be
acquired, nobody connected. -/
def initialCore : BufferQueueCore :=
  { mSlots := List.replicate NUM_BUFFER_SLOTS freshSlot
    mQueue := []
    mMaxAcquiredBufferCount := 1
    mIsAbandoned := false
    mConsumerListener := none
    mConsumerControlledByApp := false
    mConnectedProducerListener := none
    mConnectedApi := NO_CONNECTED_API
    mDefaultWidth := 1
    mDefaultHeight := 1
    mDefaultBufferFormat := 1
    mConsumerUsageBits := 0
    mTransformHint := 0
    mUseAsyncBuffer := true
    mDefaultMaxBufferCount := 2
    mConsumerName := "" }

/-! ## The acquired-count invariant -/

/-- A call is admissible in a state when it does not set the acquired-buffer
bound below what the slots already ACQUIRED need: every call is, except a
`setMaxAcquiredBufferCount(n)` made while more than `n + 1` slots are ACQUIRED. -/
def ConsumerOp.admissible (mCore : BufferQueueCore) : ConsumerOp → Bool
  | .setMaxAcquiredBufferCount maxAcquiredBuffers =>
    decide ((acquiredCount mCore : Int) ≤ maxAcquiredBuffers + 1)
  | _ => true

/-- Every call of the sequence is admissible in the state it is made in. -/
def admissibleOps (mCore : BufferQueueCore) : List ConsumerOp → Bool
  | [] => true
  | op :: ops => op.admissible mCore && admissibleOps (op.apply mCore) ops

/-- The acquired-count invariant: at most `mMaxAcquiredBufferCount + 1` slots are
ACQUIRED. -/
def acquiredBounded (mCore : BufferQueueCore) : Prop :=
  (acquiredCount mCore : Int) ≤ mCore.mMaxAcquiredBufferCount + 1

instance (mCore : BufferQueueCore) : Decidable (acquiredBounded mCore) := by
  unfold acquiredBounded; exact inferInstance

/-! ## Concrete states and runs: the inputs at which the theorems are evaluated -/

/-- A run that raises the bound to 2, attaches three buffers, acquires, releases
and detaches. -/
def admissibleRun : List ConsumerOp :=
  [ConsumerOp.setMaxAcquiredBufferCount 2, ConsumerOp.attach (some 0) (some 7),
   ConsumerOp.attach (some 0) (some 8), ConsumerOp.attach (some 0) (some 9),
   ConsumerOp.acquire 0, ConsumerOp.release 1 0 (some Fence.NO_FENCE) 0 0,
   ConsumerOp.detach 0, ConsumerOp.setMaxAcquiredBufferCount 1]

/-- The run of the counterexample: the bound is raised to 2, three buffers are
attached, the bound is lowered back to 1. -/
def loweringRun : List ConsumerOp :=
  [ConsumerOp.setMaxAcquiredBufferCount 2, ConsumerOp.attach (some 0) (some 7),
   ConsumerOp.attach (some 0) (some 8), ConsumerOp.attach (some 0) (some 9),
   ConsumerOp.setMaxAcquiredBufferCount 1]

/-! ## The item handed back by acquireBuffer -/

/-- The item `acquireBuffer` writes to `*outBuffer` for the queued entry `front`:
a copy of the entry, its buffer handle cleared when the entry's `mAcquireCalled`
is set. -/
def acquiredItem (front : BufferItem) : BufferItem :=
  if front.mAcquireCalled then { front with mGraphicBuffer := none } else front

/-! ## Concrete cores with queued entries -/

/-- A core with one consumer-owned buffer in slot 0 and three entries queued for
slots 1, 2 and 3, with desired present times 100, 150 and 4000000000 ns, none
auto-timestamped. -/
def queuedCore : BufferQueueCore :=
  { initialCore with
    mSlots :=
      [ { freshSlot with mGraphicBuffer := some 10, mBufferState := BufferState.ACQUIRED },
        { freshSlot with mGraphicBuffer := some 11, mBufferState := BufferState.QUEUED,
                         mFrameNumber := 1 },
        { freshSlot with mGraphicBuffer := some 12, mBufferState := BufferState.QUEUED,
                         mFrameNumber := 2 },
        { freshSlot with mGraphicBuffer := some 13, mBufferState := BufferState.QUEUED,
                         mFrameNumber := 3 } ] ++
      List.replicate 60 freshSlot
    mQueue :=
      [ { mGraphicBuffer := some 11, mFence := some (Fence.fd 5), mTimestamp := 100,
          mIsAutoTimestamp := false, mFrameNumber := 1, mSlot := 1, mAcquireCalled := false },
        { mGraphicBuffer := some 12, mFence := some (Fence.fd 6), mTimestamp := 150,
          mIsAutoTimestamp := false, mFrameNumber := 2, mSlot := 2, mAcquireCalled := false },
        { mGraphicBuffer := some 13, mFence := some (Fence.fd 7), mTimestamp := 4000000000,
          mIsAutoTimestamp := false, mFrameNumber := 3, mSlot := 3, mAcquireCalled := false } ] }

/-- The three entries queued in `queuedCore`. -/
def queuedEntry (i : Nat) : BufferItem :=
  queuedCore.mQueue.getD i
    { mGraphicBuffer := none, mFence := none, mTimestamp := 0, mIsAutoTimestamp := false,
      mFrameNumber := 0, mSlot := INVALID_BUFFER_SLOT, mAcquireCalled := false }

/-- The core `queuedCore` with its bound lowered so that the one ACQUIRED slot
already reaches `maxAcquiredBufferCount + 1`, and nothing queued. -/
def fullCore : BufferQueueCore :=
  { queuedCore with mMaxAcquiredBufferCount := 0, mQueue := [] }

/-- The core `queuedCore` with nothing queued. -/
def idleCore : BufferQueueCore :=
  { queuedCore with mQueue := [] }

/-- A core with two entries queued for slots 1 and 2: the head has desired present
time 100 and an explicit timestamp, the second has desired present time 130 and
is auto-timestamped. -/
def autoSecondCore : BufferQueueCore :=
  { queuedCore with
    mQueue :=
      [ { mGraphicBuffer := some 11, mFence := some (Fence.fd 5), mTimestamp := 100,
          mIsAutoTimestamp := false, mFrameNumber := 1, mSlot := 1, mAcquireCalled := false },
        { mGraphicBuffer := some 12, mFence := some (Fence.fd 6), mTimestamp := 130,
          mIsAutoTimestamp := true, mFrameNumber := 2, mSlot := 2, mAcquireCalled := false } ] }

/-- The two entries queued in `autoSecondCore`. -/
def autoSecondEntry (i : Nat) : BufferItem :=
  autoSecondCore.mQueue.getD i
    { mGraphicBuffer := none, mFence := none, mTimestamp := 0, mIsAutoTimestamp := false,
      mFrameNumber := 0, mSlot := INVALID_BUFFER_SLOT, mAcquireCalled := false }

/-- A core with two entries queued for slots 1 and 2: the head is auto-timestamped
with desired present time 100, the second has an explicit timestamp 130. -/
def autoHeadCore : BufferQueueCore :=
  { queuedCore with
    mQueue :=
      [ { mGraphicBuffer := some 11, mFence := some (Fence.fd 5), mTimestamp := 100,
          mIsAutoTimestamp := true, mFrameNumber := 1, mSlot := 1, mAcquireCalled := false },
        { mGraphicBuffer := some 12, mFence := some (Fence.fd 6), mTimestamp := 130,
          mIsAutoTimestamp := false, mFrameNumber := 2, mSlot := 2, mAcquireCalled := false } ] }

/-- The two entries queued in `autoHeadCore`. -/
def autoHeadEntry (i : Nat) : BufferItem :=
  autoHeadCore.mQueue.getD i
    { mGraphicBuffer := none, mFence := none, mTimestamp := 0, mIsAutoTimestamp := false,
      mFrameNumber := 0, mSlot := INVALID_BUFFER_SLOT, mAcquireCalled := false }

/-- The core `queuedCore` after slot 1 has been freed while its buffer is still
queued: the slot is FREE and holds no buffer, the queue still has its three
entries. -/
def staleCore : BufferQueueCore :=
  { queuedCore with mSlots := freeBufferLocked queuedCore.mSlots 1 }

/-- The core `staleCore` with its head entry marked as queued for a buffer the
consumer had already acquired: slot 1 was acquired, queued again, then freed. -/
def staleFlagCore : BufferQueueCore :=
  { staleCore with
    mQueue :=
      [ { mGraphicBuffer := some 11, mFence := some (Fence.fd 5), mTimestamp := 100,
          mIsAutoTimestamp := false, mFrameNumber := 1, mSlot := 1, mAcquireCalled := true },
        { mGraphicBuffer := some 12, mFence := some (Fence.fd 6), mTimestamp := 150,
          mIsAutoTimestamp := false, mFrameNumber := 2, mSlot := 2, mAcquireCalled := false } ] }

/-- The two entries queued in `staleFlagCore`. -/
def staleFlagEntry (i : Nat) : BufferItem :=
  staleFlagCore.mQueue.getD i
    { mGraphicBuffer := none, mFence := none, mTimestamp := 0, mIsAutoTimestamp := false,
      mFrameNumber := 0, mSlot := INVALID_BUFFER_SLOT, mAcquireCalled := false }

/-- The core `queuedCore` after slot 1 has been freed and handed out again to the
producer with a new buffer, while the entry queued for its old buffer is still in
the queue. -/
def recycledCore : BufferQueueCore :=
  { queuedCore with
    mSlots := updateSlot queuedCore.mSlots 1 (fun b =>
      { b with mGraphicBuffer := some 21, mBufferState := BufferState.DEQUEUED }) }

/-- A core whose queue holds two entries for slot 1 and its buffer 11, with desired
present times 100 and 150. -/
def twiceQueuedCore : BufferQueueCore :=
  { queuedCore with
    mQueue :=
      [ { mGraphicBuffer := some 11, mFence := some (Fence.fd 5), mTimestamp := 100,
          mIsAutoTimestamp := false, mFrameNumber := 1, mSlot := 1, mAcquireCalled := false },
        { mGraphicBuffer := some 11, mFence := some (Fence.fd 6), mTimestamp := 150,
          mIsAutoTimestamp := false, mFrameNumber := 2, mSlot := 1, mAcquireCalled := false } ] }

/-- A core with a producer listener connected and one queued entry, for slot 2:
slot 0 is ACQUIRED (frame number 7), slot 1 is FREE with `mNeedsCleanupOnRelease`
set (frame number 1), slot 2 is ACQUIRED and queued (frame number 2), slot 3 is
DEQUEUED (frame number 3). -/
def releaseCore : BufferQueueCore :=
  { queuedCore with
    mSlots :=
      [ { freshSlot with mGraphicBuffer := some 10, mBufferState := BufferState.ACQUIRED,
                         mFrameNumber := 7, mAcquireCalled := true },
        { freshSlot with mBufferState := BufferState.FREE, mFrameNumber := 1,
                         mNeedsCleanupOnRelease := true },
        { freshSlot with mGraphicBuffer := some 12, mBufferState := BufferState.ACQUIRED,
                         mFrameNumber := 2 },
        { freshSlot with mGraphicBuffer := some 13, mBufferState := BufferState.DEQUEUED,
                         mFrameNumber := 3 } ] ++
      List.replicate 60 freshSlot
    mQueue :=
      [ { mGraphicBuffer := some 12, mFence := some (Fence.fd 6), mTimestamp := 150,
          mIsAutoTimestamp := false, mFrameNumber := 2, mSlot := 2, mAcquireCalled := false } ]
    mConnectedProducerListener := some 3 }

/-! ## Abandoned cores -/

/-- The state left by a `disconnect`: abandoned, no consumer listener, nothing
queued. -/
def isTornDown (mCore : BufferQueueCore) : Prop :=
  mCore.mIsAbandoned = true ∧ mCore.mConsumerListener = none ∧ mCore.mQueue = []

/-- The core `queuedCore` with a consumer listener connected. -/
def connectedCore : BufferQueueCore :=
  { queuedCore with mConsumerListener := some 1 }

/-- The core `connectedCore` after `disconnect`. -/
def abandonedCore : BufferQueueCore :=
  (disconnect connectedCore).core

/-- Calls made after the `disconnect`: an attach, a release, setters and a new
connect attempt. -/
def afterDisconnectRun : List ConsumerOp :=
  [ConsumerOp.attach (some 0) (some 7), ConsumerOp.release 0 0 (some Fence.NO_FENCE) 0 0,
   ConsumerOp.setMaxAcquiredBufferCount 3, ConsumerOp.connect (some 2) true,
   ConsumerOp.acquire 0]

/-- The core `releaseCore` with the abandoned flag set. -/
def abandonedReleaseCore : BufferQueueCore :=
  { releaseCore with mIsAbandoned := true }

/-- The core `queuedCore` with a producer connected (API 2). -/
def producerCore : BufferQueueCore :=
  { queuedCore with mConnectedApi := 2 }

/-- The slot written by a successful `attachBuffer`. -/
def attachedSlot (b : BufferSlot) (buffer : Option Nat) : BufferSlot :=
  { b with
    mGraphicBuffer := buffer
    mBufferState := BufferState.ACQUIRED
    mAttachedByConsumer := true
    mNeedsCleanupOnRelease := false
    mFence := some Fence.NO_FENCE
    mFrameNumber := 0
    mAcquireCalled := false }

/-- A core whose 64 slots are all in use: slot 0 is ACQUIRED, the others are
DEQUEUED; one buffer may be acquired. -/
def busyCore : BufferQueueCore :=
  { initialCore with
    mSlots :=
      { freshSlot with mGraphicBuffer := some 10, mBufferState := BufferState.ACQUIRED } ::
        List.replicate 63 { freshSlot with mBufferState := BufferState.DEQUEUED } }

/-- A core with four FREE slots of frame numbers 9, 4, 4 and 6 at indices 0 to 3,
the other slots being DEQUEUED. -/
def agedCore : BufferQueueCore :=
  { initialCore with
    mSlots :=
      [ { freshSlot with mFrameNumber := 9 }, { freshSlot with mFrameNumber := 4 },
        { freshSlot with mFrameNumber := 4 }, { freshSlot with mFrameNumber := 6 } ] ++
      List.replicate 60 { freshSlot with mBufferState := BufferState.DEQUEUED } }

/-- The core `releaseCore` with a consumer listener connected. -/
def connectedReleaseCore : BufferQueueCore :=
  { releaseCore with mConsumerListener := some 1 }

/-! ## Frame numbers as slot identities -/

/-- The slots of a table are told apart by their frame numbers: every ACQUIRED slot
holds a buffer, and two distinct slots that hold a buffer have the same frame
number only when that number is 0. -/
def framesDistinct (mSlots : List BufferSlot) : Prop :=
  (∀ s : Int, (slotAt mSlots s).mBufferState = BufferState.ACQUIRED →
      (slotAt mSlots s).mGraphicBuffer ≠ none) ∧
    ∀ s t : Int, s ≠ t → (slotAt mSlots s).mGraphicBuffer ≠ none →
      (slotAt mSlots t).mGraphicBuffer ≠ none →
      (slotAt mSlots s).mFrameNumber = (slotAt mSlots t).mFrameNumber →
      (slotAt mSlots s).mFrameNumber = 0

/-- What a consumer call may do to one slot: keep its buffer and frame number
(making it ACQUIRED only if it holds a buffer), drop its buffer and leave it not
ACQUIRED, or give it a buffer with frame number 0. -/
def slotStep (b after : BufferSlot) : Prop :=
  (after.mGraphicBuffer = b.mGraphicBuffer ∧ after.mFrameNumber = b.mFrameNumber ∧
      (after.mBufferState = BufferState.ACQUIRED →
        b.mBufferState = BufferState.ACQUIRED ∨ b.mGraphicBuffer ≠ none)) ∨
    (after.mGraphicBuffer = none ∧ after.mBufferState ≠ BufferState.ACQUIRED) ∨
    (after.mFrameNumber = 0 ∧ after.mGraphicBuffer ≠ none)

/-- Two buffers attached one after the other. -/
def twoAttachRun : List ConsumerOp :=
  [ConsumerOp.attach (some 0) (some 7), ConsumerOp.attach (some 0) (some 8)]

/-- A core with one entry queued for slot 0 (buffer 11, frame number 1); the other
63 slots are FREE with frame number 9. -/
def reuseCore : BufferQueueCore :=
  { initialCore with
    mSlots :=
      { freshSlot with mGraphicBuffer := some 11, mBufferState := BufferState.QUEUED,
                       mFrameNumber := 1 } ::
        List.replicate 63 { freshSlot with mFrameNumber := 9 }
    mQueue :=
      [ { mGraphicBuffer := some 11, mFence := some (Fence.fd 5), mTimestamp := 100,
          mIsAutoTimestamp := false, mFrameNumber := 1, mSlot := 0, mAcquireCalled := false } ] }

/-- The entry of `reuseCore` is acquired and released, then a buffer is attached,
which goes to the oldest FREE slot, slot 0. -/
def reuseRun : List ConsumerOp :=
  [ConsumerOp.acquire 0, ConsumerOp.release 0 1 (some Fence.NO_FENCE) 0 0,
   ConsumerOp.attach (some 5) (some 7)]

/-! ## The drop loop as a bounded loop, and its closed form -/

/-- The drop loop of `acquireBuffer` run as a loop of at most `fuel + 1` evaluations
of `dropStep`: `none` when the loop has not stopped by then, otherwise the slot
table and queue at the exit together with the number of iterations that ran the
body. -/
def dropLoopFuel (expectedPresent : Int) :
    Nat → List BufferSlot → List BufferItem → Option (List BufferSlot × List BufferItem × Nat)
  | 0, mSlots, mQueue =>
    match dropStep expectedPresent mSlots mQueue with
    | none => some (mSlots, mQueue, 0)
    | some _ => none
  | fuel + 1, mSlots, mQueue =>
    match dropStep expectedPresent mSlots mQueue with
    | none => some (mSlots, mQueue, 0)
    | some (k, r) =>
      match dropLoopFuel expectedPresent fuel k r with
      | none => none
      | some (k1, r1, n) => some (k1, r1, n + 1)

/-- No entry of the Pending Queue whose slot is still tracked names a slot that is
in state ACQUIRED (when queue and table are consistent the queued entries name
QUEUED slots). -/
def noTrackedAcquired (mCore : BufferQueueCore) : Bool :=
  mCore.mQueue.all (fun item =>
    !stillTracking mCore.mSlots item ||
      decide ((slotAt mCore.mSlots item.mSlot).mBufferState ≠ BufferState.ACQUIRED))

/-- The core `releaseCore` with the bound on acquired buffers raised to 2: the slots
0 and 2 are ACQUIRED, and the one queued entry names slot 2, which still holds the
buffer of the entry. -/
def heldQueuedCore : BufferQueueCore :=
  { releaseCore with mMaxAcquiredBufferCount := 2 }

/-! ## TaskQueue (RenderThread.cpp) -/

/-- Modelled from the spec: `RenderTask.h` is not among the sources; of a task the
queue code reads and writes the run time `mRunAt` and the intrusive link `mNext`
(`none` is `NULL`, `some a` the task at address `a`), and a newly constructed
task or holder has a `NULL` link. -/
structure RenderTask where
  mRunAt : Int
  mNext : Option Nat
  deriving DecidableEq, Repr

/-- The class `TaskHolder` of `RenderThread.cpp`, a `RenderTask` itself (`mRunAt`, and
`mNext` pointing to the next holder) that wraps the task at address `mTask`. -/
structure TaskHolder where
  mRunAt : Int
  mNext : Option Nat
  mTask : Nat
  deriving DecidableEq, Repr

instance : Inhabited TaskHolder := ⟨{ mRunAt := 0, mNext := none, mTask := 0 }⟩

/-- Modelled from the spec: `RenderThread.h` is not among the sources; a `TaskQueue`
has the two pointers `mHead` and `mTail` its constructor sets to `NULL`.  The
memory they point into is carried along: `holders` are the `TaskHolder` objects
allocated so far, by address (a deleted holder keeps its address, which is not
reused), and `tasks` are the tasks of the callers, by address. -/
structure TaskQueue where
  mHead : Option Nat
  mTail : Option Nat
  holders : List TaskHolder
  tasks : Nat → RenderTask

/-- The ways a call on a `TaskQueue` ends without returning. -/
inductive Fault
  /-- The fatal assertion of `TaskQueue::queue` (task already in the queue). -/
  | alreadyInQueue
  /-- The fatal assertion of `TaskQueue::remove` (task not in the queue). -/
  | notInQueue
  /-- A `NULL` pointer is dereferenced. -/
  | nullDereference
  /-- A loop over the list has run through more holders than were ever allocated. -/
  | endlessLoop
  deriving DecidableEq, Repr

/-- The fault a call ended with, `none` when it returned. -/
def faultOf {α : Type} : Except Fault α → Option Fault
  | Except.ok _ => none
  | Except.error e => some e

/-- The holder at address `a`. -/
def holderAt (holders : List TaskHolder) (a : Nat) : TaskHolder :=
  holders.getD a default

/-- The write `holder->mNext = next` to the holder at address `a`. -/
def setHolderNext (holders : List TaskHolder) (a : Nat) (next : Option Nat) :
    List TaskHolder :=
  holders.set a { holderAt holders a with mNext := next }

/-- The write `task->mNext = next` to the task at address `t`. -/
def setTaskNext (tasks : Nat → RenderTask) (t : Nat) (next : Option Nat) : Nat → RenderTask :=
  fun a => if a = t then { tasks a with mNext := next } else tasks a

/-- The constructor `TaskQueue::TaskQueue()`, in a memory with the given tasks and
no holder. -/
def TaskQueue.empty (tasks : Nat → RenderTask) : TaskQueue :=
  { mHead := none, mTail := none, holders := [], tasks := tasks }

/-- The method `TaskHolder::attach(taskHolder)` of the holder at address `self`:
`mNext = taskHolder; mTask->mNext = taskHolder ? taskHolder->mTask : NULL`. -/
def TaskHolder.attach (q : TaskQueue) (self : Nat) (taskHolder : Option Nat) : TaskQueue :=
  { q with
    holders := setHolderNext q.holders self taskHolder
    tasks := setTaskNext q.tasks (holderAt q.holders self).mTask
      (match taskHolder with
       | some h => some (holderAt q.holders h).mTask
       | none => none) }

/-- The method `TaskHolder::detach()` of the holder at address `self`:
`mNext = NULL; mTask->mNext = NULL`. -/
def TaskHolder.detach (q : TaskQueue) (self : Nat) : TaskQueue :=
  { q with
    holders := setHolderNext q.holders self none
    tasks := setTaskNext q.tasks (holderAt q.holders self).mTask none }

/-- The expression `new TaskHolder(task)`: the holder is allocated at the address
`q.holders.length`, with the run time of the task and a `NULL` link. -/
def TaskQueue.allocate (q : TaskQueue) (task : Nat) : TaskQueue :=
  { q with
    holders := q.holders ++ [{ mRunAt := (q.tasks task).mRunAt, mNext := none, mTask := task }] }

/-- The method `TaskQueue::next(kill)`: the queue after the call and the pointer
returned (`delete holder` frees an address the model never reuses). -/
def TaskQueue.next (q : TaskQueue) (kill : Bool) : TaskQueue × Option Nat :=
  match q.mHead with
  | some holder =>
    (TaskHolder.detach
      { q with
        mHead := (holderAt q.holders holder).mNext
        mTail := if (holderAt q.holders holder).mNext = none then none else q.mTail }
      holder,
     if kill then none else some holder)
  | none => (q, none)

/-- The method `TaskQueue::peek()`. -/
def TaskQueue.peek (q : TaskQueue) : Option Nat :=
  match q.mHead with
  | some holder => some (holderAt q.holders holder).mTask
  | none => none

/-- The condition of the fatal assertion of `TaskQueue::queue`:
`task->mNext || (mTail != NULL && mTail->mTask == task)`. -/
def TaskQueue.alreadyQueued (q : TaskQueue) (task : Nat) : Bool :=
  (q.tasks task).mNext.isSome ||
    (match q.mTail with
     | some tail => decide ((holderAt q.holders tail).mTask = task)
     | none => false)

/-- The loop `while (next && next->mRunAt <= task->mRunAt)` of `TaskQueue::queue`,
from the given `previous` and `next`: the two pointers when the loop exits, `none`
when it has not exited after `fuel` iterations. -/
def insertionScan (holders : List TaskHolder) (runAt : Int) :
    Nat → Option Nat → Option Nat → Option (Option Nat × Option Nat)
  | _, previous, none => some (previous, none)
  | 0, previous, some next =>
    if (holderAt holders next).mRunAt ≤ runAt then none else some (previous, some next)
  | fuel + 1, previous, some next =>
    if (holderAt holders next).mRunAt ≤ runAt then
      insertionScan holders runAt fuel (some next) (holderAt holders next).mNext
    else some (previous, some next)

/-- The method `TaskQueue::queue(task)`. -/
def TaskQueue.queue (q : TaskQueue) (task : Nat) : Except Fault TaskQueue :=
  if q.alreadyQueued task then Except.error Fault.alreadyInQueue
  else
    match q.mTail with
    | some tail =>
      if (holderAt q.holders tail).mRunAt ≤ (q.tasks task).mRunAt then
        Except.ok
          { TaskHolder.attach (q.allocate task) tail (some q.holders.length) with
            mTail := some q.holders.length }
      else
        match insertionScan (q.allocate task).holders (q.tasks task).mRunAt
            q.holders.length none q.mHead with
        | none => Except.error Fault.endlessLoop
        | some (none, _) =>
          Except.ok
            { TaskHolder.attach (q.allocate task) q.holders.length q.mHead with
              mHead := some q.holders.length }
        | some (some previous, some next) =>
          Except.ok
            (TaskHolder.attach
              (TaskHolder.attach (q.allocate task) previous (some q.holders.length))
              q.holders.length (some next))
        | some (some previous, none) =>
          Except.ok
            { TaskHolder.attach (q.allocate task) previous (some q.holders.length) with
              mTail := some q.holders.length }
    | none =>
      Except.ok
        { q.allocate task with mHead := some q.holders.length, mTail := some q.holders.length }

/-- The method `TaskQueue::queueAtFront(task)`. -/
def TaskQueue.queueAtFront (q : TaskQueue) (task : Nat) : TaskQueue :=
  match q.mTail with
  | some _ =>
    { TaskHolder.attach (q.allocate task) q.holders.length q.mHead with
      mHead := some q.holders.length }
  | none =>
    { q.allocate task with mHead := some q.holders.length, mTail := some q.holders.length }

/-- The condition of the fatal assertion of `TaskQueue::remove`:
`!task->mNext && (mTail != NULL && mTail->mTask != task)`. -/
def TaskQueue.notQueued (q : TaskQueue) (task : Nat) : Bool :=
  (q.tasks task).mNext.isNone &&
    (match q.mTail with
     | some tail => decide ((holderAt q.holders tail).mTask ≠ task)
     | none => false)

/-- The loop `while (previous->next()->mTask != task)` of `TaskQueue::remove`, from
the given `previous`: the holder before the one that wraps `task`; a `NULL`
`previous` or `previous->next()` is dereferenced when the list ends first. -/
def removeScan (holders : List TaskHolder) (task : Nat) : Nat → Option Nat → Except Fault Nat
  | _, none => Except.error Fault.nullDereference
  | 0, some previous =>
    match (holderAt holders previous).mNext with
    | none => Except.error Fault.nullDereference
    | some next =>
      if (holderAt holders next).mTask ≠ task then Except.error Fault.endlessLoop
      else Except.ok previous
  | fuel + 1, some previous =>
    match (holderAt holders previous).mNext with
    | none => Except.error Fault.nullDereference
    | some next =>
      if (holderAt holders next).mTask ≠ task then removeScan holders task fuel (some next)
      else Except.ok previous

/-- The method `TaskQueue::remove(task)`. -/
def TaskQueue.remove (q : TaskQueue) (task : Nat) : Except Fault TaskQueue :=
  if q.notQueued task then Except.error Fault.notInQueue
  else if q.peek = some task then Except.ok (q.next true).1
  else
    match removeScan q.holders task q.holders.length q.mHead with
    | Except.error e => Except.error e
    | Except.ok previous =>
      match (holderAt q.holders previous).mNext with
      | none => Except.error Fault.nullDereference
      | some holder =>
        Except.ok
          { TaskHolder.attach q previous (holderAt q.holders holder).mNext with
            mTail := if q.mTail = some holder then some previous else q.mTail }

/-- The holders of the list, from `p` on, following `mNext` through at most `fuel`
holders. -/
def chainFrom (holders : List TaskHolder) : Nat → Option Nat → List Nat
  | 0, _ => []
  | _ + 1, none => []
  | fuel + 1, some a => a :: chainFrom holders fuel (holderAt holders a).mNext

/-- The holders in the queue, from `mHead` on. -/
def TaskQueue.chain (q : TaskQueue) : List Nat :=
  chainFrom q.holders q.holders.length q.mHead

/-- The tasks in the queue, in the order of the list. -/
def TaskQueue.queued (q : TaskQueue) : List Nat :=
  q.chain.map (fun a => (holderAt q.holders a).mTask)

/-- The run times of the queued tasks (taken by their holders when they were
queued), in the order of the list. -/
def TaskQueue.runTimes (q : TaskQueue) : List Int :=
  q.chain.map (fun a => (holderAt q.holders a).mRunAt)

/-- A call on a `TaskQueue`. -/
inductive TaskOp
  | queue (task : Nat)
  | next (kill : Bool)
  | remove (task : Nat)
  deriving DecidableEq, Repr

/-- The queue after one call, or the fault the call ends with. -/
def TaskOp.apply (q : TaskQueue) : TaskOp → Except Fault TaskQueue
  | TaskOp.queue task => q.queue task
  | TaskOp.next kill => Except.ok (q.next kill).1
  | TaskOp.remove task => q.remove task

/-- The queue after a sequence of calls, or the fault of the first call that does
not return. -/
def runTaskOps (q : TaskQueue) : List TaskOp → Except Fault TaskQueue
  | [] => Except.ok q
  | op :: ops =>
    match TaskOp.apply q op with
    | Except.ok q1 => runTaskOps q1 ops
    | Except.error e => Except.error e

/-- The queue a run ended with (the starting queue when it faulted). -/
def stateOf (q : TaskQueue) : Except Fault TaskQueue → TaskQueue
  | Except.ok q1 => q1
  | Except.error _ => q

/-- Five tasks with run times 10, 20, 20, 30 and 5 (any further task has run time
0), none of them linked. -/
def someTasks : Nat → RenderTask := fun a =>
  { mRunAt := [10, 20, 20, 30, 5].getD a 0, mNext := none }

/-! ## TaskQueue: the list in memory -/

/-- The holders `xs` form the list segment from pointer `p` to pointer `e`: `p`
points to the first of them, each `mNext` to the following one, the last `mNext`
is `e`; all of them are allocated. -/
def isSegment (holders : List TaskHolder) : Option Nat → List Nat → Option Nat → Prop
  | p, [], e => p = e
  | p, a :: as, e =>
    p = some a ∧ a < holders.length ∧ isSegment holders (holderAt holders a).mNext as e

/-- The task of the first of the holders `as`, `e` when there is none. -/
def taskAfter (holders : List TaskHolder) (as : List Nat) (e : Option Nat) : Option Nat :=
  match as with
  | b :: _ => some (holderAt holders b).mTask
  | [] => e

/-- The `mNext` links of the tasks wrapped by the holders `xs` mirror the list: each
points to the task of the following holder, the last one to `e`. -/
def tasksLinked (holders : List TaskHolder) (tasks : Nat → RenderTask) :
    List Nat → Option Nat → Prop
  | [], _ => True
  | a :: as, e =>
    (tasks (holderAt holders a).mTask).mNext = taskAfter holders as e ∧
      tasksLinked holders tasks as e

/-- The representation invariant of the list of holders: from `mHead` the `mNext`
pointers lead through the holders `xs`, each once, to `NULL`, and `mTail` is the
last of them (`NULL` when there is none). -/
structure TaskQueue.WellFormed (q : TaskQueue) (xs : List Nat) : Prop where
  chain : isSegment q.holders q.mHead xs none
  nodup : xs.Nodup
  tail : q.mTail = xs.getLast?

/-- The invariant of the intrusive links: the holders `xs` wrap pairwise distinct
tasks, and the `mNext` of each of these tasks points to the task queued behind it
(`NULL` for the last). -/
structure TaskQueue.Linked (q : TaskQueue) (xs : List Nat) : Prop where
  tasksNodup : (xs.map (fun a => (holderAt q.holders a).mTask)).Nodup
  linked : tasksLinked q.holders q.tasks xs none

/-! ## Concrete task queues -/

/-- The queue after `queue` was called for the tasks 1, 3 and 0 of `someTasks` (run
times 20, 30 and 10): it holds the tasks 0, 1, 3 in this order. -/
def queuedTasks : TaskQueue :=
  stateOf (TaskQueue.empty someTasks)
    (runTaskOps (TaskQueue.empty someTasks) [TaskOp.queue 1, TaskOp.queue 3, TaskOp.queue 0])

/-! ## The slot table: reads, writes and the count of ACQUIRED slots -/

theorem getD_set_slot (l : List BufferSlot) (n m : Nat) (v : BufferSlot) :
    (l.set n v).getD m default = if m = n ∧ n < l.length then v else l.getD m default := by
  simp only [List.getD_eq_getElem?_getD, List.getElem?_set]
  by_cases h : n = m
  · subst h
    by_cases h2 : n < l.length
    · simp [h2]
    · have h4 : l[n]? = none := List.getElem?_eq_none (by omega)
      simp [h2, h4]
  · have h3 : ¬ m = n := fun e => h e.symm
    simp [h, h3]

theorem slotAt_updateSlot (l : List BufferSlot) (t s : Int) (f : BufferSlot → BufferSlot) :
    slotAt (updateSlot l t f) s =
      if s = t ∧ 0 ≤ t ∧ t.toNat < l.length then f (slotAt l t) else slotAt l s := by
  unfold slotAt updateSlot
  by_cases ht : 0 ≤ t
  · by_cases hs : 0 ≤ s
    · simp only [ht, hs, if_true, getD_set_slot, true_and]
      by_cases hst : s = t
      · subst hst; simp
      · have : ¬ s.toNat = t.toNat := by omega
        simp [hst, this]
    · have hst : ¬ s = t := by omega
      simp [hs, hst]
  · simp [ht]

theorem updateSlot_length (l : List BufferSlot) (t : Int) (f : BufferSlot → BufferSlot) :
    (updateSlot l t f).length = l.length := by
  unfold updateSlot
  split <;> simp

/-- Tables whose slots agree in state everywhere but at index `t` differ by at
most one in the number of ACQUIRED slots. -/
theorem numAcquiredBuffers_le_succ (l k : List BufferSlot) (t : Int)
    (h : ∀ s : Int, s ≠ t → (slotAt k s).mBufferState = (slotAt l s).mBufferState) (n : Nat) :
    numAcquiredBuffers k n ≤
      numAcquiredBuffers l n + (if 0 ≤ t ∧ t < (n : Int) then 1 else 0) := by
  induction n with
  | zero => simp [numAcquiredBuffers]
  | succ n ih =>
    simp only [numAcquiredBuffers]
    by_cases hn : (n : Int) = t
    · have h0 : ¬ (0 ≤ t ∧ t < (n : Int)) := by omega
      have h1 : (0 ≤ t ∧ t < ((n + 1 : Nat) : Int)) := by omega
      rw [if_neg h0] at ih
      rw [if_pos h1]
      split <;> split <;> omega
    · rw [h n hn]
      have hmono : (if 0 ≤ t ∧ t < (n : Int) then 1 else 0) ≤
          (if 0 ≤ t ∧ t < ((n + 1 : Nat) : Int) then 1 else 0) := by
        split <;> split <;> omega
      split <;> omega

/-- A table whose ACQUIRED slots are all ACQUIRED in another table has no more
ACQUIRED slots than it. -/
theorem numAcquiredBuffers_mono (l k : List BufferSlot)
    (h : ∀ s : Int, (slotAt k s).mBufferState = BufferState.ACQUIRED →
      (slotAt l s).mBufferState = BufferState.ACQUIRED) (n : Nat) :
    numAcquiredBuffers k n ≤ numAcquiredBuffers l n := by
  induction n with
  | zero => simp [numAcquiredBuffers]
  | succ n ih =>
    simp only [numAcquiredBuffers]
    by_cases hk : (slotAt k n).mBufferState = BufferState.ACQUIRED
    · rw [if_pos hk, if_pos (h n hk)]; omega
    · rw [if_neg hk]; split <;> omega

/-! ## The drop loop -/

theorem dropLoop_eq_dropStep (E : Int) (l : List BufferSlot) (q : List BufferItem) :
    dropLoop E l q =
      match dropStep E l q with
      | none => (l, q)
      | some (k, r) => dropLoop E k r := by
  match q with
  | [] => simp [dropLoop, dropStep]
  | [a] => simp [dropLoop, dropStep]
  | front :: second :: rest =>
    simp only [dropLoop, dropStep]
    split
    · rfl
    · split <;> rfl

theorem dropLoop_ne_nil (E : Int) (l : List BufferSlot) (q : List BufferItem) (h : q ≠ []) :
    (dropLoop E l q).2 ≠ [] := by
  induction q generalizing l with
  | nil => exact absurd rfl h
  | cons front t ih =>
    cases t with
    | nil => simp [dropLoop]
    | cons second rest =>
      simp only [dropLoop]
      split
      · simp
      · split
        · simp
        · exact ih _ (by simp)

/-! ## The operations and the count of ACQUIRED slots -/

theorem numAcquiredBuffers_updateSlot_le_succ (l : List BufferSlot) (t : Int)
    (f : BufferSlot → BufferSlot) (n : Nat) :
    numAcquiredBuffers (updateSlot l t f) n ≤ numAcquiredBuffers l n + 1 := by
  have h := numAcquiredBuffers_le_succ l (updateSlot l t f) t
    (fun s hs => by rw [slotAt_updateSlot]; simp [hs]) n
  have h2 : (if 0 ≤ t ∧ t < (n : Int) then 1 else 0) ≤ 1 := by split <;> omega
  omega

theorem numAcquiredBuffers_updateSlot_le (l : List BufferSlot) (t : Int)
    (f : BufferSlot → BufferSlot)
    (hf : ∀ b, (f b).mBufferState = BufferState.ACQUIRED → b.mBufferState = BufferState.ACQUIRED)
    (n : Nat) :
    numAcquiredBuffers (updateSlot l t f) n ≤ numAcquiredBuffers l n := by
  apply numAcquiredBuffers_mono
  intro s hs
  rw [slotAt_updateSlot] at hs
  split at hs
  · rename_i hc
    rw [hc.1]; exact hf _ hs
  · exact hs

theorem numAcquiredBuffers_dropFront_le (l : List BufferSlot) (front : BufferItem) (n : Nat) :
    numAcquiredBuffers (dropFront l front) n ≤ numAcquiredBuffers l n := by
  unfold dropFront
  split
  · exact numAcquiredBuffers_updateSlot_le l _ _ (by intro b hb; simp at hb) n
  · exact le_refl _

theorem numAcquiredBuffers_dropLoop_le (E : Int) (l : List BufferSlot) (q : List BufferItem)
    (n : Nat) :
    numAcquiredBuffers (dropLoop E l q).1 n ≤ numAcquiredBuffers l n := by
  induction q generalizing l with
  | nil => simp [dropLoop]
  | cons front t ih =>
    cases t with
    | nil => simp [dropLoop]
    | cons second rest =>
      simp only [dropLoop]
      split
      · exact le_refl _
      · split
        · exact le_refl _
        · exact le_trans (ih _) (numAcquiredBuffers_dropFront_le l front n)

theorem numAcquiredBuffers_freeBufferLocked_le (l : List BufferSlot) (slot : Int) (n : Nat) :
    numAcquiredBuffers (freeBufferLocked l slot) n ≤ numAcquiredBuffers l n := by
  unfold freeBufferLocked
  exact numAcquiredBuffers_updateSlot_le l _ _ (by intro b hb; simp at hb) n

theorem numAcquiredBuffers_freeAllBuffersLocked_le (l : List BufferSlot) (m n : Nat) :
    numAcquiredBuffers (freeAllBuffersLocked l m) n ≤ numAcquiredBuffers l n := by
  induction m with
  | zero => simp [freeAllBuffersLocked]
  | succ m ih =>
    simp only [freeAllBuffersLocked]
    exact le_trans (numAcquiredBuffers_freeBufferLocked_le _ _ n) ih

theorem attachScan_numAcquiredBuffers (l : List BufferSlot) (n : Nat) :
    (attachScan l n).numAcquiredBuffers = numAcquiredBuffers l n := by
  induction n with
  | zero => simp [attachScan, numAcquiredBuffers]
  | succ n ih =>
    simp only [attachScan, numAcquiredBuffers]
    split
    · simp [ih]
    · split
      · split <;> simp [ih]
      · simp [ih]

theorem acquireFront_acquiredCount_le (c : BufferQueueCore) (k : List BufferSlot)
    (front : BufferItem) (rest : List BufferItem) :
    acquiredCount (acquireFront c k front rest).core ≤
      numAcquiredBuffers k NUM_BUFFER_SLOTS + 1 := by
  unfold acquireFront acquiredCount
  dsimp only
  split
  · exact numAcquiredBuffers_updateSlot_le_succ _ _ _ _
  · omega

theorem acquireFront_max (c : BufferQueueCore) (k : List BufferSlot)
    (front : BufferItem) (rest : List BufferItem) :
    (acquireFront c k front rest).core.mMaxAcquiredBufferCount = c.mMaxAcquiredBufferCount := rfl

theorem acquireBuffer_max (c : BufferQueueCore) (E : Int) :
    (acquireBuffer c E).core.mMaxAcquiredBufferCount = c.mMaxAcquiredBufferCount := by
  unfold acquireBuffer
  split
  · rfl
  · split
    · rfl
    · split
      · split
        · split <;> rfl
        · rfl
      · split <;> rfl

theorem acquireBuffer_acquiredBounded (c : BufferQueueCore) (E : Int)
    (h : acquiredBounded c) : acquiredBounded (acquireBuffer c E).core := by
  unfold acquiredBounded
  rw [acquireBuffer_max]
  unfold acquiredBounded at h
  unfold acquireBuffer
  split
  · exact h
  · rename_i hlt
    have hlt2 : (numAcquiredBuffers c.mSlots NUM_BUFFER_SLOTS : Int) <
        c.mMaxAcquiredBufferCount + 1 := by omega
    split
    · exact h
    · split
      · have hd := numAcquiredBuffers_dropLoop_le E c.mSlots c.mQueue NUM_BUFFER_SLOTS
        split
        · rename_i k front rest heq
          rw [heq] at hd
          simp only at hd
          split
          · show ((numAcquiredBuffers k NUM_BUFFER_SLOTS : Nat) : Int) ≤ _
            omega
          · have := acquireFront_acquiredCount_le c k front rest
            omega
        · exact h
      · split
        · have := acquireFront_acquiredCount_le c c.mSlots ‹_› ‹_›
          omega
        · exact h

theorem releaseBuffer_acquiredBounded (c : BufferQueueCore) (slot : Int) (frameNumber : Nat)
    (releaseFence : Option Fence) (eglDisplay eglFence : Nat) (h : acquiredBounded c) :
    acquiredBounded (releaseBuffer c slot frameNumber releaseFence eglDisplay eglFence).core := by
  unfold acquiredBounded acquiredCount at *
  unfold releaseBuffer
  split
  · exact h
  · split
    · exact h
    · split
      · exact h
      · split
        · have := numAcquiredBuffers_updateSlot_le c.mSlots slot
            (fun b => { b with mEglDisplay := eglDisplay, mEglFence := eglFence,
                               mFence := releaseFence, mBufferState := BufferState.FREE })
            (by intro b hb; simp at hb) NUM_BUFFER_SLOTS
          dsimp only
          omega
        · split
          · have := numAcquiredBuffers_updateSlot_le c.mSlots slot
              (fun b => { b with mNeedsCleanupOnRelease := false })
              (by intro b hb; exact hb) NUM_BUFFER_SLOTS
            dsimp only
            omega
          · exact h

theorem attachBuffer_acquiredBounded (c : BufferQueueCore) (outSlot : Option Int)
    (buffer : Option Nat) (h : acquiredBounded c) :
    acquiredBounded (attachBuffer c outSlot buffer).core := by
  unfold acquiredBounded acquiredCount at *
  unfold attachBuffer
  split
  · exact h
  · split
    · exact h
    · dsimp only
      rw [attachScan_numAcquiredBuffers]
      split
      · exact h
      · split
        · exact h
        · have := numAcquiredBuffers_updateSlot_le_succ c.mSlots
            (attachScan c.mSlots NUM_BUFFER_SLOTS).found
            (fun b => { b with mGraphicBuffer := buffer, mBufferState := BufferState.ACQUIRED,
                               mAttachedByConsumer := true, mNeedsCleanupOnRelease := false,
                               mFence := some Fence.NO_FENCE, mFrameNumber := 0,
                               mAcquireCalled := false }) NUM_BUFFER_SLOTS
          dsimp only
          omega

theorem detachBuffer_acquiredBounded (c : BufferQueueCore) (slot : Int)
    (h : acquiredBounded c) : acquiredBounded (detachBuffer c slot).core := by
  unfold acquiredBounded acquiredCount at *
  unfold detachBuffer
  split
  · exact h
  · split
    · exact h
    · split
      · exact h
      · have := numAcquiredBuffers_freeBufferLocked_le c.mSlots slot NUM_BUFFER_SLOTS
        dsimp only
        omega

theorem disconnect_acquiredBounded (c : BufferQueueCore)
    (h : acquiredBounded c) : acquiredBounded (disconnect c).core := by
  unfold acquiredBounded acquiredCount at *
  unfold disconnect
  split
  · exact h
  · have := numAcquiredBuffers_freeAllBuffersLocked_le c.mSlots NUM_BUFFER_SLOTS NUM_BUFFER_SLOTS
    dsimp only
    omega

/-- Every admissible consumer call keeps the acquired-count invariant. -/
theorem ConsumerOp.apply_acquiredBounded (c : BufferQueueCore) (op : ConsumerOp)
    (hadm : op.admissible c = true) (h : acquiredBounded c) :
    acquiredBounded (op.apply c) := by
  cases op with
  | acquire E => exact acquireBuffer_acquiredBounded c E h
  | release slot frameNumber releaseFence eglDisplay eglFence =>
    exact releaseBuffer_acquiredBounded c slot frameNumber releaseFence eglDisplay eglFence h
  | attach outSlot buffer => exact attachBuffer_acquiredBounded c outSlot buffer h
  | detach slot => exact detachBuffer_acquiredBounded c slot h
  | connect consumerListener controlledByApp =>
    simp only [ConsumerOp.apply, android.connect]
    split
    · exact h
    · split <;> exact h
  | disconnect => exact disconnect_acquiredBounded c h
  | getReleasedBuffers outSlotMask =>
    simp only [ConsumerOp.apply, android.getReleasedBuffers]
    split
    · exact h
    · split <;> exact h
  | setDefaultBufferSize width height =>
    simp only [ConsumerOp.apply, android.setDefaultBufferSize]
    split <;> exact h
  | setDefaultMaxBufferCount bufferCount =>
    simp only [ConsumerOp.apply, android.setDefaultMaxBufferCount, setDefaultMaxBufferCountLocked]
    split_ifs <;> exact h
  | disableAsyncBuffer =>
    simp only [ConsumerOp.apply, android.disableAsyncBuffer]
    split <;> exact h
  | setMaxAcquiredBufferCount maxAcquiredBuffers =>
    simp only [ConsumerOp.admissible, decide_eq_true_eq] at hadm
    simp only [ConsumerOp.apply, android.setMaxAcquiredBufferCount]
    split
    · exact h
    · split
      · exact h
      · exact hadm
  | setConsumerName name => exact h
  | setDefaultBufferFormat defaultFormat => exact h
  | setConsumerUsageBits usage => exact h
  | setTransformHint hint => exact h

theorem runOps_acquiredBounded (c : BufferQueueCore) (ops : List ConsumerOp)
    (hadm : admissibleOps c ops = true) (h : acquiredBounded c) :
    acquiredBounded (runOps c ops) := by
  induction ops generalizing c with
  | nil => exact h
  | cons op ops ih =>
    simp only [admissibleOps, Bool.and_eq_true] at hadm
    exact ih (op.apply c) hadm.2 (ConsumerOp.apply_acquiredBounded c op hadm.1 h)

/-! ## C1: the acquired-count invariant over runs -/

theorem slotAt_mem_or_default (l : List BufferSlot) (s : Int) :
    slotAt l s ∈ l ∨ slotAt l s = default := by
  unfold slotAt
  split
  · by_cases hlt : s.toNat < l.length
    · left
      rw [List.getD_eq_getElem l default hlt]
      exact List.getElem_mem hlt
    · right
      exact List.getD_eq_default l default (by omega)
  · right; rfl

theorem numAcquiredBuffers_of_all_free (l : List BufferSlot)
    (h : ∀ b ∈ l, b.mBufferState = BufferState.FREE) (n : Nat) :
    numAcquiredBuffers l n = 0 := by
  induction n with
  | zero => rfl
  | succ n ih =>
    simp only [numAcquiredBuffers]
    have hfree : (slotAt l n).mBufferState = BufferState.FREE := by
      rcases slotAt_mem_or_default l n with hm | hd
      · exact h _ hm
      · rw [hd]; rfl
    rw [hfree]
    simpa using ih

theorem isInitial_initialCore : isInitial initialCore := by
  refine ⟨by simp [initialCore], ?_, rfl, rfl⟩
  intro b hb
  simp only [initialCore] at hb
  rw [List.eq_of_mem_replicate hb]
  rfl

/-- C1 (as amended): in every state reachable from an initial state (all slots
FREE, empty Pending Queue, not abandoned, a non-negative acquired-buffer bound) by
a sequence of consumer operations in which every `setMaxAcquiredBufferCount(n)`
is called while at most `n + 1` slots are ACQUIRED, the number of ACQUIRED slots
is at most `maxAcquiredBufferCount + 1`. -/
theorem acquiredCount_le_max_succ_of_admissible (mCore : BufferQueueCore)
    (ops : List ConsumerOp) (hinit : isInitial mCore)
    (hmax : 0 ≤ mCore.mMaxAcquiredBufferCount) (hadm : admissibleOps mCore ops = true) :
    (acquiredCount (runOps mCore ops) : Int) ≤
      (runOps mCore ops).mMaxAcquiredBufferCount + 1 := by
  have h0 : acquiredBounded mCore := by
    unfold acquiredBounded acquiredCount
    rw [numAcquiredBuffers_of_all_free mCore.mSlots hinit.2.1]
    simp only [Nat.cast_zero]
    omega
  exact runOps_acquiredBounded mCore ops hadm h0

set_option maxRecDepth 100000 in
/-- C1 at a run that raises the bound, attaches three buffers, releases one, detaches
one and lowers the bound once it is allowed to: one slot is ACQUIRED at the end. -/
theorem acquiredCount_le_max_succ_of_admissible_witness :
    acquiredCount (runOps initialCore admissibleRun) = 1 ∧
      (acquiredCount (runOps initialCore admissibleRun) : Int) ≤
        (runOps initialCore admissibleRun).mMaxAcquiredBufferCount + 1 :=
  ⟨by decide,
   acquiredCount_le_max_succ_of_admissible initialCore admissibleRun isInitial_initialCore
    (by decide) (by decide)⟩

set_option maxRecDepth 100000 in
/-- C1 (counterexample): from the initial core, raising the bound to 2, attaching
three buffers and lowering the bound to 1 reaches a state with 3 ACQUIRED slots
and `maxAcquiredBufferCount + 1 = 2`. -/
theorem acquiredCount_exceeds_after_lowering :
    isInitial initialCore ∧
      acquiredCount (runOps initialCore loweringRun) = 3 ∧
      (runOps initialCore loweringRun).mMaxAcquiredBufferCount = 1 ∧
      ¬ ((acquiredCount (runOps initialCore loweringRun) : Int) ≤
        (runOps initialCore loweringRun).mMaxAcquiredBufferCount + 1) :=
  ⟨isInitial_initialCore, by decide, by decide, by decide⟩

/-! ## C2: acquireBuffer without an expected present time -/

theorem acquireFront_outBuffer (c : BufferQueueCore) (k : List BufferSlot)
    (front : BufferItem) (rest : List BufferItem) :
    (acquireFront c k front rest).outBuffer = some (acquiredItem front) := rfl

/-- C2: with a non-empty Pending Queue and fewer than `maxAcquiredBufferCount + 1`
ACQUIRED slots, `acquireBuffer` with `expectedPresent = 0` succeeds, hands back
the entry at the head of the queue whatever the timestamps and auto-timestamp
flags are, and leaves the queue equal to the old queue without its head. -/
theorem acquireBuffer_zero_takes_head (mCore : BufferQueueCore) (front : BufferItem)
    (rest : List BufferItem) (hq : mCore.mQueue = front :: rest)
    (hn : (acquiredCount mCore : Int) < mCore.mMaxAcquiredBufferCount + 1) :
    (acquireBuffer mCore 0).status = status_t.NO_ERROR ∧
      (acquireBuffer mCore 0).outBuffer = some (acquiredItem front) ∧
      (acquireBuffer mCore 0).core.mQueue = rest := by
  unfold acquiredCount at hn
  have h1 : ¬ ((numAcquiredBuffers mCore.mSlots NUM_BUFFER_SLOTS : Int) ≥
      mCore.mMaxAcquiredBufferCount + 1) := by omega
  unfold acquireBuffer
  rw [if_neg h1, hq]
  simp [acquireFront, acquiredItem]

set_option maxRecDepth 100000 in
/-- C2 at the core with three queued entries. -/
theorem acquireBuffer_zero_takes_head_witness :
    (acquireBuffer queuedCore 0).status = status_t.NO_ERROR ∧
      (acquireBuffer queuedCore 0).outBuffer = some (acquiredItem (queuedEntry 0)) ∧
      (acquireBuffer queuedCore 0).core.mQueue = [queuedEntry 1, queuedEntry 2] :=
  acquireBuffer_zero_takes_head queuedCore (queuedEntry 0) [queuedEntry 1, queuedEntry 2]
    (by decide) (by decide)

/-! ## C7: the max-acquired test of acquireBuffer -/

/-- C7: `acquireBuffer` returns INVALID_OPERATION exactly when at least
`maxAcquiredBufferCount + 1` slots are ACQUIRED at the time of the call; the test
comes before the empty-queue test (with the limit reached an empty queue yields
INVALID_OPERATION, not NO_BUFFER_AVAILABLE), and the call then changes nothing
and writes no item. -/
theorem acquireBuffer_invalid_operation_iff (mCore : BufferQueueCore) (expectedPresent : Int) :
    ((acquireBuffer mCore expectedPresent).status = status_t.INVALID_OPERATION ↔
        mCore.mMaxAcquiredBufferCount + 1 ≤ (acquiredCount mCore : Int)) ∧
      (mCore.mMaxAcquiredBufferCount + 1 ≤ (acquiredCount mCore : Int) →
        mCore.mQueue = [] →
        (acquireBuffer mCore expectedPresent).status = status_t.INVALID_OPERATION) ∧
      ((acquireBuffer mCore expectedPresent).status = status_t.INVALID_OPERATION →
        (acquireBuffer mCore expectedPresent).core = mCore ∧
        (acquireBuffer mCore expectedPresent).outBuffer = none) := by
  unfold acquiredCount
  by_cases h : (numAcquiredBuffers mCore.mSlots NUM_BUFFER_SLOTS : Int) ≥
      mCore.mMaxAcquiredBufferCount + 1
  · have hs : acquireBuffer mCore expectedPresent =
        { status := status_t.INVALID_OPERATION, core := mCore, outBuffer := none } := by
      unfold acquireBuffer; rw [if_pos h]
    rw [hs]
    exact ⟨⟨fun _ => h, fun _ => rfl⟩, fun _ _ => rfl, fun _ => ⟨rfl, rfl⟩⟩
  · have hne : (acquireBuffer mCore expectedPresent).status ≠ status_t.INVALID_OPERATION := by
      unfold acquireBuffer
      rw [if_neg h]
      split
      · simp
      · split
        · split
          · split
            · simp
            · simp [acquireFront]
          · simp
        · split
          · simp [acquireFront]
          · simp
    exact ⟨⟨fun e => absurd e hne, fun e => absurd e h⟩, fun e => absurd e h,
      fun e => absurd e hne⟩

set_option maxRecDepth 100000 in
/-- C7 at a core with the limit reached and nothing queued. -/
theorem acquireBuffer_invalid_operation_iff_witness :
    fullCore.mQueue = [] ∧
      (acquireBuffer fullCore 140).status = status_t.INVALID_OPERATION ∧
      (acquireBuffer fullCore 140).core = fullCore ∧
      (acquireBuffer fullCore 140).outBuffer = none :=
  ⟨rfl,
   (acquireBuffer_invalid_operation_iff fullCore 140).2.1 (by decide) rfl,
   (acquireBuffer_invalid_operation_iff fullCore 140).2.2
     ((acquireBuffer_invalid_operation_iff fullCore 140).2.1 (by decide) rfl)⟩

/-! ## C8: the empty-queue test of acquireBuffer -/

theorem wrapInt64_of_isInt64 (x : Int) (h : isInt64 x) : wrapInt64 x = x := by
  unfold isInt64 INT64_MIN INT64_MAX at h
  unfold wrapInt64
  omega

theorem acquireBuffer_status_ne_no_buffer (mCore : BufferQueueCore) (expectedPresent : Int)
    (hq : mCore.mQueue ≠ []) :
    (acquireBuffer mCore expectedPresent).status ≠ status_t.NO_BUFFER_AVAILABLE := by
  unfold acquireBuffer
  split
  · simp
  · split
    · rename_i he
      simp only [List.isEmpty_iff] at he
      exact absurd he hq
    · split
      · have hne := dropLoop_ne_nil expectedPresent mCore.mSlots mCore.mQueue hq
        split
        · split
          · simp
          · simp [acquireFront]
        · rename_i heq
          rw [heq] at hne
          exact absurd rfl hne
      · split
        · simp [acquireFront]
        · rename_i heq
          exact absurd heq hq

/-- C8: with fewer than `maxAcquiredBufferCount + 1` ACQUIRED slots and an empty
Pending Queue, `acquireBuffer` returns NO_BUFFER_AVAILABLE for every
`expectedPresent`, changes nothing and writes no item; and `acquireBuffer` never
returns NO_BUFFER_AVAILABLE when the queue is non-empty. -/
theorem acquireBuffer_no_buffer_available (mCore : BufferQueueCore) (expectedPresent : Int) :
    ((acquiredCount mCore : Int) < mCore.mMaxAcquiredBufferCount + 1 →
        mCore.mQueue = [] →
        acquireBuffer mCore expectedPresent =
          { status := status_t.NO_BUFFER_AVAILABLE, core := mCore, outBuffer := none }) ∧
      (mCore.mQueue ≠ [] →
        (acquireBuffer mCore expectedPresent).status ≠ status_t.NO_BUFFER_AVAILABLE) := by
  refine ⟨?_, acquireBuffer_status_ne_no_buffer mCore expectedPresent⟩
  intro hn hq
  unfold acquiredCount at hn
  have h1 : ¬ ((numAcquiredBuffers mCore.mSlots NUM_BUFFER_SLOTS : Int) ≥
      mCore.mMaxAcquiredBufferCount + 1) := by omega
  unfold acquireBuffer
  rw [if_neg h1, hq]
  simp

set_option maxRecDepth 100000 in
/-- C8 at a core with nothing queued, and at the core with three queued entries. -/
theorem acquireBuffer_no_buffer_available_witness :
    acquireBuffer idleCore 140 =
        { status := status_t.NO_BUFFER_AVAILABLE, core := idleCore, outBuffer := none } ∧
      (acquireBuffer queuedCore 140).status ≠ status_t.NO_BUFFER_AVAILABLE :=
  ⟨(acquireBuffer_no_buffer_available idleCore 140).1 (by decide) rfl,
   (acquireBuffer_no_buffer_available queuedCore 140).2 (by decide)⟩

/-! ## C3: the drop window -/

/-- C3: one evaluation of the drop loop of `acquireBuffer` (which runs it when
`expectedPresent` is not 0) on a queue of more than one entry whose head is not
auto-timestamped, `expectedPresent - 1s` being representable in 64 bits: the head is evicted exactly when the second entry's desired
present time `t` satisfies `expectedPresent - 1000000000 ≤ t ≤ expectedPresent`,
both bounds included; when `t < expectedPresent - 1s` or `t > expectedPresent`
nothing is evicted and the loop stops. -/
theorem dropStep_evicts_iff_in_window (expectedPresent : Int) (mSlots : List BufferSlot)
    (front second : BufferItem) (rest : List BufferItem)
    (hauto : front.mIsAutoTimestamp = false)
    (hrange : isInt64 (expectedPresent - MAX_REASONABLE_NSEC)) :
    (dropStep expectedPresent mSlots (front :: second :: rest) =
          some (dropFront mSlots front, second :: rest) ↔
        expectedPresent - 1000000000 ≤ second.mTimestamp ∧
          second.mTimestamp ≤ expectedPresent) ∧
      (second.mTimestamp < expectedPresent - 1000000000 ∨
          second.mTimestamp > expectedPresent →
        dropStep expectedPresent mSlots (front :: second :: rest) = none ∧
          dropLoop expectedPresent mSlots (front :: second :: rest) =
            (mSlots, front :: second :: rest)) := by
  have hw := wrapInt64_of_isInt64 _ hrange
  have hnd : noDrop expectedPresent second.mTimestamp = true ↔
      (second.mTimestamp < expectedPresent - 1000000000 ∨
        second.mTimestamp > expectedPresent) := by
    unfold noDrop
    rw [hw]
    simp [MAX_REASONABLE_NSEC]
  by_cases hc : noDrop expectedPresent second.mTimestamp = true
  · have hout := hnd.1 hc
    have hstep : dropStep expectedPresent mSlots (front :: second :: rest) = none := by
      simp [dropStep, hauto, hc]
    have hloop : dropLoop expectedPresent mSlots (front :: second :: rest) =
        (mSlots, front :: second :: rest) := by
      simp [dropLoop, hauto, hc]
    refine ⟨⟨fun h => ?_, fun h => ?_⟩, fun _ => ⟨hstep, hloop⟩⟩
    · rw [hstep] at h; exact absurd h (by simp)
    · omega
  · have hin : ¬ (second.mTimestamp < expectedPresent - 1000000000 ∨
        second.mTimestamp > expectedPresent) := fun h => hc (hnd.2 h)
    have hstep : dropStep expectedPresent mSlots (front :: second :: rest) =
        some (dropFront mSlots front, second :: rest) := by
      simp [dropStep, hauto, hc]
    refine ⟨⟨fun _ => by omega, fun _ => hstep⟩, fun h => absurd h hin⟩

set_option maxRecDepth 100000 in
/-- C3 with the second entry exactly at the upper bound of the window. -/
theorem dropStep_evicts_iff_in_window_witness :
    (dropStep 150 queuedCore.mSlots [queuedEntry 0, queuedEntry 1, queuedEntry 2] =
          some (dropFront queuedCore.mSlots (queuedEntry 0), [queuedEntry 1, queuedEntry 2]) ↔
        150 - 1000000000 ≤ (queuedEntry 1).mTimestamp ∧ (queuedEntry 1).mTimestamp ≤ 150) ∧
      ((queuedEntry 1).mTimestamp < 150 - 1000000000 ∨ (queuedEntry 1).mTimestamp > 150 →
        dropStep 150 queuedCore.mSlots [queuedEntry 0, queuedEntry 1, queuedEntry 2] = none ∧
          dropLoop 150 queuedCore.mSlots [queuedEntry 0, queuedEntry 1, queuedEntry 2] =
            (queuedCore.mSlots, [queuedEntry 0, queuedEntry 1, queuedEntry 2])) :=
  dropStep_evicts_iff_in_window 150 queuedCore.mSlots (queuedEntry 0) (queuedEntry 1)
    [queuedEntry 2] (by decide) (by decide)

/-! ## C4: the auto-timestamp flag that stops the drop loop -/

/-- The result of `acquireBuffer` once the two entry tests are passed, for a
non-zero `expectedPresent`: it is decided by the state the drop loop leaves. -/
theorem acquireBuffer_of_dropLoop (c : BufferQueueCore) (E : Int) (hE : E ≠ 0)
    (hn : (acquiredCount c : Int) < c.mMaxAcquiredBufferCount + 1)
    (k : List BufferSlot) (front : BufferItem) (rest : List BufferItem)
    (hd : dropLoop E c.mSlots c.mQueue = (k, front :: rest)) :
    acquireBuffer c E =
      if presentLater E front.mTimestamp then
        { status := status_t.PRESENT_LATER
          core := { c with mSlots := k, mQueue := front :: rest }
          outBuffer := none }
      else acquireFront c k front rest := by
  unfold acquiredCount at hn
  have h1 : ¬ ((numAcquiredBuffers c.mSlots NUM_BUFFER_SLOTS : Int) ≥
      c.mMaxAcquiredBufferCount + 1) := by omega
  have h2 : ¬ (c.mQueue.isEmpty = true) := by
    intro he
    simp only [List.isEmpty_iff] at he
    rw [he] at hd
    simp [dropLoop] at hd
  unfold acquireBuffer
  rw [if_neg h1, if_neg h2, if_pos hE, hd]

/-- The result of `acquireBuffer` once the two entry tests are passed, for
`expectedPresent = 0`. -/
theorem acquireBuffer_zero (c : BufferQueueCore)
    (hn : (acquiredCount c : Int) < c.mMaxAcquiredBufferCount + 1)
    (front : BufferItem) (rest : List BufferItem) (hq : c.mQueue = front :: rest) :
    acquireBuffer c 0 = acquireFront c c.mSlots front rest := by
  unfold acquiredCount at hn
  have h1 : ¬ ((numAcquiredBuffers c.mSlots NUM_BUFFER_SLOTS : Int) ≥
      c.mMaxAcquiredBufferCount + 1) := by omega
  unfold acquireBuffer
  rw [if_neg h1, hq]
  simp

/-- A call of `acquireBuffer` that fails one of its two entry tests changes
nothing. -/
theorem acquireBuffer_core_of_blocked (c : BufferQueueCore) (E : Int)
    (h : ¬ ((acquiredCount c : Int) < c.mMaxAcquiredBufferCount + 1) ∨ c.mQueue = []) :
    (acquireBuffer c E).core = c ∧ (acquireBuffer c E).status ≠ status_t.NO_ERROR := by
  unfold acquiredCount at h
  unfold acquireBuffer
  split
  · simp
  · split
    · simp
    · rename_i h1 h2
      simp only [List.isEmpty_iff] at h2
      rcases h with h | h
      · omega
      · exact absurd h h2

set_option maxRecDepth 100000 in
/-- C4 (counterexample): the queue holds a head with an explicit timestamp and an
auto-timestamped second entry whose desired present time 130 lies in the drop
window of `expectedPresent = 140`; `acquireBuffer` evicts the head (its slot 1
becomes FREE), hands back the second entry and leaves the queue empty. -/
theorem acquireBuffer_drops_before_auto_second :
    autoSecondCore.mQueue = [autoSecondEntry 0, autoSecondEntry 1] ∧
      (autoSecondEntry 0).mIsAutoTimestamp = false ∧
      (autoSecondEntry 1).mIsAutoTimestamp = true ∧
      dropStep 140 autoSecondCore.mSlots autoSecondCore.mQueue =
        some (dropFront autoSecondCore.mSlots (autoSecondEntry 0), [autoSecondEntry 1]) ∧
      (acquireBuffer autoSecondCore 140).status = status_t.NO_ERROR ∧
      (acquireBuffer autoSecondCore 140).outBuffer = some (autoSecondEntry 1) ∧
      (acquireBuffer autoSecondCore 140).core.mQueue = [] ∧
      (slotAt autoSecondCore.mSlots 1).mBufferState = BufferState.QUEUED ∧
      (slotAt (acquireBuffer autoSecondCore 140).core.mSlots 1).mBufferState =
        BufferState.FREE := by
  decide

/-- C4 (as amended): the drop loop of `acquireBuffer` evicts only while the queue
has more than one entry and the HEAD entry is not auto-timestamped; for every
queue whose head entry is auto-timestamped, `acquireBuffer` with a non-zero
`expectedPresent` evicts no entry, whatever the second entry's flag and
timestamp are: the loop leaves table and queue as they were, a successful call
hands back the head and leaves the entries behind it, and any other call changes
nothing. -/
theorem dropLoop_keeps_auto_head (mCore : BufferQueueCore) (expectedPresent : Int)
    (front : BufferItem) (rest : List BufferItem)
    (hE : expectedPresent ≠ 0)
    (hq : mCore.mQueue = front :: rest)
    (hauto : front.mIsAutoTimestamp = true) :
    (∀ mSlots mQueue r, dropStep expectedPresent mSlots mQueue = some r →
        ∃ head second tail, mQueue = head :: second :: tail ∧
          head.mIsAutoTimestamp = false) ∧
      dropLoop expectedPresent mCore.mSlots mCore.mQueue = (mCore.mSlots, mCore.mQueue) ∧
      ((acquireBuffer mCore expectedPresent).status = status_t.NO_ERROR →
        (acquireBuffer mCore expectedPresent).outBuffer = some (acquiredItem front) ∧
          (acquireBuffer mCore expectedPresent).core.mQueue = rest) ∧
      ((acquireBuffer mCore expectedPresent).status ≠ status_t.NO_ERROR →
        (acquireBuffer mCore expectedPresent).core = mCore) := by
  have hloop : dropLoop expectedPresent mCore.mSlots mCore.mQueue =
      (mCore.mSlots, mCore.mQueue) := by
    rw [hq]
    cases rest with
    | nil => simp [dropLoop]
    | cons second tail => simp [dropLoop, hauto]
  have hacq : (acquiredCount mCore : Int) < mCore.mMaxAcquiredBufferCount + 1 →
      acquireBuffer mCore expectedPresent =
        if presentLater expectedPresent front.mTimestamp then
          { status := status_t.PRESENT_LATER, core := mCore, outBuffer := none }
        else acquireFront mCore mCore.mSlots front rest := by
    intro hn
    rw [acquireBuffer_of_dropLoop mCore expectedPresent hE hn mCore.mSlots front rest
      (by rw [hloop, hq])]
    cases mCore
    simp only at hq
    simp [hq]
  refine ⟨?_, hloop, ?_, ?_⟩
  · intro mSlots mQueue r hr
    match mQueue, hr with
    | head :: second :: tail, hr =>
      refine ⟨head, second, tail, rfl, ?_⟩
      by_cases ha : head.mIsAutoTimestamp = true
      · simp [dropStep, ha] at hr
      · simpa using ha
    | [_], hr => simp [dropStep] at hr
    | [], hr => simp [dropStep] at hr
  · by_cases hn : (acquiredCount mCore : Int) < mCore.mMaxAcquiredBufferCount + 1
    · rw [hacq hn]
      split
      · simp
      · intro _; exact ⟨rfl, rfl⟩
    · intro hs
      exact absurd hs (acquireBuffer_core_of_blocked mCore expectedPresent (Or.inl hn)).2
  · by_cases hn : (acquiredCount mCore : Int) < mCore.mMaxAcquiredBufferCount + 1
    · rw [hacq hn]
      split
      · intro _; rfl
      · simp [acquireFront]
    · intro _
      exact (acquireBuffer_core_of_blocked mCore expectedPresent (Or.inl hn)).1

set_option maxRecDepth 100000 in
/-- C4 (as amended) at a queue with an auto-timestamped head and a second entry inside
the window. -/
theorem dropLoop_keeps_auto_head_witness :
    (autoHeadEntry 1).mIsAutoTimestamp = false ∧
      140 - 1000000000 ≤ (autoHeadEntry 1).mTimestamp ∧ (autoHeadEntry 1).mTimestamp ≤ 140 ∧
      dropLoop 140 autoHeadCore.mSlots autoHeadCore.mQueue =
        (autoHeadCore.mSlots, autoHeadCore.mQueue) ∧
      (acquireBuffer autoHeadCore 140).outBuffer = some (acquiredItem (autoHeadEntry 0)) ∧
      (acquireBuffer autoHeadCore 140).core.mQueue = [autoHeadEntry 1] :=
  ⟨by decide, by decide, by decide,
   (dropLoop_keeps_auto_head autoHeadCore 140 (autoHeadEntry 0) [autoHeadEntry 1]
      (by decide) (by decide) (by decide)).2.1,
   ((dropLoop_keeps_auto_head autoHeadCore 140 (autoHeadEntry 0) [autoHeadEntry 1]
      (by decide) (by decide) (by decide)).2.2.1 (by decide)).1,
   ((dropLoop_keeps_auto_head autoHeadCore 140 (autoHeadEntry 0) [autoHeadEntry 1]
      (by decide) (by decide) (by decide)).2.2.1 (by decide)).2⟩

/-! ## C5, C6: deferral of the head -/

theorem dropLoop_suffix (E : Int) (l : List BufferSlot) (q : List BufferItem) :
    ∃ dropped, q = dropped ++ (dropLoop E l q).2 := by
  induction q generalizing l with
  | nil => exact ⟨[], by simp [dropLoop]⟩
  | cons front t ih =>
    cases t with
    | nil => exact ⟨[], by simp [dropLoop]⟩
    | cons second rest =>
      simp only [dropLoop]
      split
      · exact ⟨[], rfl⟩
      · split
        · exact ⟨[], rfl⟩
        · obtain ⟨d, hd⟩ := ih (dropFront l front)
          exact ⟨front :: d, by rw [List.cons_append, ← hd]⟩

theorem acquireFront_status (c : BufferQueueCore) (k : List BufferSlot)
    (front : BufferItem) (rest : List BufferItem) :
    (acquireFront c k front rest).status = status_t.NO_ERROR := rfl

theorem acquireFront_mQueue (c : BufferQueueCore) (k : List BufferSlot)
    (front : BufferItem) (rest : List BufferItem) :
    (acquireFront c k front rest).core.mQueue = rest := rfl

/-- C5: for `acquireBuffer` with a non-zero `expectedPresent` that passes the
max-acquired and empty-queue tests (`expectedPresent + 1s` being representable in
64 bits): the drop loop leaves a head entry, and the call returns PRESENT_LATER
if and only if the desired present time `t` of that head satisfies
`expectedPresent < t < expectedPresent + 1000000000`; otherwise (`t ≤
expectedPresent` or `t ≥ expectedPresent + 1s`) the call succeeds, hands back
that head and leaves the entries behind it queued. -/
theorem acquireBuffer_present_later_iff (mCore : BufferQueueCore) (expectedPresent : Int)
    (hE : expectedPresent ≠ 0)
    (hn : (acquiredCount mCore : Int) < mCore.mMaxAcquiredBufferCount + 1)
    (hq : mCore.mQueue ≠ [])
    (hrange : isInt64 (expectedPresent + MAX_REASONABLE_NSEC)) :
    ∃ front rest,
      (dropLoop expectedPresent mCore.mSlots mCore.mQueue).2 = front :: rest ∧
      ((acquireBuffer mCore expectedPresent).status = status_t.PRESENT_LATER ↔
        expectedPresent < front.mTimestamp ∧
          front.mTimestamp < expectedPresent + 1000000000) ∧
      (front.mTimestamp ≤ expectedPresent ∨
          expectedPresent + 1000000000 ≤ front.mTimestamp →
        (acquireBuffer mCore expectedPresent).status = status_t.NO_ERROR ∧
          (acquireBuffer mCore expectedPresent).outBuffer = some (acquiredItem front) ∧
          (acquireBuffer mCore expectedPresent).core.mQueue = rest) := by
  have hne := dropLoop_ne_nil expectedPresent mCore.mSlots mCore.mQueue hq
  generalize hd : dropLoop expectedPresent mCore.mSlots mCore.mQueue = r at hne
  obtain ⟨k, q⟩ := r
  cases q with
  | nil => exact absurd rfl hne
  | cons front rest =>
    refine ⟨front, rest, rfl, ?_⟩
    rw [acquireBuffer_of_dropLoop mCore expectedPresent hE hn k front rest hd]
    have hw := wrapInt64_of_isInt64 _ hrange
    have hpl : presentLater expectedPresent front.mTimestamp = true ↔
        (expectedPresent < front.mTimestamp ∧
          front.mTimestamp < expectedPresent + 1000000000) := by
      unfold presentLater
      rw [hw]
      simp [MAX_REASONABLE_NSEC]
    by_cases hc : presentLater expectedPresent front.mTimestamp = true
    · rw [if_pos hc]
      have hin := hpl.1 hc
      exact ⟨⟨fun _ => hin, fun _ => rfl⟩, fun h => by omega⟩
    · rw [if_neg hc]
      refine ⟨⟨fun h => ?_, fun h => absurd (hpl.2 h) hc⟩, fun _ => ⟨rfl, rfl, rfl⟩⟩
      rw [acquireFront_status] at h
      exact absurd h (by decide)

set_option maxRecDepth 100000 in
/-- C5 at a head entry due 10 ns after the expected present time. -/
theorem acquireBuffer_present_later_iff_witness :
    (dropLoop 90 queuedCore.mSlots queuedCore.mQueue).2 =
        [queuedEntry 0, queuedEntry 1, queuedEntry 2] ∧
      (90 : Int) < (queuedEntry 0).mTimestamp ∧
      (queuedEntry 0).mTimestamp < 90 + 1000000000 ∧
      (acquireBuffer queuedCore 90).status = status_t.PRESENT_LATER ∧
      ∃ front rest,
        (dropLoop 90 queuedCore.mSlots queuedCore.mQueue).2 = front :: rest ∧
        ((acquireBuffer queuedCore 90).status = status_t.PRESENT_LATER ↔
          90 < front.mTimestamp ∧ front.mTimestamp < 90 + 1000000000) ∧
        (front.mTimestamp ≤ 90 ∨ 90 + 1000000000 ≤ front.mTimestamp →
          (acquireBuffer queuedCore 90).status = status_t.NO_ERROR ∧
            (acquireBuffer queuedCore 90).outBuffer = some (acquiredItem front) ∧
            (acquireBuffer queuedCore 90).core.mQueue = rest) :=
  ⟨by decide, by decide, by decide, by decide,
   acquireBuffer_present_later_iff queuedCore 90 (by decide) (by decide) (by decide)
    (by decide)⟩

theorem slotAt_dropFront_buffer (l : List BufferSlot) (front : BufferItem) (s : Int) :
    (slotAt (dropFront l front) s).mGraphicBuffer = (slotAt l s).mGraphicBuffer := by
  unfold dropFront
  split
  · rw [slotAt_updateSlot]
    split
    · rename_i hc
      rw [hc.1]
    · rfl
  · rfl

theorem stillTracking_dropFront (l : List BufferSlot) (front item : BufferItem) :
    stillTracking (dropFront l front) item = stillTracking l item := by
  unfold stillTracking
  rw [slotAt_dropFront_buffer]

theorem stillTracking_dropLoop (E : Int) (l : List BufferSlot) (q : List BufferItem)
    (item : BufferItem) :
    stillTracking (dropLoop E l q).1 item = stillTracking l item := by
  induction q generalizing l with
  | nil => simp [dropLoop]
  | cons front t ih =>
    cases t with
    | nil => simp [dropLoop]
    | cons second rest =>
      simp only [dropLoop]
      split
      · rfl
      · split
        · rfl
        · rw [ih, stillTracking_dropFront]

theorem slotAt_inRange_of_buffer (l : List BufferSlot) (s : Int)
    (h : (slotAt l s).mGraphicBuffer ≠ none) : 0 ≤ s ∧ s.toNat < l.length := by
  unfold slotAt at h
  by_cases hs : 0 ≤ s
  · refine ⟨hs, ?_⟩
    by_contra hlt
    rw [if_pos hs, List.getD_eq_default l default (by omega)] at h
    exact h rfl
  · rw [if_neg hs] at h
    exact absurd rfl h

/-- A successful `acquireBuffer` is the taking of one queued entry: the entries
before it were dropped, the entries behind it stay queued. -/
theorem acquireBuffer_success_cases (c : BufferQueueCore) (E : Int)
    (hs : (acquireBuffer c E).status = status_t.NO_ERROR) :
    ∃ dropped front rest k,
      c.mQueue = dropped ++ front :: rest ∧
      (∀ item, stillTracking k item = stillTracking c.mSlots item) ∧
      acquireBuffer c E = acquireFront c k front rest := by
  by_cases hn : (acquiredCount c : Int) < c.mMaxAcquiredBufferCount + 1
  swap
  · exact absurd hs (acquireBuffer_core_of_blocked c E (Or.inl hn)).2
  by_cases hq : c.mQueue = []
  · exact absurd hs (acquireBuffer_core_of_blocked c E (Or.inr hq)).2
  by_cases hE : E = 0
  · subst hE
    match hc : c.mQueue with
    | [] => exact absurd hc hq
    | front :: rest =>
      exact ⟨[], front, rest, c.mSlots, rfl, fun _ => rfl,
        acquireBuffer_zero c hn front rest hc⟩
  · have hne := dropLoop_ne_nil E c.mSlots c.mQueue hq
    obtain ⟨dropped, hdrop⟩ := dropLoop_suffix E c.mSlots c.mQueue
    have htrack := stillTracking_dropLoop E c.mSlots c.mQueue
    generalize hd : dropLoop E c.mSlots c.mQueue = r at hne hdrop htrack
    obtain ⟨k, q⟩ := r
    cases q with
    | nil => exact absurd rfl hne
    | cons front rest =>
      have heq := acquireBuffer_of_dropLoop c E hE hn k front rest hd
      by_cases hp : presentLater E front.mTimestamp = true
      · rw [heq, if_pos hp] at hs
        simp at hs
      · rw [if_neg hp] at heq
        exact ⟨dropped, front, rest, k, hdrop, htrack, heq⟩

theorem acquireFront_tracked_slot (c : BufferQueueCore) (k : List BufferSlot)
    (front : BufferItem) (rest : List BufferItem) (ht : stillTracking k front = true) :
    (slotAt (acquireFront c k front rest).core.mSlots front.mSlot).mBufferState =
        BufferState.ACQUIRED ∧
      (slotAt (acquireFront c k front rest).core.mSlots front.mSlot).mFence =
        some Fence.NO_FENCE ∧
      (slotAt (acquireFront c k front rest).core.mSlots front.mSlot).mAcquireCalled = true ∧
      (slotAt (acquireFront c k front rest).core.mSlots
        front.mSlot).mNeedsCleanupOnRelease = false := by
  have hbuf : (slotAt k front.mSlot).mGraphicBuffer ≠ none := by
    unfold stillTracking at ht
    simp only [Bool.and_eq_true, bne_iff_ne] at ht
    exact ht.1
  have hr := slotAt_inRange_of_buffer k front.mSlot hbuf
  unfold acquireFront
  simp only [ht, if_true]
  rw [slotAt_updateSlot, if_pos ⟨rfl, hr.1, hr.2⟩]
  exact ⟨rfl, rfl, rfl, rfl⟩

/-- C9 (as amended): whenever `acquireBuffer` succeeds, the entry handed back has
been removed from the Pending Queue (the entries behind it stay, those before it
were dropped) and the item written to `*outBuffer` carries the fence, slot index,
frame number and timestamp the queued entry had; and, when the entry's slot is
still tracked (the slot still holds the entry's buffer), that slot is ACQUIRED in
the table with its fence set to NO_FENCE, `mAcquireCalled` true and
`mNeedsCleanupOnRelease` false. -/
theorem acquireBuffer_success_effect (mCore : BufferQueueCore) (expectedPresent : Int)
    (hs : (acquireBuffer mCore expectedPresent).status = status_t.NO_ERROR) :
    ∃ dropped front rest out,
      mCore.mQueue = dropped ++ front :: rest ∧
      (acquireBuffer mCore expectedPresent).core.mQueue = rest ∧
      (acquireBuffer mCore expectedPresent).outBuffer = some out ∧
      out.mFence = front.mFence ∧ out.mSlot = front.mSlot ∧
      out.mFrameNumber = front.mFrameNumber ∧ out.mTimestamp = front.mTimestamp ∧
      (stillTracking mCore.mSlots front = true →
        (slotAt (acquireBuffer mCore expectedPresent).core.mSlots front.mSlot).mBufferState =
            BufferState.ACQUIRED ∧
          (slotAt (acquireBuffer mCore expectedPresent).core.mSlots front.mSlot).mFence =
            some Fence.NO_FENCE ∧
          (slotAt (acquireBuffer mCore expectedPresent).core.mSlots
            front.mSlot).mAcquireCalled = true ∧
          (slotAt (acquireBuffer mCore expectedPresent).core.mSlots
            front.mSlot).mNeedsCleanupOnRelease = false) := by
  obtain ⟨dropped, front, rest, k, hq, htrack, heq⟩ :=
    acquireBuffer_success_cases mCore expectedPresent hs
  refine ⟨dropped, front, rest, acquiredItem front, hq, ?_, ?_, ?_, ?_, ?_, ?_, ?_⟩
  · rw [heq]; rfl
  · rw [heq]; rfl
  · unfold acquiredItem; split <;> rfl
  · unfold acquiredItem; split <;> rfl
  · unfold acquiredItem; split <;> rfl
  · unfold acquiredItem; split <;> rfl
  · intro ht
    rw [heq]
    exact acquireFront_tracked_slot mCore k front rest (by rw [htrack]; exact ht)

set_option maxRecDepth 100000 in
/-- C9 (as amended) at a call that drops the head and takes the second entry, whose
slot 2 is tracked. -/
theorem acquireBuffer_success_effect_witness :
    stillTracking queuedCore.mSlots (queuedEntry 1) = true ∧
      (acquireBuffer queuedCore 150).outBuffer = some (queuedEntry 1) ∧
      (slotAt (acquireBuffer queuedCore 150).core.mSlots 2).mBufferState =
        BufferState.ACQUIRED ∧
      ∃ dropped front rest out,
        queuedCore.mQueue = dropped ++ front :: rest ∧
        (acquireBuffer queuedCore 150).core.mQueue = rest ∧
        (acquireBuffer queuedCore 150).outBuffer = some out ∧
        out.mFence = front.mFence ∧ out.mSlot = front.mSlot ∧
        out.mFrameNumber = front.mFrameNumber ∧ out.mTimestamp = front.mTimestamp ∧
        (stillTracking queuedCore.mSlots front = true →
          (slotAt (acquireBuffer queuedCore 150).core.mSlots front.mSlot).mBufferState =
              BufferState.ACQUIRED ∧
            (slotAt (acquireBuffer queuedCore 150).core.mSlots front.mSlot).mFence =
              some Fence.NO_FENCE ∧
            (slotAt (acquireBuffer queuedCore 150).core.mSlots
              front.mSlot).mAcquireCalled = true ∧
            (slotAt (acquireBuffer queuedCore 150).core.mSlots
              front.mSlot).mNeedsCleanupOnRelease = false) :=
  ⟨by decide, by decide, by decide,
   acquireBuffer_success_effect queuedCore 150 (by decide)⟩

set_option maxRecDepth 100000 in
/-- C9 (counterexample): the head entry names slot 1, which no longer holds the
entry's buffer; `acquireBuffer` succeeds and hands the entry back, and slot 1 is
FREE after the call, with `mAcquireCalled` false. -/
theorem acquireBuffer_untracked_slot_stays_free :
    staleCore.mQueue = [queuedEntry 0, queuedEntry 1, queuedEntry 2] ∧
      (queuedEntry 0).mSlot = 1 ∧
      stillTracking staleCore.mSlots (queuedEntry 0) = false ∧
      (acquireBuffer staleCore 0).status = status_t.NO_ERROR ∧
      (acquireBuffer staleCore 0).outBuffer = some (queuedEntry 0) ∧
      (acquireBuffer staleCore 0).core.mQueue = [queuedEntry 1, queuedEntry 2] ∧
      (slotAt (acquireBuffer staleCore 0).core.mSlots 1).mBufferState = BufferState.FREE ∧
      (slotAt (acquireBuffer staleCore 0).core.mSlots 1).mAcquireCalled = false := by
  decide

/-- C10 (as amended): whenever `acquireBuffer` succeeds, the buffer handle of the
item written to `*outBuffer` is null when the queued entry's own `mAcquireCalled`
flag is true, and is the queued entry's buffer handle otherwise; the flag of the
slot in the table is not consulted. -/
theorem acquireBuffer_outBuffer_handle (mCore : BufferQueueCore) (expectedPresent : Int)
    (hs : (acquireBuffer mCore expectedPresent).status = status_t.NO_ERROR) :
    ∃ dropped front rest out,
      mCore.mQueue = dropped ++ front :: rest ∧
      (acquireBuffer mCore expectedPresent).core.mQueue = rest ∧
      (acquireBuffer mCore expectedPresent).outBuffer = some out ∧
      (front.mAcquireCalled = true → out.mGraphicBuffer = none) ∧
      (front.mAcquireCalled = false → out.mGraphicBuffer = front.mGraphicBuffer) := by
  obtain ⟨dropped, front, rest, k, hq, _, heq⟩ :=
    acquireBuffer_success_cases mCore expectedPresent hs
  refine ⟨dropped, front, rest, acquiredItem front, hq, ?_, ?_, ?_, ?_⟩
  · rw [heq]; rfl
  · rw [heq]; rfl
  · intro h; unfold acquiredItem; rw [if_pos h]
  · intro h; unfold acquiredItem; rw [if_neg (by simp [h])]

set_option maxRecDepth 100000 in
/-- C10 (as amended) at a head entry whose own flag is set. -/
theorem acquireBuffer_outBuffer_handle_witness :
    (staleFlagEntry 0).mAcquireCalled = true ∧
      (acquireBuffer staleFlagCore 0).outBuffer =
        some { staleFlagEntry 0 with mGraphicBuffer := none } ∧
      ∃ dropped front rest out,
        staleFlagCore.mQueue = dropped ++ front :: rest ∧
        (acquireBuffer staleFlagCore 0).core.mQueue = rest ∧
        (acquireBuffer staleFlagCore 0).outBuffer = some out ∧
        (front.mAcquireCalled = true → out.mGraphicBuffer = none) ∧
        (front.mAcquireCalled = false → out.mGraphicBuffer = front.mGraphicBuffer) :=
  ⟨by decide, by decide, acquireBuffer_outBuffer_handle staleFlagCore 0 (by decide)⟩

set_option maxRecDepth 100000 in
/-- C10 (counterexample): `mAcquireCalled` is false for slot 1 in the table before
the call, the head entry queued for slot 1 carries buffer 11 and has its own
`mAcquireCalled` true; `acquireBuffer` succeeds and the item handed back has a
null buffer handle. -/
theorem acquireBuffer_null_handle_with_slot_flag_clear :
    (staleFlagEntry 0).mSlot = 1 ∧
      (staleFlagEntry 0).mGraphicBuffer = some 11 ∧
      (slotAt staleFlagCore.mSlots 1).mAcquireCalled = false ∧
      (acquireBuffer staleFlagCore 0).status = status_t.NO_ERROR ∧
      (acquireBuffer staleFlagCore 0).outBuffer.map (fun o => o.mSlot) = some 1 ∧
      (acquireBuffer staleFlagCore 0).outBuffer.map (fun o => o.mGraphicBuffer) =
        some none := by
  decide

/-! ## C11: the slots of the evicted entries -/

theorem slotAt_dropFront_free (l : List BufferSlot) (front : BufferItem) (s : Int)
    (h : (slotAt l s).mBufferState = BufferState.FREE) :
    (slotAt (dropFront l front) s).mBufferState = BufferState.FREE := by
  unfold dropFront
  split
  · rw [slotAt_updateSlot]
    split
    · rfl
    · exact h
  · exact h

theorem slotAt_dropLoop_free (E : Int) (l : List BufferSlot) (q : List BufferItem) (s : Int)
    (h : (slotAt l s).mBufferState = BufferState.FREE) :
    (slotAt (dropLoop E l q).1 s).mBufferState = BufferState.FREE := by
  induction q generalizing l with
  | nil => simpa [dropLoop] using h
  | cons front t ih =>
    cases t with
    | nil => simpa [dropLoop] using h
    | cons second rest =>
      simp only [dropLoop]
      split
      · exact h
      · split
        · exact h
        · exact ih _ (slotAt_dropFront_free l front s h)

theorem slotAt_dropFront_tracked (l : List BufferSlot) (front : BufferItem)
    (ht : stillTracking l front = true) :
    (slotAt (dropFront l front) front.mSlot).mBufferState = BufferState.FREE := by
  have hbuf : (slotAt l front.mSlot).mGraphicBuffer ≠ none := by
    unfold stillTracking at ht
    simp only [Bool.and_eq_true, bne_iff_ne] at ht
    exact ht.1
  have hr := slotAt_inRange_of_buffer l front.mSlot hbuf
  unfold dropFront
  rw [if_pos ht, slotAt_updateSlot, if_pos ⟨rfl, hr.1, hr.2⟩]

/-- The entries the drop loop erases form a prefix of the queue, and each of them
whose slot is still tracked has that slot FREE when the loop exits. -/
theorem dropLoop_dropped_free (E : Int) (l : List BufferSlot) (q : List BufferItem) :
    ∃ dropped, q = dropped ++ (dropLoop E l q).2 ∧
      ∀ d ∈ dropped, stillTracking l d = true →
        (slotAt (dropLoop E l q).1 d.mSlot).mBufferState = BufferState.FREE := by
  induction q generalizing l with
  | nil => exact ⟨[], by simp [dropLoop], by simp⟩
  | cons front t ih =>
    cases t with
    | nil => exact ⟨[], by simp [dropLoop], by simp⟩
    | cons second rest =>
      simp only [dropLoop]
      split
      · exact ⟨[], rfl, by simp⟩
      · split
        · exact ⟨[], rfl, by simp⟩
        · obtain ⟨d, hd, hfree⟩ := ih (dropFront l front)
          refine ⟨front :: d, by rw [List.cons_append, ← hd], ?_⟩
          intro e he ht
          rcases List.mem_cons.1 he with rfl | hmem
          · exact slotAt_dropLoop_free E _ _ _ (slotAt_dropFront_tracked l e ht)
          · exact hfree e hmem (by rw [stillTracking_dropFront]; exact ht)

/-- A call of `acquireBuffer` that passes its two entry tests: the drop loop
erases a prefix of the queue, then the head left is either deferred or taken. -/
theorem acquireBuffer_passed_cases (c : BufferQueueCore) (E : Int)
    (hn : (acquiredCount c : Int) < c.mMaxAcquiredBufferCount + 1) (hq : c.mQueue ≠ []) :
    ∃ dropped front rest k,
      c.mQueue = dropped ++ front :: rest ∧
      (∀ d ∈ dropped, stillTracking c.mSlots d = true →
        (slotAt k d.mSlot).mBufferState = BufferState.FREE) ∧
      (∀ item, stillTracking k item = stillTracking c.mSlots item) ∧
      (acquireBuffer c E = acquireFront c k front rest ∨
        acquireBuffer c E =
          { status := status_t.PRESENT_LATER
            core := { c with mSlots := k, mQueue := front :: rest }
            outBuffer := none }) := by
  by_cases hE : E = 0
  · subst hE
    match hc : c.mQueue with
    | [] => exact absurd hc hq
    | front :: rest =>
      exact ⟨[], front, rest, c.mSlots, rfl, by simp, fun _ => rfl,
        Or.inl (acquireBuffer_zero c hn front rest hc)⟩
  · have hne := dropLoop_ne_nil E c.mSlots c.mQueue hq
    obtain ⟨dropped, hdrop, hfree⟩ := dropLoop_dropped_free E c.mSlots c.mQueue
    have htrack := stillTracking_dropLoop E c.mSlots c.mQueue
    generalize hd : dropLoop E c.mSlots c.mQueue = r at hne hdrop hfree htrack
    obtain ⟨k, q⟩ := r
    cases q with
    | nil => exact absurd rfl hne
    | cons front rest =>
      have heq := acquireBuffer_of_dropLoop c E hE hn k front rest hd
      refine ⟨dropped, front, rest, k, hdrop, hfree, htrack, ?_⟩
      by_cases hp : presentLater E front.mTimestamp = true
      · right; rw [heq, if_pos hp]
      · left; rw [heq, if_neg hp]

theorem acquireBuffer_outBuffer_of_blocked (c : BufferQueueCore) (E : Int)
    (h : ¬ ((acquiredCount c : Int) < c.mMaxAcquiredBufferCount + 1) ∨ c.mQueue = []) :
    (acquireBuffer c E).outBuffer = none := by
  unfold acquiredCount at h
  unfold acquireBuffer
  split
  · rfl
  · split
    · rfl
    · rename_i h1 h2
      simp only [List.isEmpty_iff] at h2
      rcases h with h | h
      · omega
      · exact absurd h h2

/-- C11 (as amended): `acquireBuffer` evicts a prefix of the Pending Queue and
never hands an evicted entry back (a successful call hands back the entry right
behind the evicted ones, any other call leaves all remaining entries queued);
every evicted entry whose slot is still tracked (the slot still holds the
entry's buffer) has its slot in state FREE when `acquireBuffer` returns, unless
the entry handed back names that same slot. -/
theorem acquireBuffer_evicted_slots_free (mCore : BufferQueueCore) (expectedPresent : Int) :
    ∃ dropped,
      ((acquireBuffer mCore expectedPresent).status = status_t.NO_ERROR →
        ∃ front rest, mCore.mQueue = dropped ++ front :: rest ∧
          (acquireBuffer mCore expectedPresent).outBuffer = some (acquiredItem front) ∧
          (acquireBuffer mCore expectedPresent).core.mQueue = rest) ∧
      ((acquireBuffer mCore expectedPresent).status ≠ status_t.NO_ERROR →
        mCore.mQueue = dropped ++ (acquireBuffer mCore expectedPresent).core.mQueue ∧
          (acquireBuffer mCore expectedPresent).outBuffer = none) ∧
      (∀ d ∈ dropped, stillTracking mCore.mSlots d = true →
        (∀ out, (acquireBuffer mCore expectedPresent).outBuffer = some out →
          out.mSlot ≠ d.mSlot) →
        (slotAt (acquireBuffer mCore expectedPresent).core.mSlots d.mSlot).mBufferState =
          BufferState.FREE) := by
  by_cases hpass : (acquiredCount mCore : Int) < mCore.mMaxAcquiredBufferCount + 1 ∧
      mCore.mQueue ≠ []
  · obtain ⟨dropped, front, rest, k, hq, hfree, _, hres⟩ :=
      acquireBuffer_passed_cases mCore expectedPresent hpass.1 hpass.2
    refine ⟨dropped, ?_⟩
    rcases hres with heq | heq
    · rw [heq]
      refine ⟨fun _ => ⟨front, rest, hq, rfl, rfl⟩, fun h => absurd rfl h, ?_⟩
      intro d hd ht hout
      have hslot : d.mSlot ≠ front.mSlot := by
        have h1 := hout (acquiredItem front) rfl
        intro e
        apply h1
        unfold acquiredItem
        split <;> exact e.symm
      unfold acquireFront
      dsimp only
      split
      · rw [slotAt_updateSlot, if_neg (fun hc => hslot hc.1)]
        exact hfree d hd ht
      · exact hfree d hd ht
    · rw [heq]
      refine ⟨fun h => ?_, fun _ => ⟨hq, rfl⟩, fun d hd ht _ => hfree d hd ht⟩
      simp at h
  · have hb : ¬ ((acquiredCount mCore : Int) < mCore.mMaxAcquiredBufferCount + 1) ∨
        mCore.mQueue = [] := by
      by_cases h1 : (acquiredCount mCore : Int) < mCore.mMaxAcquiredBufferCount + 1
      · right
        by_contra h2
        exact hpass ⟨h1, h2⟩
      · left; exact h1
    have hcore := acquireBuffer_core_of_blocked mCore expectedPresent hb
    have hout := acquireBuffer_outBuffer_of_blocked mCore expectedPresent hb
    refine ⟨[], fun h => absurd h hcore.2, fun _ => ?_, by simp⟩
    rw [hcore.1, hout]
    exact ⟨rfl, rfl⟩

set_option maxRecDepth 100000 in
/-- C11 (counterexample): the head entry names slot 1, which now holds another
buffer and is DEQUEUED; `acquireBuffer(150)` evicts that entry, hands back the
second entry, and slot 1 is still DEQUEUED on return.  With two entries queued for
the same tracked slot, the first is evicted and the slot is ACQUIRED on return. -/
theorem acquireBuffer_evicted_slot_not_free :
    recycledCore.mQueue = [queuedEntry 0, queuedEntry 1, queuedEntry 2] ∧
      (queuedEntry 0).mSlot = 1 ∧
      (acquireBuffer recycledCore 150).status = status_t.NO_ERROR ∧
      (acquireBuffer recycledCore 150).outBuffer = some (queuedEntry 1) ∧
      (acquireBuffer recycledCore 150).core.mQueue = [queuedEntry 2] ∧
      (slotAt (acquireBuffer recycledCore 150).core.mSlots 1).mBufferState =
        BufferState.DEQUEUED ∧
      (acquireBuffer twiceQueuedCore 150).status = status_t.NO_ERROR ∧
      (acquireBuffer twiceQueuedCore 150).core.mQueue = [] ∧
      (slotAt (acquireBuffer twiceQueuedCore 150).core.mSlots 1).mBufferState =
        BufferState.ACQUIRED := by
  decide

set_option maxRecDepth 100000 in
/-- C11 (as amended) at a call that evicts the head, whose slot 1 is tracked, and
hands back the second entry: slot 1 is FREE on return. -/
theorem acquireBuffer_evicted_slots_free_witness :
    (acquireBuffer queuedCore 150).outBuffer = some (queuedEntry 1) ∧
      (acquireBuffer queuedCore 150).core.mQueue = [queuedEntry 2] ∧
      stillTracking queuedCore.mSlots (queuedEntry 0) = true ∧
      (slotAt queuedCore.mSlots 1).mBufferState = BufferState.QUEUED ∧
      (slotAt (acquireBuffer queuedCore 150).core.mSlots 1).mBufferState =
        BufferState.FREE ∧
      ∃ dropped,
        ((acquireBuffer queuedCore 150).status = status_t.NO_ERROR →
          ∃ front rest, queuedCore.mQueue = dropped ++ front :: rest ∧
            (acquireBuffer queuedCore 150).outBuffer = some (acquiredItem front) ∧
            (acquireBuffer queuedCore 150).core.mQueue = rest) ∧
        ((acquireBuffer queuedCore 150).status ≠ status_t.NO_ERROR →
          queuedCore.mQueue = dropped ++ (acquireBuffer queuedCore 150).core.mQueue ∧
            (acquireBuffer queuedCore 150).outBuffer = none) ∧
        (∀ d ∈ dropped, stillTracking queuedCore.mSlots d = true →
          (∀ out, (acquireBuffer queuedCore 150).outBuffer = some out →
            out.mSlot ≠ d.mSlot) →
          (slotAt (acquireBuffer queuedCore 150).core.mSlots d.mSlot).mBufferState =
            BufferState.FREE) :=
  ⟨by decide, by decide, by decide, by decide, by decide,
   acquireBuffer_evicted_slots_free queuedCore 150⟩

/-! ## C12 to C16: releaseBuffer -/

theorem isQueued_iff (q : List BufferItem) (slot : Int) :
    isQueued q slot = true ↔ ∃ e ∈ q, e.mSlot = slot := by
  induction q with
  | nil => simp [isQueued]
  | cons current rest ih =>
    simp only [isQueued, List.mem_cons, exists_eq_or_imp]
    by_cases h : current.mSlot = slot
    · simp [h]
    · simp [h, ih]

/-- C12: for every in-range slot index, every non-null release fence and every
frame number different from the slot's current frame number, `releaseBuffer`
returns STALE_BUFFER_SLOT whatever the slot's state and whether or not the slot is
queued, changes nothing in the core and notifies no listener. -/
theorem releaseBuffer_stale_frame (mCore : BufferQueueCore) (slot : Int) (frameNumber : Nat)
    (releaseFence : Option Fence) (eglDisplay eglFence : Nat)
    (hlo : 0 ≤ slot) (hhi : slot < NUM_BUFFER_SLOTS) (hfence : releaseFence ≠ none)
    (hframe : frameNumber ≠ (slotAt mCore.mSlots slot).mFrameNumber) :
    releaseBuffer mCore slot frameNumber releaseFence eglDisplay eglFence =
      { status := status_t.STALE_BUFFER_SLOT, core := mCore, released := 0 } := by
  have h1 : ¬ (slot < 0 ∨ slot ≥ NUM_BUFFER_SLOTS ∨ releaseFence = none) := by
    intro h
    rcases h with h | h | h
    · omega
    · omega
    · exact hfence h
  unfold releaseBuffer
  rw [if_neg h1, if_pos hframe]

set_option maxRecDepth 100000 in
/-- C12 at an ACQUIRED slot and at an ACQUIRED slot that is also queued, each
released with a frame number that is not the slot's. -/
theorem releaseBuffer_stale_frame_witness :
    releaseBuffer releaseCore 0 6 (some (Fence.fd 9)) 1 1 =
        { status := status_t.STALE_BUFFER_SLOT, core := releaseCore, released := 0 } ∧
      releaseBuffer releaseCore 2 5 (some (Fence.fd 9)) 1 1 =
        { status := status_t.STALE_BUFFER_SLOT, core := releaseCore, released := 0 } :=
  ⟨releaseBuffer_stale_frame releaseCore 0 6 (some (Fence.fd 9)) 1 1
      (by decide) (by decide) (by decide) (by decide),
   releaseBuffer_stale_frame releaseCore 2 5 (some (Fence.fd 9)) 1 1
      (by decide) (by decide) (by decide) (by decide)⟩

/-- C13: for every in-range slot with matching frame number and non-null fence, if
some Pending Queue entry refers to that slot then `releaseBuffer` returns
BAD_VALUE whatever the slot's state (ACQUIRED included), changes nothing in the
core and notifies no listener. -/
theorem releaseBuffer_queued (mCore : BufferQueueCore) (slot : Int) (frameNumber : Nat)
    (releaseFence : Option Fence) (eglDisplay eglFence : Nat)
    (hlo : 0 ≤ slot) (hhi : slot < NUM_BUFFER_SLOTS) (hfence : releaseFence ≠ none)
    (hframe : frameNumber = (slotAt mCore.mSlots slot).mFrameNumber)
    (hqueued : ∃ e ∈ mCore.mQueue, e.mSlot = slot) :
    releaseBuffer mCore slot frameNumber releaseFence eglDisplay eglFence =
      { status := status_t.BAD_VALUE, core := mCore, released := 0 } := by
  have h1 : ¬ (slot < 0 ∨ slot ≥ NUM_BUFFER_SLOTS ∨ releaseFence = none) := by
    intro h
    rcases h with h | h | h
    · omega
    · omega
    · exact hfence h
  have h2 : ¬ (frameNumber ≠ (slotAt mCore.mSlots slot).mFrameNumber) := fun h => h hframe
  have h3 : isQueued mCore.mQueue slot = true := (isQueued_iff _ _).2 hqueued
  unfold releaseBuffer
  rw [if_neg h1, if_neg h2, if_pos h3]

set_option maxRecDepth 100000 in
/-- C13 at slot 2 of `releaseCore`, which is ACQUIRED and queued. -/
theorem releaseBuffer_queued_witness :
    (slotAt releaseCore.mSlots 2).mBufferState = BufferState.ACQUIRED ∧
      releaseBuffer releaseCore 2 2 (some (Fence.fd 9)) 1 1 =
        { status := status_t.BAD_VALUE, core := releaseCore, released := 0 } :=
  ⟨by decide,
   releaseBuffer_queued releaseCore 2 2 (some (Fence.fd 9)) 1 1
    (by decide) (by decide) (by decide) (by decide)
    ⟨releaseCore.mQueue.getD 0 (queuedEntry 0), by decide, by decide⟩⟩

theorem slotAt_inRange_of_acquired (l : List BufferSlot) (s : Int)
    (h : (slotAt l s).mBufferState = BufferState.ACQUIRED) : 0 ≤ s ∧ s.toNat < l.length := by
  unfold slotAt at h
  by_cases hs : 0 ≤ s
  · refine ⟨hs, ?_⟩
    by_contra hlt
    rw [if_pos hs, List.getD_eq_default l default (by omega)] at h
    exact absurd h (by decide)
  · rw [if_neg hs] at h
    exact absurd h (by decide)

/-- Two tables whose slots agree in state everywhere but at index `t`, where the
first is ACQUIRED and the second is not: the first has exactly one more ACQUIRED
slot among the first `n`, when `t` is one of them. -/
theorem numAcquiredBuffers_eq_succ (l k : List BufferSlot) (t : Int)
    (h : ∀ s : Int, s ≠ t → (slotAt k s).mBufferState = (slotAt l s).mBufferState)
    (hl : (slotAt l t).mBufferState = BufferState.ACQUIRED)
    (hk : (slotAt k t).mBufferState ≠ BufferState.ACQUIRED) (n : Nat) :
    numAcquiredBuffers l n =
      numAcquiredBuffers k n + (if 0 ≤ t ∧ t < (n : Int) then 1 else 0) := by
  induction n with
  | zero =>
    have h0 : ¬ (0 ≤ t ∧ t < ((0 : Nat) : Int)) := by omega
    rw [if_neg h0]
    rfl
  | succ n ih =>
    simp only [numAcquiredBuffers]
    by_cases hn : (n : Int) = t
    · have h0 : ¬ (0 ≤ t ∧ t < (n : Int)) := by omega
      have h1 : (0 ≤ t ∧ t < ((n + 1 : Nat) : Int)) := by omega
      rw [if_neg h0] at ih
      rw [if_pos h1, hn, if_pos hl, if_neg hk]
      omega
    · rw [h n hn]
      by_cases h0 : 0 ≤ t ∧ t < (n : Int)
      · have h1 : (0 ≤ t ∧ t < ((n + 1 : Nat) : Int)) := by omega
        rw [if_pos h0] at ih
        rw [if_pos h1]
        split <;> omega
      · have h1 : ¬ (0 ≤ t ∧ t < ((n + 1 : Nat) : Int)) := by omega
        rw [if_neg h0] at ih
        rw [if_neg h1]
        split <;> omega

theorem releaseBuffer_pass_checks (slot : Int) (releaseFence : Option Fence)
    (hlo : 0 ≤ slot) (hhi : slot < NUM_BUFFER_SLOTS) (hfence : releaseFence ≠ none) :
    ¬ (slot < 0 ∨ slot ≥ NUM_BUFFER_SLOTS ∨ releaseFence = none) := by
  intro h
  rcases h with h | h | h
  · omega
  · omega
  · exact hfence h

theorem isQueued_eq_false (q : List BufferItem) (slot : Int)
    (h : ∀ e ∈ q, e.mSlot ≠ slot) : ¬ (isQueued q slot = true) := by
  intro hq
  obtain ⟨e, he, hs⟩ := (isQueued_iff q slot).1 hq
  exact h e he hs

/-- C14: for every in-range slot that is ACQUIRED, not referenced by any Pending
Queue entry, released with its frame number and a non-null fence, `releaseBuffer`
succeeds; in the table after the call the slot is FREE and holds the release fence
and the two platform sync handles, its other fields (buffer, frame number,
`mAcquireCalled`, `mNeedsCleanupOnRelease`, `mAttachedByConsumer`) are unchanged,
every other slot is unchanged; the Pending Queue and all other fields of the core
are unchanged, and the number of ACQUIRED slots decreases by exactly one. -/
theorem releaseBuffer_acquired (mCore : BufferQueueCore) (slot : Int) (frameNumber : Nat)
    (releaseFence : Option Fence) (eglDisplay eglFence : Nat)
    (hlo : 0 ≤ slot) (hhi : slot < NUM_BUFFER_SLOTS) (hfence : releaseFence ≠ none)
    (hframe : frameNumber = (slotAt mCore.mSlots slot).mFrameNumber)
    (hnq : ∀ e ∈ mCore.mQueue, e.mSlot ≠ slot)
    (hacq : (slotAt mCore.mSlots slot).mBufferState = BufferState.ACQUIRED) :
    ∃ mSlots,
      releaseBuffer mCore slot frameNumber releaseFence eglDisplay eglFence =
        { status := status_t.NO_ERROR
          core := { mCore with mSlots := mSlots }
          released := if mCore.mConnectedProducerListener ≠ none then 1 else 0 } ∧
      slotAt mSlots slot =
        { slotAt mCore.mSlots slot with
          mBufferState := BufferState.FREE
          mFence := releaseFence
          mEglDisplay := eglDisplay
          mEglFence := eglFence } ∧
      (∀ s, s ≠ slot → slotAt mSlots s = slotAt mCore.mSlots s) ∧
      mSlots.length = mCore.mSlots.length ∧
      acquiredCount { mCore with mSlots := mSlots } + 1 = acquiredCount mCore := by
  have h1 := releaseBuffer_pass_checks slot releaseFence hlo hhi hfence
  have h2 : ¬ (frameNumber ≠ (slotAt mCore.mSlots slot).mFrameNumber) := fun h => h hframe
  have h3 := isQueued_eq_false mCore.mQueue slot hnq
  have hr := slotAt_inRange_of_acquired mCore.mSlots slot hacq
  refine ⟨updateSlot mCore.mSlots slot (fun b =>
    { b with mEglDisplay := eglDisplay, mEglFence := eglFence, mFence := releaseFence,
             mBufferState := BufferState.FREE }), ?_, ?_, ?_, ?_, ?_⟩
  · unfold releaseBuffer
    rw [if_neg h1, if_neg h2, if_neg h3, if_pos hacq]
  · rw [slotAt_updateSlot, if_pos ⟨rfl, hr.1, hr.2⟩]
  · intro s hs
    rw [slotAt_updateSlot, if_neg (fun hc => hs hc.1)]
  · exact updateSlot_length _ _ _
  · unfold acquiredCount
    dsimp only
    have hcount := numAcquiredBuffers_eq_succ mCore.mSlots
      (updateSlot mCore.mSlots slot (fun b =>
        { b with mEglDisplay := eglDisplay, mEglFence := eglFence, mFence := releaseFence,
                 mBufferState := BufferState.FREE })) slot
      (fun s hs => by rw [slotAt_updateSlot, if_neg (fun hc => hs hc.1)]) hacq
      (by rw [slotAt_updateSlot, if_pos ⟨rfl, hr.1, hr.2⟩]; simp) NUM_BUFFER_SLOTS
    rw [if_pos ⟨hlo, hhi⟩] at hcount
    omega

set_option maxRecDepth 100000 in
/-- C14 at slot 0 of `releaseCore`: two slots are ACQUIRED before the call, one
after it. -/
theorem releaseBuffer_acquired_witness :
    acquiredCount releaseCore = 2 ∧
      acquiredCount (releaseBuffer releaseCore 0 7 (some (Fence.fd 9)) 4 5).core = 1 ∧
      ∃ mSlots,
        releaseBuffer releaseCore 0 7 (some (Fence.fd 9)) 4 5 =
          { status := status_t.NO_ERROR
            core := { releaseCore with mSlots := mSlots }
            released := if releaseCore.mConnectedProducerListener ≠ none then 1 else 0 } ∧
        slotAt mSlots 0 =
          { slotAt releaseCore.mSlots 0 with
            mBufferState := BufferState.FREE
            mFence := some (Fence.fd 9)
            mEglDisplay := 4
            mEglFence := 5 } ∧
        (∀ s, s ≠ 0 → slotAt mSlots s = slotAt releaseCore.mSlots s) ∧
        mSlots.length = releaseCore.mSlots.length ∧
        acquiredCount { releaseCore with mSlots := mSlots } + 1 = acquiredCount releaseCore :=
  ⟨by decide, by decide,
   releaseBuffer_acquired releaseCore 0 7 (some (Fence.fd 9)) 4 5
    (by decide) (by decide) (by decide) (by decide) (by decide) (by decide)⟩

/-- What a successful `releaseBuffer` found and did: the slot was ACQUIRED and is
the only one written. -/
theorem releaseBuffer_success (c : BufferQueueCore) (slot : Int) (frameNumber : Nat)
    (releaseFence : Option Fence) (eglDisplay eglFence : Nat)
    (hs : (releaseBuffer c slot frameNumber releaseFence eglDisplay eglFence).status =
      status_t.NO_ERROR) :
    (slotAt c.mSlots slot).mBufferState = BufferState.ACQUIRED ∧
      (releaseBuffer c slot frameNumber releaseFence eglDisplay eglFence).core =
        { c with
          mSlots := updateSlot c.mSlots slot (fun b =>
            { b with mEglDisplay := eglDisplay, mEglFence := eglFence,
                     mFence := releaseFence, mBufferState := BufferState.FREE }) } := by
  unfold releaseBuffer at hs ⊢
  split at hs
  · simp at hs
  · split at hs
    · simp at hs
    · split at hs
      · simp at hs
      · split at hs
        · rename_i h1 h2 h3 h4
          rw [if_neg h1, if_neg h2, if_neg h3, if_pos h4]
          exact ⟨h4, rfl⟩
        · split at hs
          · simp at hs
          · simp at hs

theorem releaseBuffer_status_of_not_acquired (c : BufferQueueCore) (slot : Int)
    (frameNumber : Nat) (releaseFence : Option Fence) (eglDisplay eglFence : Nat)
    (h : (slotAt c.mSlots slot).mBufferState ≠ BufferState.ACQUIRED) :
    (releaseBuffer c slot frameNumber releaseFence eglDisplay eglFence).status ≠
      status_t.NO_ERROR :=
  fun hs => h (releaseBuffer_success c slot frameNumber releaseFence eglDisplay eglFence hs).1

theorem slotAt_inRange_of_cleanup (l : List BufferSlot) (s : Int)
    (h : (slotAt l s).mNeedsCleanupOnRelease = true) : 0 ≤ s ∧ s.toNat < l.length := by
  unfold slotAt at h
  by_cases hs : 0 ≤ s
  · refine ⟨hs, ?_⟩
    by_contra hlt
    rw [if_pos hs, List.getD_eq_default l default (by omega)] at h
    exact absurd h (by decide)
  · rw [if_neg hs] at h
    exact absurd h (by decide)

/-- C15: for every in-range slot that passes the fence, frame-number and
not-queued tests of `releaseBuffer` but is not ACQUIRED: if
`mNeedsCleanupOnRelease` is set, the call clears that flag of the slot, changes
nothing else and returns STALE_BUFFER_SLOT; if it is not set, the call returns
BAD_VALUE and changes nothing.  And after a successful `releaseBuffer` of a slot,
the next `releaseBuffer` of the same slot does not succeed, whatever its other
arguments. -/
theorem releaseBuffer_not_acquired (mCore : BufferQueueCore) (slot : Int) (frameNumber : Nat)
    (releaseFence : Option Fence) (eglDisplay eglFence : Nat) :
    (0 ≤ slot → slot < NUM_BUFFER_SLOTS → releaseFence ≠ none →
        frameNumber = (slotAt mCore.mSlots slot).mFrameNumber →
        (∀ e ∈ mCore.mQueue, e.mSlot ≠ slot) →
        (slotAt mCore.mSlots slot).mBufferState ≠ BufferState.ACQUIRED →
        ((slotAt mCore.mSlots slot).mNeedsCleanupOnRelease = true →
          ∃ mSlots,
            releaseBuffer mCore slot frameNumber releaseFence eglDisplay eglFence =
              { status := status_t.STALE_BUFFER_SLOT
                core := { mCore with mSlots := mSlots }
                released := 0 } ∧
            slotAt mSlots slot =
              { slotAt mCore.mSlots slot with mNeedsCleanupOnRelease := false } ∧
            (∀ s, s ≠ slot → slotAt mSlots s = slotAt mCore.mSlots s) ∧
            mSlots.length = mCore.mSlots.length) ∧
        ((slotAt mCore.mSlots slot).mNeedsCleanupOnRelease = false →
          releaseBuffer mCore slot frameNumber releaseFence eglDisplay eglFence =
            { status := status_t.BAD_VALUE, core := mCore, released := 0 })) ∧
      ((releaseBuffer mCore slot frameNumber releaseFence eglDisplay eglFence).status =
          status_t.NO_ERROR →
        ∀ frameNumber2 releaseFence2 eglDisplay2 eglFence2,
          (releaseBuffer
            (releaseBuffer mCore slot frameNumber releaseFence eglDisplay eglFence).core
            slot frameNumber2 releaseFence2 eglDisplay2 eglFence2).status ≠
            status_t.NO_ERROR) := by
  constructor
  · intro hlo hhi hfence hframe hnq hna
    have h1 := releaseBuffer_pass_checks slot releaseFence hlo hhi hfence
    have h2 : ¬ (frameNumber ≠ (slotAt mCore.mSlots slot).mFrameNumber) := fun h => h hframe
    have h3 := isQueued_eq_false mCore.mQueue slot hnq
    constructor
    · intro hc
      have hr := slotAt_inRange_of_cleanup mCore.mSlots slot hc
      refine ⟨updateSlot mCore.mSlots slot (fun b =>
        { b with mNeedsCleanupOnRelease := false }), ?_, ?_, ?_, ?_⟩
      · unfold releaseBuffer
        rw [if_neg h1, if_neg h2, if_neg h3, if_neg hna, if_pos hc]
      · rw [slotAt_updateSlot, if_pos ⟨rfl, hr.1, hr.2⟩]
      · intro s hs
        rw [slotAt_updateSlot, if_neg (fun hc => hs hc.1)]
      · exact updateSlot_length _ _ _
    · intro hc
      have hc2 : ¬ ((slotAt mCore.mSlots slot).mNeedsCleanupOnRelease = true) := by
        rw [hc]; decide
      unfold releaseBuffer
      rw [if_neg h1, if_neg h2, if_neg h3, if_neg hna, if_neg hc2]
  · intro hs frameNumber2 releaseFence2 eglDisplay2 eglFence2
    obtain ⟨hacq, hcore⟩ :=
      releaseBuffer_success mCore slot frameNumber releaseFence eglDisplay eglFence hs
    have hr := slotAt_inRange_of_acquired mCore.mSlots slot hacq
    apply releaseBuffer_status_of_not_acquired
    rw [hcore]
    dsimp only
    rw [slotAt_updateSlot, if_pos ⟨rfl, hr.1, hr.2⟩]
    simp

set_option maxRecDepth 100000 in
/-- C15 at slot 1 of `releaseCore` (FREE, flag set), at slot 3 (DEQUEUED, flag not
set), and at slot 0 released twice in a row with the same arguments. -/
theorem releaseBuffer_not_acquired_witness :
    (releaseBuffer releaseCore 1 1 (some (Fence.fd 9)) 4 5).status =
        status_t.STALE_BUFFER_SLOT ∧
      (slotAt (releaseBuffer releaseCore 1 1 (some (Fence.fd 9)) 4 5).core.mSlots
        1).mNeedsCleanupOnRelease = false ∧
      releaseBuffer releaseCore 3 3 (some (Fence.fd 9)) 4 5 =
        { status := status_t.BAD_VALUE, core := releaseCore, released := 0 } ∧
      (releaseBuffer (releaseBuffer releaseCore 0 7 (some (Fence.fd 9)) 4 5).core
        0 7 (some (Fence.fd 9)) 4 5).status ≠ status_t.NO_ERROR :=
  ⟨by decide, by decide,
   ((releaseBuffer_not_acquired releaseCore 3 3 (some (Fence.fd 9)) 4 5).1
      (by decide) (by decide) (by decide) (by decide) (by decide) (by decide)).2 (by decide),
   (releaseBuffer_not_acquired releaseCore 0 7 (some (Fence.fd 9)) 4 5).2 (by decide)
      7 (some (Fence.fd 9)) 4 5⟩

/-- C16: `releaseBuffer` calls `onBufferReleased` on the producer listener exactly
once when it returns NO_ERROR and a producer listener is connected, and not at
all in every other case (any error return, or no producer listener connected). -/
theorem releaseBuffer_released (mCore : BufferQueueCore) (slot : Int) (frameNumber : Nat)
    (releaseFence : Option Fence) (eglDisplay eglFence : Nat) :
    (releaseBuffer mCore slot frameNumber releaseFence eglDisplay eglFence).released =
      if (releaseBuffer mCore slot frameNumber releaseFence eglDisplay eglFence).status =
          status_t.NO_ERROR ∧ mCore.mConnectedProducerListener ≠ none then 1
      else 0 := by
  unfold releaseBuffer
  split
  · simp
  · split
    · simp
    · split
      · simp
      · split
        · simp
        · split
          · simp
          · simp

set_option maxRecDepth 100000 in
/-- C16 at `releaseCore`, which has a producer listener: one call for the
successful release of slot 0, none for the stale release of slot 1, and none for a
successful release once the listener is gone. -/
theorem releaseBuffer_released_witness :
    (releaseBuffer releaseCore 0 7 (some (Fence.fd 9)) 4 5).released = 1 ∧
      (releaseBuffer releaseCore 1 1 (some (Fence.fd 9)) 4 5).released = 0 ∧
      (releaseBuffer { releaseCore with mConnectedProducerListener := none } 0 7
        (some (Fence.fd 9)) 4 5).status = status_t.NO_ERROR ∧
      (releaseBuffer { releaseCore with mConnectedProducerListener := none } 0 7
        (some (Fence.fd 9)) 4 5).released = 0 :=
  ⟨by rw [releaseBuffer_released]; decide, by rw [releaseBuffer_released]; decide,
   by decide, by rw [releaseBuffer_released]; decide⟩

/-! ## C17 to C20: connect, disconnect and abandonment -/

theorem releaseBuffer_core_frame (c : BufferQueueCore) (slot : Int) (frameNumber : Nat)
    (releaseFence : Option Fence) (eglDisplay eglFence : Nat) :
    (releaseBuffer c slot frameNumber releaseFence eglDisplay eglFence).core =
      { c with
        mSlots := (releaseBuffer c slot frameNumber releaseFence eglDisplay eglFence).core.mSlots } := by
  unfold releaseBuffer
  split
  · rfl
  · split
    · rfl
    · split
      · rfl
      · split
        · rfl
        · split <;> rfl

theorem attachBuffer_core_frame (c : BufferQueueCore) (outSlot : Option Int)
    (buffer : Option Nat) :
    (attachBuffer c outSlot buffer).core =
      { c with mSlots := (attachBuffer c outSlot buffer).core.mSlots } := by
  unfold attachBuffer
  split
  · rfl
  · split
    · rfl
    · dsimp only
      split
      · rfl
      · split <;> rfl

theorem detachBuffer_core_frame (c : BufferQueueCore) (slot : Int) :
    (detachBuffer c slot).core = { c with mSlots := (detachBuffer c slot).core.mSlots } := by
  unfold detachBuffer
  split
  · rfl
  · split
    · rfl
    · split <;> rfl

theorem isTornDown_of_frame (c : BufferQueueCore) (mSlots : List BufferSlot)
    (h : isTornDown c) : isTornDown { c with mSlots := mSlots } := h

/-- Every consumer call made on a torn-down core leaves it torn down. -/
theorem ConsumerOp.apply_isTornDown (c : BufferQueueCore) (op : ConsumerOp)
    (h : isTornDown c) : isTornDown (op.apply c) := by
  cases op with
  | acquire E =>
    simp only [ConsumerOp.apply]
    rw [(acquireBuffer_core_of_blocked c E (Or.inr h.2.2)).1]
    exact h
  | release slot frameNumber releaseFence eglDisplay eglFence =>
    simp only [ConsumerOp.apply]
    rw [releaseBuffer_core_frame]
    exact h
  | attach outSlot buffer =>
    simp only [ConsumerOp.apply]
    rw [attachBuffer_core_frame]
    exact h
  | detach slot =>
    simp only [ConsumerOp.apply]
    rw [detachBuffer_core_frame]
    exact h
  | connect consumerListener controlledByApp =>
    simp only [ConsumerOp.apply, android.connect]
    split
    · exact h
    · rw [if_pos h.1]
      exact h
  | disconnect =>
    simp only [ConsumerOp.apply, android.disconnect]
    rw [if_pos h.2.1]
    exact h
  | getReleasedBuffers outSlotMask =>
    simp only [ConsumerOp.apply, android.getReleasedBuffers]
    split
    · exact h
    · split <;> exact h
  | setDefaultBufferSize width height =>
    simp only [ConsumerOp.apply, android.setDefaultBufferSize]
    split <;> exact h
  | setDefaultMaxBufferCount bufferCount =>
    simp only [ConsumerOp.apply, android.setDefaultMaxBufferCount, setDefaultMaxBufferCountLocked]
    split_ifs <;> exact h
  | disableAsyncBuffer =>
    simp only [ConsumerOp.apply, android.disableAsyncBuffer]
    split <;> exact h
  | setMaxAcquiredBufferCount maxAcquiredBuffers =>
    simp only [ConsumerOp.apply, android.setMaxAcquiredBufferCount]
    split
    · exact h
    · split <;> exact h
  | setConsumerName name => exact h
  | setDefaultBufferFormat defaultFormat => exact h
  | setConsumerUsageBits usage => exact h
  | setTransformHint hint => exact h

theorem runOps_isTornDown (c : BufferQueueCore) (ops : List ConsumerOp)
    (h : isTornDown c) : isTornDown (runOps c ops) := by
  induction ops generalizing c with
  | nil => exact h
  | cons op ops ih => exact ih (op.apply c) (ConsumerOp.apply_isTornDown c op h)

theorem disconnect_isTornDown (c : BufferQueueCore)
    (hs : (disconnect c).status = status_t.NO_ERROR) : isTornDown (disconnect c).core := by
  unfold disconnect at hs ⊢
  split at hs
  · simp at hs
  · rename_i hl
    rw [if_neg hl]
    exact ⟨rfl, rfl, rfl⟩

theorem acquireBuffer_status_ne_no_init (c : BufferQueueCore) (E : Int) :
    (acquireBuffer c E).status ≠ status_t.NO_INIT := by
  unfold acquireBuffer
  split
  · simp
  · split
    · simp
    · split
      · split
        · split
          · simp
          · simp [acquireFront]
        · simp
      · split
        · simp [acquireFront]
        · simp

theorem releaseBuffer_status_ne_no_init (c : BufferQueueCore) (slot : Int) (frameNumber : Nat)
    (releaseFence : Option Fence) (eglDisplay eglFence : Nat) :
    (releaseBuffer c slot frameNumber releaseFence eglDisplay eglFence).status ≠
      status_t.NO_INIT := by
  unfold releaseBuffer
  split
  · simp
  · split
    · simp
    · split
      · simp
      · split
        · simp
        · split <;> simp

theorem attachBuffer_status_ne_no_init (c : BufferQueueCore) (outSlot : Option Int)
    (buffer : Option Nat) :
    (attachBuffer c outSlot buffer).status ≠ status_t.NO_INIT := by
  unfold attachBuffer
  split
  · simp
  · split
    · simp
    · dsimp only
      split
      · simp
      · split <;> simp

/-- C17 (as amended): after a successful `disconnect`, whatever consumer calls
follow, the Pending Queue is empty and every `detachBuffer` call (with any
argument) returns NO_INIT and changes nothing; `acquireBuffer`, `releaseBuffer`
and `attachBuffer` do not test the abandoned flag and return NO_INIT in no state
at all. -/
theorem detachBuffer_no_init_after_disconnect (mCore : BufferQueueCore)
    (ops : List ConsumerOp)
    (hs : (disconnect mCore).status = status_t.NO_ERROR) :
    (runOps (disconnect mCore).core ops).mQueue = [] ∧
      (∀ slot, detachBuffer (runOps (disconnect mCore).core ops) slot =
        { status := status_t.NO_INIT, core := runOps (disconnect mCore).core ops }) ∧
      (∀ c expectedPresent, (acquireBuffer c expectedPresent).status ≠ status_t.NO_INIT) ∧
      (∀ c slot frameNumber releaseFence eglDisplay eglFence,
        (releaseBuffer c slot frameNumber releaseFence eglDisplay eglFence).status ≠
          status_t.NO_INIT) ∧
      (∀ c outSlot buffer, (attachBuffer c outSlot buffer).status ≠ status_t.NO_INIT) := by
  have h := runOps_isTornDown _ ops (disconnect_isTornDown mCore hs)
  refine ⟨h.2.2, ?_, acquireBuffer_status_ne_no_init, releaseBuffer_status_ne_no_init,
    attachBuffer_status_ne_no_init⟩
  intro slot
  unfold detachBuffer
  rw [if_pos h.1]

set_option maxRecDepth 100000 in
/-- C17 (as amended) at `connectedCore` and a run of five calls after its
`disconnect`. -/
theorem detachBuffer_no_init_after_disconnect_witness :
    (runOps (disconnect connectedCore).core afterDisconnectRun).mQueue = [] ∧
      (detachBuffer (runOps (disconnect connectedCore).core afterDisconnectRun) 0).status =
        status_t.NO_INIT :=
  ⟨(detachBuffer_no_init_after_disconnect connectedCore afterDisconnectRun (by decide)).1,
   by rw [(detachBuffer_no_init_after_disconnect connectedCore afterDisconnectRun
      (by decide)).2.1 0]⟩

set_option maxRecDepth 100000 in
/-- C17 (counterexample): after the successful `disconnect` of `connectedCore`,
`acquireBuffer` returns NO_BUFFER_AVAILABLE, `releaseBuffer` of slot 0 returns
STALE_BUFFER_SLOT, and `attachBuffer` of a buffer succeeds and leaves slot 0
ACQUIRED; none returns NO_INIT. -/
theorem calls_after_disconnect_not_no_init :
    (disconnect connectedCore).status = status_t.NO_ERROR ∧
      abandonedCore.mIsAbandoned = true ∧
      (acquireBuffer abandonedCore 0).status = status_t.NO_BUFFER_AVAILABLE ∧
      (releaseBuffer abandonedCore 0 0 (some Fence.NO_FENCE) 0 0).status =
        status_t.STALE_BUFFER_SLOT ∧
      (attachBuffer abandonedCore (some 0) (some 7)).status = status_t.NO_ERROR ∧
      (attachBuffer abandonedCore (some 0) (some 7)).outSlot = some 0 ∧
      (slotAt (attachBuffer abandonedCore (some 0) (some 7)).core.mSlots 0).mBufferState =
        BufferState.ACQUIRED := by
  decide

theorem slotAt_freeBufferLocked_self (l : List BufferSlot) (s : Int)
    (h : (slotAt l s).mBufferState = BufferState.FREE ∧ (slotAt l s).mGraphicBuffer = none ∨
      (0 ≤ s ∧ s.toNat < l.length)) :
    (slotAt (freeBufferLocked l s) s).mBufferState = BufferState.FREE ∧
      (slotAt (freeBufferLocked l s) s).mGraphicBuffer = none := by
  unfold freeBufferLocked
  rw [slotAt_updateSlot]
  by_cases hr : 0 ≤ s ∧ s.toNat < l.length
  · rw [if_pos ⟨rfl, hr.1, hr.2⟩]
    exact ⟨rfl, rfl⟩
  · rw [if_neg (fun hc => hr hc.2)]
    rcases h with h | h
    · exact h
    · exact absurd h hr

theorem slotAt_of_not_inRange (l : List BufferSlot) (s : Int)
    (h : ¬ (0 ≤ s ∧ s.toNat < l.length)) : slotAt l s = default := by
  unfold slotAt
  by_cases hs : 0 ≤ s
  · rw [if_pos hs]
    exact List.getD_eq_default l default (by omega)
  · rw [if_neg hs]

theorem freeBufferLocked_length (l : List BufferSlot) (s : Int) :
    (freeBufferLocked l s).length = l.length := by
  unfold freeBufferLocked
  exact updateSlot_length _ _ _

theorem freeAllBuffersLocked_length (l : List BufferSlot) (n : Nat) :
    (freeAllBuffersLocked l n).length = l.length := by
  induction n with
  | zero => rfl
  | succ n ih =>
    simp only [freeAllBuffersLocked]
    rw [freeBufferLocked_length, ih]

/-- After the first `n` slots have been freed each of them is FREE and holds no
buffer. -/
theorem slotAt_freeAllBuffersLocked (l : List BufferSlot) (n : Nat) (s : Int)
    (hlo : 0 ≤ s) (hhi : s < (n : Int)) :
    (slotAt (freeAllBuffersLocked l n) s).mBufferState = BufferState.FREE ∧
      (slotAt (freeAllBuffersLocked l n) s).mGraphicBuffer = none := by
  induction n with
  | zero => omega
  | succ n ih =>
    simp only [freeAllBuffersLocked]
    by_cases hs : s = (n : Int)
    · rw [hs]
      apply slotAt_freeBufferLocked_self
      by_cases hr : (0 : Int) ≤ (n : Int) ∧ ((n : Int)).toNat < (freeAllBuffersLocked l n).length
      · exact Or.inr hr
      · left
        rw [slotAt_of_not_inRange _ _ hr]
        exact ⟨rfl, rfl⟩
    · have hlt : s < (n : Int) := by omega
      unfold freeBufferLocked
      rw [slotAt_updateSlot, if_neg (fun hc => hs hc.1)]
      exact ih hlt

/-- C18: `disconnect` returns BAD_VALUE if and only if no consumer listener is
connected, and then changes nothing; otherwise it succeeds, and afterwards the
abandoned flag is set, no consumer listener is connected, the Pending Queue is
empty, every slot of the table is FREE with no buffer reference, and no other
field of the core has changed. -/
theorem disconnect_effect (mCore : BufferQueueCore) :
    ((disconnect mCore).status = status_t.BAD_VALUE ↔ mCore.mConsumerListener = none) ∧
      (mCore.mConsumerListener = none →
        disconnect mCore = { status := status_t.BAD_VALUE, core := mCore }) ∧
      (mCore.mConsumerListener ≠ none →
        (disconnect mCore).status = status_t.NO_ERROR ∧
          (disconnect mCore).core.mIsAbandoned = true ∧
          (disconnect mCore).core.mConsumerListener = none ∧
          (disconnect mCore).core.mQueue = [] ∧
          (∀ s : Int, 0 ≤ s → s < NUM_BUFFER_SLOTS →
            (slotAt (disconnect mCore).core.mSlots s).mBufferState = BufferState.FREE ∧
              (slotAt (disconnect mCore).core.mSlots s).mGraphicBuffer = none) ∧
          (disconnect mCore).core.mSlots.length = mCore.mSlots.length ∧
          (disconnect mCore).core =
            { mCore with
              mIsAbandoned := true
              mConsumerListener := none
              mQueue := []
              mSlots := (disconnect mCore).core.mSlots }) := by
  by_cases hl : mCore.mConsumerListener = none
  · have hd : disconnect mCore = { status := status_t.BAD_VALUE, core := mCore } := by
      unfold disconnect; rw [if_pos hl]
    refine ⟨⟨fun _ => hl, fun _ => by rw [hd]⟩, fun _ => hd, fun h => absurd hl h⟩
  · have hd : disconnect mCore =
        { status := status_t.NO_ERROR
          core :=
            { mCore with
              mIsAbandoned := true
              mConsumerListener := none
              mQueue := []
              mSlots := freeAllBuffersLocked mCore.mSlots NUM_BUFFER_SLOTS } } := by
      unfold disconnect; rw [if_neg hl]
    refine ⟨⟨fun h => ?_, fun h => absurd h hl⟩, fun h => absurd h hl, fun _ => ?_⟩
    · rw [hd] at h
      simp at h
    · rw [hd]
      dsimp only
      refine ⟨rfl, rfl, rfl, rfl, ?_, ?_, rfl⟩
      · intro s hlo hhi
        exact slotAt_freeAllBuffersLocked mCore.mSlots NUM_BUFFER_SLOTS s hlo hhi
      · exact freeAllBuffersLocked_length mCore.mSlots NUM_BUFFER_SLOTS

set_option maxRecDepth 100000 in
/-- C18 at `queuedCore`, which has no consumer listener, and at `connectedCore`,
which has one, three queued entries and four slots in use. -/
theorem disconnect_effect_witness :
    disconnect queuedCore = { status := status_t.BAD_VALUE, core := queuedCore } ∧
      (disconnect connectedCore).status = status_t.NO_ERROR ∧
      (disconnect connectedCore).core.mQueue = [] ∧
      (slotAt connectedCore.mSlots 2).mBufferState = BufferState.QUEUED ∧
      (slotAt (disconnect connectedCore).core.mSlots 2).mBufferState = BufferState.FREE ∧
      (slotAt (disconnect connectedCore).core.mSlots 2).mGraphicBuffer = none :=
  ⟨(disconnect_effect queuedCore).2.1 (by decide),
   ((disconnect_effect connectedCore).2.2 (by decide)).1,
   ((disconnect_effect connectedCore).2.2 (by decide)).2.2.2.1,
   by decide,
   (((disconnect_effect connectedCore).2.2 (by decide)).2.2.2.2.1 2 (by decide)
      (by decide)).1,
   (((disconnect_effect connectedCore).2.2 (by decide)).2.2.2.2.1 2 (by decide)
      (by decide)).2⟩

/-- C19: abandonment is terminal.  After a successful `disconnect`, for every
sequence of consumer calls that follows, the abandoned flag is still set and no
consumer listener is connected; a `connect` made then fails and changes nothing,
also with a non-null listener, and a `disconnect` made then returns BAD_VALUE and
changes nothing. -/
theorem abandoned_is_terminal (mCore : BufferQueueCore) (ops : List ConsumerOp)
    (hs : (disconnect mCore).status = status_t.NO_ERROR) :
    (runOps (disconnect mCore).core ops).mIsAbandoned = true ∧
      (runOps (disconnect mCore).core ops).mConsumerListener = none ∧
      (∀ consumerListener controlledByApp,
        (connect (runOps (disconnect mCore).core ops) consumerListener
            controlledByApp).status ≠ status_t.NO_ERROR ∧
          (connect (runOps (disconnect mCore).core ops) consumerListener
            controlledByApp).core = runOps (disconnect mCore).core ops) ∧
      disconnect (runOps (disconnect mCore).core ops) =
        { status := status_t.BAD_VALUE, core := runOps (disconnect mCore).core ops } := by
  have h := runOps_isTornDown _ ops (disconnect_isTornDown mCore hs)
  refine ⟨h.1, h.2.1, ?_, ?_⟩
  · intro consumerListener controlledByApp
    unfold connect
    split
    · exact ⟨by simp, rfl⟩
    · rw [if_pos h.1]
      exact ⟨by simp, rfl⟩
  · generalize runOps (disconnect mCore).core ops = c at h
    unfold disconnect
    rw [if_pos h.2.1]

set_option maxRecDepth 100000 in
/-- C19 at `connectedCore` and the run of five calls after its `disconnect`, which
includes a `connect` with a non-null listener. -/
theorem abandoned_is_terminal_witness :
    (runOps (disconnect connectedCore).core afterDisconnectRun).mIsAbandoned = true ∧
      (runOps (disconnect connectedCore).core afterDisconnectRun).mConsumerListener = none ∧
      (disconnect (runOps (disconnect connectedCore).core afterDisconnectRun)).status =
        status_t.BAD_VALUE :=
  ⟨(abandoned_is_terminal connectedCore afterDisconnectRun (by decide)).1,
   (abandoned_is_terminal connectedCore afterDisconnectRun (by decide)).2.1,
   by rw [(abandoned_is_terminal connectedCore afterDisconnectRun (by decide)).2.2.2]⟩

/-- C20: `connect` returns BAD_VALUE when the listener is null, whether or not the
queue is abandoned; returns NO_INIT when the listener is non-null and the queue
is abandoned; and otherwise succeeds, storing the listener and the
`controlledByApp` flag and changing no other field of the core (slots, queue
entries, configuration).  Both failures change nothing. -/
theorem connect_effect (mCore : BufferQueueCore) (consumerListener : Option Nat)
    (controlledByApp : Bool) :
    (consumerListener = none →
        connect mCore consumerListener controlledByApp =
          { status := status_t.BAD_VALUE, core := mCore }) ∧
      (consumerListener ≠ none → mCore.mIsAbandoned = true →
        connect mCore consumerListener controlledByApp =
          { status := status_t.NO_INIT, core := mCore }) ∧
      (consumerListener ≠ none → mCore.mIsAbandoned = false →
        connect mCore consumerListener controlledByApp =
          { status := status_t.NO_ERROR
            core :=
              { mCore with
                mConsumerListener := consumerListener
                mConsumerControlledByApp := controlledByApp } }) := by
  refine ⟨fun h => ?_, fun h ha => ?_, fun h ha => ?_⟩
  · unfold connect
    rw [if_pos h]
  · unfold connect
    rw [if_neg h, if_pos ha]
  · unfold connect
    have ha2 : ¬ (mCore.mIsAbandoned = true) := by rw [ha]; decide
    rw [if_neg h, if_neg ha2]

set_option maxRecDepth 100000 in
/-- C20 at the abandoned core with a null and with a non-null listener, and at
`queuedCore` with a non-null listener. -/
theorem connect_effect_witness :
    abandonedCore.mIsAbandoned = true ∧
      connect abandonedCore none true =
        { status := status_t.BAD_VALUE, core := abandonedCore } ∧
      connect abandonedCore (some 2) true =
        { status := status_t.NO_INIT, core := abandonedCore } ∧
      connect queuedCore (some 2) true =
        { status := status_t.NO_ERROR
          core :=
            { queuedCore with
              mConsumerListener := some 2
              mConsumerControlledByApp := true } } :=
  ⟨by decide,
   (connect_effect abandonedCore none true).1 rfl,
   (connect_effect abandonedCore (some 2) true).2.1 (by decide) (by decide),
   (connect_effect queuedCore (some 2) true).2.2 (by decide) (by decide)⟩

/-! ## C21, C22: detachBuffer -/

theorem slotAt_freeBufferLocked_ne (l : List BufferSlot) (t s : Int) (h : s ≠ t) :
    slotAt (freeBufferLocked l t) s = slotAt l s := by
  unfold freeBufferLocked
  rw [slotAt_updateSlot, if_neg (fun hc => h hc.1)]

/-- C21: on a non-abandoned queue, `detachBuffer(slot)` returns BAD_VALUE and
changes nothing if the index is outside `[0, NUM_BUFFER_SLOTS)` or the slot is not
ACQUIRED; otherwise it succeeds, the slot becomes FREE, every other slot is
unchanged, and the Pending Queue and all other fields of the core are
unchanged. -/
theorem detachBuffer_effect (mCore : BufferQueueCore) (slot : Int)
    (hna : mCore.mIsAbandoned = false) :
    (slot < 0 ∨ slot ≥ NUM_BUFFER_SLOTS ∨
        (slotAt mCore.mSlots slot).mBufferState ≠ BufferState.ACQUIRED →
      detachBuffer mCore slot = { status := status_t.BAD_VALUE, core := mCore }) ∧
    (0 ≤ slot → slot < NUM_BUFFER_SLOTS →
        (slotAt mCore.mSlots slot).mBufferState = BufferState.ACQUIRED →
      (detachBuffer mCore slot).status = status_t.NO_ERROR ∧
        (slotAt (detachBuffer mCore slot).core.mSlots slot).mBufferState =
          BufferState.FREE ∧
        (∀ s, s ≠ slot →
          slotAt (detachBuffer mCore slot).core.mSlots s = slotAt mCore.mSlots s) ∧
        (detachBuffer mCore slot).core.mSlots.length = mCore.mSlots.length ∧
        (detachBuffer mCore slot).core.mQueue = mCore.mQueue ∧
        (detachBuffer mCore slot).core =
          { mCore with mSlots := (detachBuffer mCore slot).core.mSlots }) := by
  have ha : ¬ (mCore.mIsAbandoned = true) := by rw [hna]; decide
  constructor
  · intro h
    unfold detachBuffer
    rw [if_neg ha]
    by_cases hr : slot < 0 ∨ slot ≥ NUM_BUFFER_SLOTS
    · rw [if_pos hr]
    · rw [if_neg hr]
      have hs : (slotAt mCore.mSlots slot).mBufferState ≠ BufferState.ACQUIRED := by
        rcases h with h | h | h
        · exact absurd (Or.inl h) hr
        · exact absurd (Or.inr h) hr
        · exact h
      rw [if_pos hs]
  · intro hlo hhi hacq
    have hr : ¬ (slot < 0 ∨ slot ≥ NUM_BUFFER_SLOTS) := by omega
    have hs : ¬ ((slotAt mCore.mSlots slot).mBufferState ≠ BufferState.ACQUIRED) :=
      fun h => h hacq
    have hin := slotAt_inRange_of_acquired mCore.mSlots slot hacq
    have hd : detachBuffer mCore slot =
        { status := status_t.NO_ERROR
          core := { mCore with mSlots := freeBufferLocked mCore.mSlots slot } } := by
      unfold detachBuffer
      rw [if_neg ha, if_neg hr, if_neg hs]
    rw [hd]
    dsimp only
    refine ⟨rfl, ?_, ?_, ?_, rfl, rfl⟩
    · exact (slotAt_freeBufferLocked_self mCore.mSlots slot (Or.inr hin)).1
    · intro s hne
      exact slotAt_freeBufferLocked_ne mCore.mSlots slot s hne
    · exact freeBufferLocked_length _ _

set_option maxRecDepth 100000 in
/-- C21 at `releaseCore`: slot 64 is out of range, slot 3 is DEQUEUED, slot 0 is
ACQUIRED. -/
theorem detachBuffer_effect_witness :
    detachBuffer releaseCore 64 = { status := status_t.BAD_VALUE, core := releaseCore } ∧
      detachBuffer releaseCore 3 = { status := status_t.BAD_VALUE, core := releaseCore } ∧
      (detachBuffer releaseCore 0).status = status_t.NO_ERROR ∧
      (slotAt (detachBuffer releaseCore 0).core.mSlots 0).mBufferState = BufferState.FREE :=
  ⟨(detachBuffer_effect releaseCore 64 (by decide)).1 (by decide),
   (detachBuffer_effect releaseCore 3 (by decide)).1 (by decide),
   ((detachBuffer_effect releaseCore 0 (by decide)).2 (by decide) (by decide)
      (by decide)).1,
   ((detachBuffer_effect releaseCore 0 (by decide)).2 (by decide) (by decide)
      (by decide)).2.1⟩

/-- C22 (as amended): `detachBuffer` on an abandoned queue returns NO_INIT
(NotInitialized), for every slot argument, before any index or state test, and
changes nothing. -/
theorem detachBuffer_abandoned (mCore : BufferQueueCore) (slot : Int)
    (ha : mCore.mIsAbandoned = true) :
    detachBuffer mCore slot = { status := status_t.NO_INIT, core := mCore } := by
  unfold detachBuffer
  rw [if_pos ha]

set_option maxRecDepth 100000 in
/-- C22 (as amended) at an abandoned core, for an index out of range, a slot that
is not ACQUIRED and a slot that is. -/
theorem detachBuffer_abandoned_witness :
    detachBuffer abandonedReleaseCore (-1) =
        { status := status_t.NO_INIT, core := abandonedReleaseCore } ∧
      detachBuffer abandonedReleaseCore 3 =
        { status := status_t.NO_INIT, core := abandonedReleaseCore } ∧
      detachBuffer abandonedReleaseCore 0 =
        { status := status_t.NO_INIT, core := abandonedReleaseCore } :=
  ⟨detachBuffer_abandoned abandonedReleaseCore (-1) (by decide),
   detachBuffer_abandoned abandonedReleaseCore 3 (by decide),
   detachBuffer_abandoned abandonedReleaseCore 0 (by decide)⟩

set_option maxRecDepth 100000 in
/-- C22 (counterexample): on an abandoned core `detachBuffer` of the ACQUIRED slot 0
returns NO_INIT, which is not INVALID_OPERATION, the code the spec calls
InvalidState. -/
theorem detachBuffer_abandoned_not_invalid_operation :
    abandonedReleaseCore.mIsAbandoned = true ∧
      (slotAt abandonedReleaseCore.mSlots 0).mBufferState = BufferState.ACQUIRED ∧
      (detachBuffer abandonedReleaseCore 0).status = status_t.NO_INIT ∧
      (detachBuffer abandonedReleaseCore 0).status ≠ status_t.INVALID_OPERATION := by
  decide

/-! ## C30: setMaxAcquiredBufferCount -/

/-- C30: `setMaxAcquiredBufferCount(n)` returns BAD_VALUE when `n < 1` or
`n > MAX_MAX_ACQUIRED_BUFFERS`, whatever the connection state; for `n` in range it
returns INVALID_OPERATION when a producer is connected; otherwise it succeeds and
sets `mMaxAcquiredBufferCount` to `n`, changing nothing else.  Both failures
change nothing. -/
theorem setMaxAcquiredBufferCount_effect (mCore : BufferQueueCore)
    (maxAcquiredBuffers : Int) :
    (maxAcquiredBuffers < 1 ∨ maxAcquiredBuffers > MAX_MAX_ACQUIRED_BUFFERS →
      setMaxAcquiredBufferCount mCore maxAcquiredBuffers =
        { status := status_t.BAD_VALUE, core := mCore }) ∧
    (1 ≤ maxAcquiredBuffers → maxAcquiredBuffers ≤ MAX_MAX_ACQUIRED_BUFFERS →
        mCore.mConnectedApi ≠ NO_CONNECTED_API →
      setMaxAcquiredBufferCount mCore maxAcquiredBuffers =
        { status := status_t.INVALID_OPERATION, core := mCore }) ∧
    (1 ≤ maxAcquiredBuffers → maxAcquiredBuffers ≤ MAX_MAX_ACQUIRED_BUFFERS →
        mCore.mConnectedApi = NO_CONNECTED_API →
      setMaxAcquiredBufferCount mCore maxAcquiredBuffers =
        { status := status_t.NO_ERROR
          core := { mCore with mMaxAcquiredBufferCount := maxAcquiredBuffers } }) := by
  refine ⟨fun h => ?_, fun h1 h2 hc => ?_, fun h1 h2 hc => ?_⟩
  · unfold setMaxAcquiredBufferCount
    rw [if_pos h]
  · have hr : ¬ (maxAcquiredBuffers < 1 ∨ maxAcquiredBuffers > MAX_MAX_ACQUIRED_BUFFERS) := by
      omega
    unfold setMaxAcquiredBufferCount
    rw [if_neg hr, if_pos hc]
  · have hr : ¬ (maxAcquiredBuffers < 1 ∨ maxAcquiredBuffers > MAX_MAX_ACQUIRED_BUFFERS) := by
      omega
    have hc2 : ¬ (mCore.mConnectedApi ≠ NO_CONNECTED_API) := fun h => h hc
    unfold setMaxAcquiredBufferCount
    rw [if_neg hr, if_neg hc2]

set_option maxRecDepth 100000 in
/-- C30 at a core with a producer connected (0 and 63 are out of range, 3 is in
range) and at `queuedCore`, which has none. -/
theorem setMaxAcquiredBufferCount_effect_witness :
    setMaxAcquiredBufferCount producerCore 0 =
        { status := status_t.BAD_VALUE, core := producerCore } ∧
      setMaxAcquiredBufferCount producerCore 63 =
        { status := status_t.BAD_VALUE, core := producerCore } ∧
      setMaxAcquiredBufferCount producerCore 3 =
        { status := status_t.INVALID_OPERATION, core := producerCore } ∧
      setMaxAcquiredBufferCount queuedCore 3 =
        { status := status_t.NO_ERROR
          core := { queuedCore with mMaxAcquiredBufferCount := 3 } } :=
  ⟨(setMaxAcquiredBufferCount_effect producerCore 0).1 (by decide),
   (setMaxAcquiredBufferCount_effect producerCore 63).1 (by decide),
   (setMaxAcquiredBufferCount_effect producerCore 3).2.1 (by decide) (by decide) (by decide),
   (setMaxAcquiredBufferCount_effect queuedCore 3).2.2 (by decide) (by decide) (by decide)⟩

/-! ## C23 to C26: attachBuffer -/

/-- The invariant of the scan loop of `attachBuffer` after `n` iterations: either
no slot seen so far is FREE and no candidate is recorded, or the candidate is a
FREE slot already seen, no FREE slot seen has a smaller frame number, and every
FREE slot before the candidate has a greater one. -/
theorem attachScan_found (l : List BufferSlot) (n : Nat) :
    ((attachScan l n).found = INVALID_BUFFER_SLOT ∧
        ∀ s : Nat, s < n → (slotAt l s).mBufferState ≠ BufferState.FREE) ∨
      ∃ f : Nat, (attachScan l n).found = (f : Int) ∧ f < n ∧
        (slotAt l f).mBufferState = BufferState.FREE ∧
        (∀ s : Nat, s < n → (slotAt l s).mBufferState = BufferState.FREE →
          (slotAt l f).mFrameNumber ≤ (slotAt l s).mFrameNumber) ∧
        (∀ s : Nat, s < f → (slotAt l s).mBufferState = BufferState.FREE →
          (slotAt l f).mFrameNumber < (slotAt l s).mFrameNumber) := by
  induction n with
  | zero =>
    left
    exact ⟨rfl, fun s hs => absurd hs (Nat.not_lt_zero s)⟩
  | succ n ih =>
    simp only [attachScan]
    by_cases hacq : (slotAt l n).mBufferState = BufferState.ACQUIRED
    · rw [if_pos hacq]
      have hnf : (slotAt l n).mBufferState ≠ BufferState.FREE := by rw [hacq]; decide
      rcases ih with ⟨hf, hno⟩ | ⟨f, hf, hlt, hfree, hmin, hlow⟩
      · left
        refine ⟨hf, fun s hs => ?_⟩
        rcases Nat.lt_succ_iff_lt_or_eq.1 hs with h | h
        · exact hno s h
        · rw [h]; exact hnf
      · right
        refine ⟨f, hf, Nat.lt_succ_of_lt hlt, hfree, fun s hs hsf => ?_, hlow⟩
        rcases Nat.lt_succ_iff_lt_or_eq.1 hs with h | h
        · exact hmin s h hsf
        · rw [h] at hsf; exact absurd hsf hnf
    · rw [if_neg hacq]
      by_cases hfr : (slotAt l n).mBufferState = BufferState.FREE
      · rw [if_pos hfr]
        rcases ih with ⟨hf, hno⟩ | ⟨f, hf, hlt, hfree, hmin, hlow⟩
        · rw [if_pos (Or.inl hf)]
          right
          refine ⟨n, rfl, Nat.lt_succ_self n, hfr, fun s hs hsf => ?_, fun s hs hsf => ?_⟩
          · rcases Nat.lt_succ_iff_lt_or_eq.1 hs with h | h
            · exact absurd hsf (hno s h)
            · rw [h]
          · exact absurd hsf (hno s hs)
        · by_cases hless : (slotAt l n).mFrameNumber <
              (slotAt l (attachScan l n).found).mFrameNumber
          · rw [if_pos (Or.inr hless)]
            rw [hf] at hless
            right
            refine ⟨n, rfl, Nat.lt_succ_self n, hfr, fun s hs hsf => ?_, fun s hs hsf => ?_⟩
            · rcases Nat.lt_succ_iff_lt_or_eq.1 hs with h | h
              · exact le_of_lt (lt_of_lt_of_le hless (hmin s h hsf))
              · rw [h]
            · exact lt_of_lt_of_le hless (hmin s hs hsf)
          · have hne : ¬ ((attachScan l n).found = INVALID_BUFFER_SLOT) := by
              rw [hf]
              unfold INVALID_BUFFER_SLOT
              omega
            rw [if_neg (fun h => h.elim hne hless)]
            rw [hf] at hless
            right
            refine ⟨f, hf, Nat.lt_succ_of_lt hlt, hfree, fun s hs hsf => ?_, hlow⟩
            rcases Nat.lt_succ_iff_lt_or_eq.1 hs with h | h
            · exact hmin s h hsf
            · rw [h]; exact Nat.le_of_not_lt hless
      · rw [if_neg hfr]
        rcases ih with ⟨hf, hno⟩ | ⟨f, hf, hlt, hfree, hmin, hlow⟩
        · left
          refine ⟨hf, fun s hs => ?_⟩
          rcases Nat.lt_succ_iff_lt_or_eq.1 hs with h | h
          · exact hno s h
          · rw [h]; exact hfr
        · right
          refine ⟨f, hf, Nat.lt_succ_of_lt hlt, hfree, fun s hs hsf => ?_, hlow⟩
          rcases Nat.lt_succ_iff_lt_or_eq.1 hs with h | h
          · exact hmin s h hsf
          · rw [h] at hsf; exact absurd hsf hfr

/-- The result of `attachBuffer` once its argument tests are passed. -/
theorem attachBuffer_of_args (c : BufferQueueCore) (old : Int) (buffer : Option Nat)
    (hb : buffer ≠ none) :
    attachBuffer c (some old) buffer =
      if (acquiredCount c : Int) ≥ c.mMaxAcquiredBufferCount + 1 then
        { status := status_t.INVALID_OPERATION, core := c, outSlot := some old }
      else if (attachScan c.mSlots NUM_BUFFER_SLOTS).found = INVALID_BUFFER_SLOT then
        { status := status_t.NO_MEMORY, core := c, outSlot := some old }
      else
        { status := status_t.NO_ERROR
          core :=
            { c with
              mSlots := updateSlot c.mSlots (attachScan c.mSlots NUM_BUFFER_SLOTS).found
                (fun b => attachedSlot b buffer) }
          outSlot := some (attachScan c.mSlots NUM_BUFFER_SLOTS).found } := by
  unfold attachBuffer acquiredCount
  dsimp only
  rw [if_neg hb, attachScan_numAcquiredBuffers]
  rfl

theorem attachScan_found_invalid_iff (l : List BufferSlot) (n : Nat) :
    (attachScan l n).found = INVALID_BUFFER_SLOT ↔
      ∀ s : Int, 0 ≤ s → s < (n : Int) → (slotAt l s).mBufferState ≠ BufferState.FREE := by
  rcases attachScan_found l n with ⟨hf, hno⟩ | ⟨f, hf, hlt, hfree, _, _⟩
  · refine ⟨fun _ s hlo hhi => ?_, fun _ => hf⟩
    have := hno s.toNat (by omega)
    rwa [Int.toNat_of_nonneg hlo] at this
  · refine ⟨fun h => ?_, fun h => ?_⟩
    · rw [hf] at h
      unfold INVALID_BUFFER_SLOT at h
      omega
    · exact absurd hfree (h f (by omega) (by omega))

/-- C23: `attachBuffer` returns BAD_VALUE for a null buffer (and for a null
`outSlot` pointer); for a non-null buffer it returns INVALID_OPERATION when at
least `maxAcquiredBufferCount + 1` slots are ACQUIRED, whether or not a slot is
FREE; otherwise it returns NO_MEMORY when no slot is FREE; every failure leaves the
core (slot table, queue) and the cell `outSlot` points to unchanged; in all
remaining cases it succeeds. -/
theorem attachBuffer_failures (mCore : BufferQueueCore) (old : Int) (buffer : Option Nat) :
    attachBuffer mCore none buffer =
        { status := status_t.BAD_VALUE, core := mCore, outSlot := none } ∧
    (buffer = none →
      attachBuffer mCore (some old) buffer =
        { status := status_t.BAD_VALUE, core := mCore, outSlot := some old }) ∧
    (buffer ≠ none → mCore.mMaxAcquiredBufferCount + 1 ≤ (acquiredCount mCore : Int) →
      attachBuffer mCore (some old) buffer =
        { status := status_t.INVALID_OPERATION, core := mCore, outSlot := some old }) ∧
    (buffer ≠ none → (acquiredCount mCore : Int) < mCore.mMaxAcquiredBufferCount + 1 →
      (∀ s : Int, 0 ≤ s → s < NUM_BUFFER_SLOTS →
        (slotAt mCore.mSlots s).mBufferState ≠ BufferState.FREE) →
      attachBuffer mCore (some old) buffer =
        { status := status_t.NO_MEMORY, core := mCore, outSlot := some old }) ∧
    (buffer ≠ none → (acquiredCount mCore : Int) < mCore.mMaxAcquiredBufferCount + 1 →
      (∃ s : Int, 0 ≤ s ∧ s < NUM_BUFFER_SLOTS ∧
        (slotAt mCore.mSlots s).mBufferState = BufferState.FREE) →
      (attachBuffer mCore (some old) buffer).status = status_t.NO_ERROR) := by
  refine ⟨rfl, fun hb => ?_, fun hb hc => ?_, fun hb hc hno => ?_, fun hb hc hfree => ?_⟩
  · unfold attachBuffer
    dsimp only
    rw [if_pos hb]
  · rw [attachBuffer_of_args mCore old buffer hb, if_pos hc]
  · have hc2 : ¬ ((acquiredCount mCore : Int) ≥ mCore.mMaxAcquiredBufferCount + 1) := by omega
    rw [attachBuffer_of_args mCore old buffer hb, if_neg hc2,
      if_pos ((attachScan_found_invalid_iff _ _).2 hno)]
  · have hc2 : ¬ ((acquiredCount mCore : Int) ≥ mCore.mMaxAcquiredBufferCount + 1) := by omega
    have hf : ¬ ((attachScan mCore.mSlots NUM_BUFFER_SLOTS).found = INVALID_BUFFER_SLOT) := by
      intro h
      obtain ⟨s, hlo, hhi, hs⟩ := hfree
      exact (attachScan_found_invalid_iff _ _).1 h s hlo hhi hs
    rw [attachBuffer_of_args mCore old buffer hb, if_neg hc2, if_neg hf]

theorem busyCore_no_free (s : Int) (hlo : 0 ≤ s) (hhi : s < NUM_BUFFER_SLOTS) :
    (slotAt busyCore.mSlots s).mBufferState ≠ BufferState.FREE := by
  have hmem : ∀ b ∈ busyCore.mSlots, b.mBufferState ≠ BufferState.FREE := by
    intro b hb
    simp only [busyCore, List.mem_cons] at hb
    rcases hb with rfl | hb
    · decide
    · rw [List.eq_of_mem_replicate hb]
      decide
  have hlen : busyCore.mSlots.length = 64 := by simp [busyCore]
  unfold NUM_BUFFER_SLOTS at hhi
  unfold slotAt
  rw [if_pos hlo, List.getD_eq_getElem busyCore.mSlots default (by omega)]
  exact hmem _ (List.getElem_mem _)

set_option maxRecDepth 100000 in
/-- C23 at `fullCore` (limit reached, FREE slots left), at `busyCore` (no FREE
slot) and at `queuedCore` (a FREE slot, limit not reached). -/
theorem attachBuffer_failures_witness :
    attachBuffer queuedCore (some 5) none =
        { status := status_t.BAD_VALUE, core := queuedCore, outSlot := some 5 } ∧
      (slotAt fullCore.mSlots 4).mBufferState = BufferState.FREE ∧
      attachBuffer fullCore (some 5) (some 7) =
        { status := status_t.INVALID_OPERATION, core := fullCore, outSlot := some 5 } ∧
      attachBuffer busyCore (some 5) (some 7) =
        { status := status_t.NO_MEMORY, core := busyCore, outSlot := some 5 } ∧
      (attachBuffer queuedCore (some 5) (some 7)).status = status_t.NO_ERROR :=
  ⟨(attachBuffer_failures queuedCore 5 none).2.1 rfl,
   by decide,
   (attachBuffer_failures fullCore 5 (some 7)).2.2.1 (by decide) (by decide),
   (attachBuffer_failures busyCore 5 (some 7)).2.2.2.1 (by decide) (by decide)
     busyCore_no_free,
   (attachBuffer_failures queuedCore 5 (some 7)).2.2.2.2 (by decide) (by decide)
     ⟨4, by decide, by decide, by decide⟩⟩

/-- What a successful `attachBuffer` was given and found. -/
theorem attachBuffer_success (c : BufferQueueCore) (outSlot : Option Int)
    (buffer : Option Nat)
    (hs : (attachBuffer c outSlot buffer).status = status_t.NO_ERROR) :
    ∃ f : Nat, (attachScan c.mSlots NUM_BUFFER_SLOTS).found = (f : Int) ∧
      f < NUM_BUFFER_SLOTS ∧ buffer ≠ none ∧
      (acquiredCount c : Int) < c.mMaxAcquiredBufferCount + 1 ∧
      attachBuffer c outSlot buffer =
        { status := status_t.NO_ERROR
          core :=
            { c with
              mSlots := updateSlot c.mSlots (f : Int) (fun b => attachedSlot b buffer) }
          outSlot := some (f : Int) } := by
  cases outSlot with
  | none => simp [attachBuffer] at hs
  | some old =>
    by_cases hb : buffer = none
    · simp [attachBuffer, hb] at hs
    · rw [attachBuffer_of_args c old buffer hb] at hs ⊢
      by_cases hc : (acquiredCount c : Int) ≥ c.mMaxAcquiredBufferCount + 1
      · rw [if_pos hc] at hs
        simp at hs
      · rw [if_neg hc] at hs ⊢
        rcases attachScan_found c.mSlots NUM_BUFFER_SLOTS with ⟨hf, _⟩ | ⟨f, hf, hlt, _, _, _⟩
        · rw [if_pos hf] at hs
          simp at hs
        · have hne : ¬ ((attachScan c.mSlots NUM_BUFFER_SLOTS).found =
              INVALID_BUFFER_SLOT) := by
            rw [hf]
            unfold INVALID_BUFFER_SLOT
            omega
          rw [if_neg hne, hf]
          exact ⟨f, rfl, hlt, hb, by omega, rfl⟩

/-- The candidate the scan loop of `attachBuffer` ends with is a FREE slot. -/
theorem attachScan_found_free (l : List BufferSlot) (n f : Nat)
    (hf : (attachScan l n).found = (f : Int)) :
    (slotAt l f).mBufferState = BufferState.FREE := by
  rcases attachScan_found l n with ⟨hinv, _⟩ | ⟨g, hg, _, hfree, _, _⟩
  · rw [hf] at hinv
    unfold INVALID_BUFFER_SLOT at hinv
    omega
  · have hfg : f = g := by
      rw [hf] at hg
      exact Int.ofNat.inj hg
    rw [hfg]; exact hfree

theorem slotAt_attachedSlot_self (l : List BufferSlot) (f : Nat) (buffer : Option Nat)
    (hin : f < l.length) :
    slotAt (updateSlot l (f : Int) (fun b => attachedSlot b buffer)) (f : Int) =
      attachedSlot (slotAt l f) buffer := by
  rw [slotAt_updateSlot, if_pos ⟨rfl, by omega, by omega⟩]

/-- Writing an attached buffer into a FREE slot adds exactly one ACQUIRED slot. -/
theorem numAcquiredBuffers_attachedSlot (l : List BufferSlot) (f n : Nat)
    (buffer : Option Nat) (hin : f < l.length) (hlt : f < n)
    (hfree : (slotAt l f).mBufferState = BufferState.FREE) :
    numAcquiredBuffers (updateSlot l (f : Int) (fun b => attachedSlot b buffer)) n =
      numAcquiredBuffers l n + 1 := by
  have hcount := numAcquiredBuffers_eq_succ
    (updateSlot l (f : Int) (fun b => attachedSlot b buffer)) l (f : Int)
    (fun s hne => by rw [slotAt_updateSlot, if_neg (fun hc => hne hc.1)])
    (by rw [slotAt_attachedSlot_self l f buffer hin]; rfl) (by rw [hfree]; decide) n
  rw [if_pos ⟨by omega, by omega⟩] at hcount
  exact hcount

/-- The result of `detachBuffer` on an ACQUIRED slot of a non-abandoned core. -/
theorem detachBuffer_of_acquired (c : BufferQueueCore) (slot : Int)
    (hna : c.mIsAbandoned = false) (hlo : 0 ≤ slot) (hhi : slot < NUM_BUFFER_SLOTS)
    (hacq : (slotAt c.mSlots slot).mBufferState = BufferState.ACQUIRED) :
    detachBuffer c slot =
      { status := status_t.NO_ERROR
        core := { c with mSlots := freeBufferLocked c.mSlots slot } } := by
  have ha : ¬ (c.mIsAbandoned = true) := by rw [hna]; decide
  have hr : ¬ (slot < 0 ∨ slot ≥ NUM_BUFFER_SLOTS) := by omega
  have hs : ¬ ((slotAt c.mSlots slot).mBufferState ≠ BufferState.ACQUIRED) :=
    fun h => h hacq
  unfold detachBuffer
  rw [if_neg ha, if_neg hr, if_neg hs]

/-- C24: whenever `attachBuffer` succeeds, the slot it returns is in range, was
FREE before the call, and its frame number was minimal among all FREE slots (the
oldest); among the FREE slots with that minimal frame number it is the one with
the lowest index. -/
theorem attachBuffer_picks_oldest_free (mCore : BufferQueueCore) (outSlot : Option Int)
    (buffer : Option Nat)
    (hs : (attachBuffer mCore outSlot buffer).status = status_t.NO_ERROR) :
    ∃ slot : Int,
      (attachBuffer mCore outSlot buffer).outSlot = some slot ∧
      0 ≤ slot ∧ slot < NUM_BUFFER_SLOTS ∧
      (slotAt mCore.mSlots slot).mBufferState = BufferState.FREE ∧
      (∀ s : Int, 0 ≤ s → s < NUM_BUFFER_SLOTS →
        (slotAt mCore.mSlots s).mBufferState = BufferState.FREE →
        (slotAt mCore.mSlots slot).mFrameNumber ≤ (slotAt mCore.mSlots s).mFrameNumber) ∧
      (∀ s : Int, 0 ≤ s → s < NUM_BUFFER_SLOTS →
        (slotAt mCore.mSlots s).mBufferState = BufferState.FREE →
        (slotAt mCore.mSlots s).mFrameNumber = (slotAt mCore.mSlots slot).mFrameNumber →
        slot ≤ s) := by
  obtain ⟨f, hf, hlt, _, _, heq⟩ := attachBuffer_success mCore outSlot buffer hs
  rcases attachScan_found mCore.mSlots NUM_BUFFER_SLOTS with ⟨hinv, _⟩ | ⟨g, hg, _, hfree, hmin, hlow⟩
  · rw [hf] at hinv
    unfold INVALID_BUFFER_SLOT at hinv
    omega
  · have hfg : f = g := by
      rw [hf] at hg
      exact Int.ofNat.inj hg
    subst hfg
    refine ⟨(f : Int), by rw [heq], by omega, by omega, hfree, fun s hlo hhi hsf => ?_,
      fun s hlo hhi hsf hsame => ?_⟩
    · have := hmin s.toNat (by omega) (by rw [Int.toNat_of_nonneg hlo]; exact hsf)
      rwa [Int.toNat_of_nonneg hlo] at this
    · by_contra hnot
      have := hlow s.toNat (by omega) (by rw [Int.toNat_of_nonneg hlo]; exact hsf)
      rw [Int.toNat_of_nonneg hlo] at this
      omega

set_option maxRecDepth 100000 in
/-- C24 at `agedCore`: slots 1 and 2 share the least frame number, slot 1 is
returned. -/
theorem attachBuffer_picks_oldest_free_witness :
    (attachBuffer agedCore (some 5) (some 7)).outSlot = some 1 ∧
      ∃ slot : Int,
        (attachBuffer agedCore (some 5) (some 7)).outSlot = some slot ∧
        0 ≤ slot ∧ slot < NUM_BUFFER_SLOTS ∧
        (slotAt agedCore.mSlots slot).mBufferState = BufferState.FREE ∧
        (∀ s : Int, 0 ≤ s → s < NUM_BUFFER_SLOTS →
          (slotAt agedCore.mSlots s).mBufferState = BufferState.FREE →
          (slotAt agedCore.mSlots slot).mFrameNumber ≤
            (slotAt agedCore.mSlots s).mFrameNumber) ∧
        (∀ s : Int, 0 ≤ s → s < NUM_BUFFER_SLOTS →
          (slotAt agedCore.mSlots s).mBufferState = BufferState.FREE →
          (slotAt agedCore.mSlots s).mFrameNumber =
            (slotAt agedCore.mSlots slot).mFrameNumber →
          slot ≤ s) :=
  ⟨by decide, attachBuffer_picks_oldest_free agedCore (some 5) (some 7) (by decide)⟩

/-- C25: whenever `attachBuffer(buffer)` succeeds on a table of `NUM_BUFFER_SLOTS`
slots, returning slot `s`: after the call slot `s` holds the given buffer and is
ACQUIRED with `mAttachedByConsumer` true, frame number 0, `mAcquireCalled` false,
`mNeedsCleanupOnRelease` false and fence NO_FENCE (its sync handles are kept);
every other slot, the Pending Queue and all other fields of the core are
unchanged, and the number of ACQUIRED slots grows by exactly one. -/
theorem attachBuffer_effect (mCore : BufferQueueCore) (outSlot : Option Int)
    (buffer : Option Nat)
    (hlen : mCore.mSlots.length = NUM_BUFFER_SLOTS)
    (hs : (attachBuffer mCore outSlot buffer).status = status_t.NO_ERROR) :
    ∃ slot mSlots,
      attachBuffer mCore outSlot buffer =
        { status := status_t.NO_ERROR
          core := { mCore with mSlots := mSlots }
          outSlot := some slot } ∧
      slotAt mSlots slot =
        { slotAt mCore.mSlots slot with
          mGraphicBuffer := buffer
          mBufferState := BufferState.ACQUIRED
          mAttachedByConsumer := true
          mNeedsCleanupOnRelease := false
          mFence := some Fence.NO_FENCE
          mFrameNumber := 0
          mAcquireCalled := false } ∧
      (∀ s, s ≠ slot → slotAt mSlots s = slotAt mCore.mSlots s) ∧
      mSlots.length = mCore.mSlots.length ∧
      acquiredCount { mCore with mSlots := mSlots } = acquiredCount mCore + 1 := by
  obtain ⟨f, hf, hlt, _, _, heq⟩ := attachBuffer_success mCore outSlot buffer hs
  have hfree := attachScan_found_free mCore.mSlots NUM_BUFFER_SLOTS f hf
  have hin : f < mCore.mSlots.length := by rw [hlen]; exact hlt
  refine ⟨(f : Int), updateSlot mCore.mSlots (f : Int) (fun b => attachedSlot b buffer),
    heq, slotAt_attachedSlot_self mCore.mSlots f buffer hin, ?_, updateSlot_length _ _ _,
    numAcquiredBuffers_attachedSlot mCore.mSlots f NUM_BUFFER_SLOTS buffer hin hlt hfree⟩
  intro s hne
  rw [slotAt_updateSlot, if_neg (fun hc => hne hc.1)]

set_option maxRecDepth 100000 in
/-- C25 at `queuedCore`: the buffer goes to slot 4, and two slots are ACQUIRED
after the call instead of one. -/
theorem attachBuffer_effect_witness :
    (attachBuffer queuedCore (some 5) (some 7)).outSlot = some 4 ∧
      acquiredCount queuedCore = 1 ∧
      acquiredCount (attachBuffer queuedCore (some 5) (some 7)).core = 2 ∧
      ∃ slot mSlots,
        attachBuffer queuedCore (some 5) (some 7) =
          { status := status_t.NO_ERROR
            core := { queuedCore with mSlots := mSlots }
            outSlot := some slot } ∧
        slotAt mSlots slot =
          { slotAt queuedCore.mSlots slot with
            mGraphicBuffer := some 7
            mBufferState := BufferState.ACQUIRED
            mAttachedByConsumer := true
            mNeedsCleanupOnRelease := false
            mFence := some Fence.NO_FENCE
            mFrameNumber := 0
            mAcquireCalled := false } ∧
        (∀ s, s ≠ slot → slotAt mSlots s = slotAt queuedCore.mSlots s) ∧
        mSlots.length = queuedCore.mSlots.length ∧
        acquiredCount { queuedCore with mSlots := mSlots } = acquiredCount queuedCore + 1 :=
  ⟨by decide, by decide, by decide,
   attachBuffer_effect queuedCore (some 5) (some 7) (by decide) (by decide)⟩

/-- C26 (as amended): round trip.  For every non-abandoned core with a table of
`NUM_BUFFER_SLOTS` slots and every buffer for which `attachBuffer` succeeds
returning slot `s`, an immediately following `detachBuffer(s)` succeeds, leaves
slot `s` FREE, and leaves `mMaxAcquiredBufferCount` and the number of ACQUIRED
slots equal to their values before the attach. -/
theorem attachBuffer_detachBuffer_round_trip (mCore : BufferQueueCore)
    (outSlot : Option Int) (buffer : Option Nat)
    (hna : mCore.mIsAbandoned = false)
    (hlen : mCore.mSlots.length = NUM_BUFFER_SLOTS)
    (hs : (attachBuffer mCore outSlot buffer).status = status_t.NO_ERROR) :
    ∃ slot,
      (attachBuffer mCore outSlot buffer).outSlot = some slot ∧
      (detachBuffer (attachBuffer mCore outSlot buffer).core slot).status =
        status_t.NO_ERROR ∧
      (slotAt (detachBuffer (attachBuffer mCore outSlot buffer).core slot).core.mSlots
        slot).mBufferState = BufferState.FREE ∧
      (detachBuffer (attachBuffer mCore outSlot buffer).core
        slot).core.mMaxAcquiredBufferCount = mCore.mMaxAcquiredBufferCount ∧
      acquiredCount (detachBuffer (attachBuffer mCore outSlot buffer).core slot).core =
        acquiredCount mCore := by
  obtain ⟨f, hf, hlt, _, _, heq⟩ := attachBuffer_success mCore outSlot buffer hs
  have hfree := attachScan_found_free mCore.mSlots NUM_BUFFER_SLOTS f hf
  have hin : f < mCore.mSlots.length := by rw [hlen]; exact hlt
  have hself := slotAt_attachedSlot_self mCore.mSlots f buffer hin
  have hcount := numAcquiredBuffers_attachedSlot mCore.mSlots f NUM_BUFFER_SLOTS buffer hin
    hlt hfree
  generalize updateSlot mCore.mSlots (f : Int) (fun b => attachedSlot b buffer) = mSlots
    at heq hself hcount
  have hacq : (slotAt mSlots (f : Int)).mBufferState = BufferState.ACQUIRED := by
    rw [hself]; rfl
  have hin2 := slotAt_inRange_of_acquired mSlots (f : Int) hacq
  have hd := detachBuffer_of_acquired { mCore with mSlots := mSlots } (f : Int) hna
    (by omega) (by omega) hacq
  have hfreed := (slotAt_freeBufferLocked_self mSlots (f : Int) (Or.inr hin2)).1
  have hc2 := numAcquiredBuffers_eq_succ mSlots (freeBufferLocked mSlots (f : Int)) (f : Int)
    (fun s hne => by rw [slotAt_freeBufferLocked_ne mSlots (f : Int) s hne]) hacq
    (by rw [hfreed]; decide) NUM_BUFFER_SLOTS
  rw [if_pos ⟨by omega, by omega⟩] at hc2
  rw [heq]
  dsimp only
  refine ⟨(f : Int), rfl, ?_, ?_, ?_, ?_⟩
  · rw [hd]
  · rw [hd]
    exact hfreed
  · rw [hd]
  · rw [hd]
    unfold acquiredCount
    dsimp only
    omega

set_option maxRecDepth 100000 in
/-- C26 (as amended) at `queuedCore`: the buffer goes to slot 4 and comes out of
it again; one slot is ACQUIRED before and after. -/
theorem attachBuffer_detachBuffer_round_trip_witness :
    (attachBuffer queuedCore (some 5) (some 7)).outSlot = some 4 ∧
      acquiredCount queuedCore = 1 ∧
      ∃ slot,
        (attachBuffer queuedCore (some 5) (some 7)).outSlot = some slot ∧
        (detachBuffer (attachBuffer queuedCore (some 5) (some 7)).core slot).status =
          status_t.NO_ERROR ∧
        (slotAt (detachBuffer (attachBuffer queuedCore (some 5) (some 7)).core
          slot).core.mSlots slot).mBufferState = BufferState.FREE ∧
        (detachBuffer (attachBuffer queuedCore (some 5) (some 7)).core
          slot).core.mMaxAcquiredBufferCount = queuedCore.mMaxAcquiredBufferCount ∧
        acquiredCount (detachBuffer (attachBuffer queuedCore (some 5) (some 7)).core
          slot).core = acquiredCount queuedCore :=
  ⟨by decide, by decide,
   attachBuffer_detachBuffer_round_trip queuedCore (some 5) (some 7) (by decide)
    (by decide) (by decide)⟩

set_option maxRecDepth 100000 in
/-- C26 (counterexample): on the abandoned core `attachBuffer` succeeds and returns
slot 0, the following `detachBuffer(0)` returns NO_INIT, slot 0 stays ACQUIRED and
one slot is ACQUIRED where none was before the attach. -/
theorem attachBuffer_detachBuffer_abandoned :
    abandonedCore.mIsAbandoned = true ∧
      acquiredCount abandonedCore = 0 ∧
      (attachBuffer abandonedCore (some 5) (some 7)).status = status_t.NO_ERROR ∧
      (attachBuffer abandonedCore (some 5) (some 7)).outSlot = some 0 ∧
      (detachBuffer (attachBuffer abandonedCore (some 5) (some 7)).core 0).status =
        status_t.NO_INIT ∧
      (slotAt (detachBuffer (attachBuffer abandonedCore (some 5) (some 7)).core
        0).core.mSlots 0).mBufferState = BufferState.ACQUIRED ∧
      acquiredCount (detachBuffer (attachBuffer abandonedCore (some 5) (some 7)).core
        0).core = 1 := by
  decide

/-! ## C27: the edges along which a slot's state changes -/

theorem slotAt_dropFront_state (l : List BufferSlot) (front : BufferItem) (s : Int) :
    (slotAt (dropFront l front) s).mBufferState = (slotAt l s).mBufferState ∨
      ((slotAt (dropFront l front) s).mBufferState = BufferState.FREE ∧
        front.mSlot = s ∧ stillTracking l front = true) := by
  unfold dropFront
  by_cases ht : stillTracking l front = true
  · rw [if_pos ht, slotAt_updateSlot]
    split
    · rename_i hc
      right
      exact ⟨rfl, hc.1.symm, ht⟩
    · left; rfl
  · rw [if_neg ht]
    left; rfl

/-- The drop loop changes the state of a slot only to FREE, and only for a slot
named by a still-tracked queued entry. -/
theorem slotAt_dropLoop_state (E : Int) (l : List BufferSlot) (q : List BufferItem) (s : Int) :
    (slotAt (dropLoop E l q).1 s).mBufferState = (slotAt l s).mBufferState ∨
      ((slotAt (dropLoop E l q).1 s).mBufferState = BufferState.FREE ∧
        ∃ d ∈ q, d.mSlot = s ∧ stillTracking l d = true) := by
  induction q generalizing l with
  | nil => left; simp [dropLoop]
  | cons front t ih =>
    cases t with
    | nil => left; simp [dropLoop]
    | cons second rest =>
      simp only [dropLoop]
      split
      · left; rfl
      · split
        · left; rfl
        · rcases ih (dropFront l front) with h | ⟨hfree, d, hd, hds, hdt⟩
          · rcases slotAt_dropFront_state l front s with h2 | ⟨h2, hfs, hft⟩
            · left; rw [h, h2]
            · right
              exact ⟨by rw [h, h2], front, List.mem_cons_self _ _, hfs, hft⟩
          · right
            refine ⟨hfree, d, List.mem_cons_of_mem _ hd, hds, ?_⟩
            rw [← stillTracking_dropFront l front d]
            exact hdt

theorem acquireFront_slot_state (c : BufferQueueCore) (k : List BufferSlot)
    (front : BufferItem) (rest : List BufferItem) (s : Int) :
    (slotAt (acquireFront c k front rest).core.mSlots s).mBufferState =
        (slotAt k s).mBufferState ∨
      ((slotAt (acquireFront c k front rest).core.mSlots s).mBufferState =
          BufferState.ACQUIRED ∧
        front.mSlot = s ∧ stillTracking k front = true) := by
  unfold acquireFront
  dsimp only
  by_cases ht : stillTracking k front = true
  · rw [if_pos ht, slotAt_updateSlot]
    split
    · rename_i hc
      right
      exact ⟨rfl, hc.1.symm, ht⟩
    · left; rfl
  · rw [if_neg ht]
    left; rfl

/-- The state of a slot after `acquireBuffer` is its state before, or FREE or
ACQUIRED for a slot named by a still-tracked queued entry. -/
theorem acquireBuffer_slot_state (c : BufferQueueCore) (E : Int) (s : Int) :
    (slotAt (acquireBuffer c E).core.mSlots s).mBufferState =
        (slotAt c.mSlots s).mBufferState ∨
      (((slotAt (acquireBuffer c E).core.mSlots s).mBufferState = BufferState.FREE ∨
          (slotAt (acquireBuffer c E).core.mSlots s).mBufferState = BufferState.ACQUIRED) ∧
        ∃ e ∈ c.mQueue, e.mSlot = s ∧ stillTracking c.mSlots e = true) := by
  by_cases hn : (acquiredCount c : Int) < c.mMaxAcquiredBufferCount + 1
  swap
  · left; rw [(acquireBuffer_core_of_blocked c E (Or.inl hn)).1]
  by_cases hq : c.mQueue = []
  · left; rw [(acquireBuffer_core_of_blocked c E (Or.inr hq)).1]
  by_cases hE : E = 0
  · subst hE
    match hc : c.mQueue with
    | [] => exact absurd hc hq
    | front :: rest =>
      rw [acquireBuffer_zero c hn front rest hc]
      rcases acquireFront_slot_state c c.mSlots front rest s with h | ⟨h, hfs, hft⟩
      · left; exact h
      · right
        exact ⟨Or.inr h, front, List.mem_cons_self _ _, hfs, hft⟩
  · have hne := dropLoop_ne_nil E c.mSlots c.mQueue hq
    obtain ⟨dropped, hdrop⟩ := dropLoop_suffix E c.mSlots c.mQueue
    have htrack := stillTracking_dropLoop E c.mSlots c.mQueue
    have hstate := slotAt_dropLoop_state E c.mSlots c.mQueue s
    generalize hd : dropLoop E c.mSlots c.mQueue = r at hne hdrop htrack hstate
    obtain ⟨k, q⟩ := r
    cases q with
    | nil => exact absurd rfl hne
    | cons front rest =>
      dsimp only at hdrop htrack hstate
      have hmem : front ∈ c.mQueue := by
        rw [hdrop]
        exact List.mem_append_right _ (List.mem_cons_self _ _)
      rw [acquireBuffer_of_dropLoop c E hE hn k front rest hd]
      by_cases hp : presentLater E front.mTimestamp = true
      · rw [if_pos hp]
        dsimp only
        rcases hstate with h | ⟨h, hex⟩
        · left; exact h
        · right; exact ⟨Or.inl h, hex⟩
      · rw [if_neg hp]
        rcases acquireFront_slot_state c k front rest s with h | ⟨h, hfs, hft⟩
        · rcases hstate with h2 | ⟨h2, hex⟩
          · left; rw [h, h2]
          · right; exact ⟨Or.inl (by rw [h, h2]), hex⟩
        · right
          exact ⟨Or.inr h, front, hmem, hfs, by rw [← htrack front]; exact hft⟩

theorem slotAt_freeAllBuffersLocked_state (l : List BufferSlot) (n : Nat) (s : Int) :
    (slotAt (freeAllBuffersLocked l n) s).mBufferState = (slotAt l s).mBufferState ∨
      (slotAt (freeAllBuffersLocked l n) s).mBufferState = BufferState.FREE := by
  induction n with
  | zero => left; rfl
  | succ n ih =>
    simp only [freeAllBuffersLocked]
    unfold freeBufferLocked
    rw [slotAt_updateSlot]
    split
    · right; rfl
    · exact ih

/-- C27 (as amended): for every consumer call, core and slot, the state of the slot
after the call is its state before, or the call moved it along one of these
edges: ACQUIRED to FREE (release, detach), FREE to ACQUIRED (attach), any state to
FREE (disconnect), or, in `acquireBuffer`, from the state of a slot named by a
still-tracked queued entry to FREE (the entry was dropped) or to ACQUIRED (the
entry was taken). -/
theorem ConsumerOp.apply_state_edges (mCore : BufferQueueCore) (op : ConsumerOp) (s : Int) :
    (slotAt (op.apply mCore).mSlots s).mBufferState = (slotAt mCore.mSlots s).mBufferState ∨
      ((slotAt mCore.mSlots s).mBufferState = BufferState.ACQUIRED ∧
        (slotAt (op.apply mCore).mSlots s).mBufferState = BufferState.FREE) ∨
      ((slotAt mCore.mSlots s).mBufferState = BufferState.FREE ∧
        (slotAt (op.apply mCore).mSlots s).mBufferState = BufferState.ACQUIRED) ∨
      (op = ConsumerOp.disconnect ∧
        (slotAt (op.apply mCore).mSlots s).mBufferState = BufferState.FREE) ∨
      ((∃ expectedPresent, op = ConsumerOp.acquire expectedPresent) ∧
        ((slotAt (op.apply mCore).mSlots s).mBufferState = BufferState.FREE ∨
          (slotAt (op.apply mCore).mSlots s).mBufferState = BufferState.ACQUIRED) ∧
        ∃ e ∈ mCore.mQueue, e.mSlot = s ∧ stillTracking mCore.mSlots e = true) := by
  cases op with
  | acquire E =>
    simp only [ConsumerOp.apply]
    rcases acquireBuffer_slot_state mCore E s with h | h
    · left; exact h
    · right; right; right; right
      exact ⟨⟨E, rfl⟩, h⟩
  | release slot frameNumber releaseFence eglDisplay eglFence =>
    simp only [ConsumerOp.apply]
    unfold releaseBuffer
    split
    · left; rfl
    · split
      · left; rfl
      · split
        · left; rfl
        · split
          · rename_i hacq
            dsimp only
            rw [slotAt_updateSlot]
            split
            · rename_i hc
              right; left
              rw [hc.1]
              exact ⟨hacq, rfl⟩
            · left; rfl
          · split
            · dsimp only
              rw [slotAt_updateSlot]
              split
              · rename_i hc
                left
                rw [hc.1]
              · left; rfl
            · left; rfl
  | attach outSlot buffer =>
    simp only [ConsumerOp.apply]
    by_cases hs : (attachBuffer mCore outSlot buffer).status = status_t.NO_ERROR
    · obtain ⟨f, hf, _, _, _, heq⟩ := attachBuffer_success mCore outSlot buffer hs
      have hfree := attachScan_found_free mCore.mSlots NUM_BUFFER_SLOTS f hf
      rw [heq]
      dsimp only
      rw [slotAt_updateSlot]
      split
      · rename_i hc
        right; right; left
        rw [hc.1]
        exact ⟨hfree, rfl⟩
      · left; rfl
    · left
      have hcore : (attachBuffer mCore outSlot buffer).core = mCore := by
        unfold attachBuffer at hs ⊢
        split
        · rfl
        · split
          · rfl
          · dsimp only at hs ⊢
            split
            · rfl
            · split
              · rfl
              · rename_i h1 h2 h3
                rw [if_neg h1, if_neg h2, if_neg h3] at hs
                exact absurd rfl hs
      rw [hcore]
  | detach slot =>
    simp only [ConsumerOp.apply]
    unfold detachBuffer
    split
    · left; rfl
    · split
      · left; rfl
      · split
        · left; rfl
        · rename_i hacq
          have hacq2 : (slotAt mCore.mSlots slot).mBufferState = BufferState.ACQUIRED := by
            by_contra h
            exact hacq h
          dsimp only
          unfold freeBufferLocked
          rw [slotAt_updateSlot]
          split
          · rename_i hc
            right; left
            rw [hc.1]
            exact ⟨hacq2, rfl⟩
          · left; rfl
  | connect consumerListener controlledByApp =>
    left
    simp only [ConsumerOp.apply, android.connect]
    split
    · rfl
    · split <;> rfl
  | disconnect =>
    simp only [ConsumerOp.apply, android.disconnect]
    split
    · left; rfl
    · dsimp only
      rcases slotAt_freeAllBuffersLocked_state mCore.mSlots NUM_BUFFER_SLOTS s with h | h
      · left; exact h
      · right; right; right; left
        exact ⟨trivial, h⟩
  | getReleasedBuffers outSlotMask =>
    left
    simp only [ConsumerOp.apply, android.getReleasedBuffers]
    split
    · rfl
    · split <;> rfl
  | setDefaultBufferSize width height =>
    left
    simp only [ConsumerOp.apply, android.setDefaultBufferSize]
    split <;> rfl
  | setDefaultMaxBufferCount bufferCount =>
    left
    simp only [ConsumerOp.apply, android.setDefaultMaxBufferCount, setDefaultMaxBufferCountLocked]
    split_ifs <;> rfl
  | disableAsyncBuffer =>
    left
    simp only [ConsumerOp.apply, android.disableAsyncBuffer]
    split <;> rfl
  | setMaxAcquiredBufferCount maxAcquiredBuffers =>
    left
    simp only [ConsumerOp.apply, android.setMaxAcquiredBufferCount]
    split
    · rfl
    · split <;> rfl
  | setConsumerName name => left; rfl
  | setDefaultBufferFormat defaultFormat => left; rfl
  | setConsumerUsageBits usage => left; rfl
  | setTransformHint hint => left; rfl

set_option maxRecDepth 100000 in
/-- C27 (counterexample): `acquireBuffer(150)` on `queuedCore` drops the head entry
and takes slot 1 from QUEUED to FREE; `disconnect` takes slot 3 of a connected core
from DEQUEUED to FREE.  Neither is one of the five edges of the claim. -/
theorem state_edges_outside_the_cycle :
    (slotAt queuedCore.mSlots 1).mBufferState = BufferState.QUEUED ∧
      (slotAt ((ConsumerOp.acquire 150).apply queuedCore).mSlots 1).mBufferState =
        BufferState.FREE ∧
      (slotAt connectedReleaseCore.mSlots 3).mBufferState = BufferState.DEQUEUED ∧
      (slotAt (ConsumerOp.disconnect.apply connectedReleaseCore).mSlots 3).mBufferState =
        BufferState.FREE := by
  decide

/-! ## C28: frame numbers of the ACQUIRED slots -/

theorem slotStep_refl (b : BufferSlot) : slotStep b b :=
  Or.inl ⟨rfl, rfl, fun h => Or.inl h⟩

theorem framesDistinct_of_slotStep (l k : List BufferSlot)
    (h : ∀ s, slotStep (slotAt l s) (slotAt k s)) (hl : framesDistinct l) :
    framesDistinct k := by
  constructor
  · intro s hacq
    rcases h s with ⟨hb, _, hst⟩ | ⟨_, hna⟩ | ⟨_, hb⟩
    · rw [hb]
      rcases hst hacq with h1 | h1
      · exact hl.1 s h1
      · exact h1
    · exact absurd hacq hna
    · exact hb
  · intro s t hne hbs hbt hfr
    rcases h s with ⟨hb1, hf1, _⟩ | ⟨hb1, _⟩ | ⟨hf1, _⟩
    · rcases h t with ⟨hb2, hf2, _⟩ | ⟨hb2, _⟩ | ⟨hf2, _⟩
      · rw [hf1]
        rw [hb1] at hbs
        rw [hb2] at hbt
        rw [hf1, hf2] at hfr
        exact hl.2 s t hne hbs hbt hfr
      · exact absurd hb2 hbt
      · rw [hfr, hf2]
    · exact absurd hb1 hbs
    · exact hf1

theorem slotStep_updateSlot (l : List BufferSlot) (t : Int) (f : BufferSlot → BufferSlot)
    (hf : ∀ b, slotStep b (f b)) (s : Int) :
    slotStep (slotAt l s) (slotAt (updateSlot l t f) s) := by
  rw [slotAt_updateSlot]
  split
  · rename_i hc
    rw [hc.1]
    exact hf _
  · exact slotStep_refl _

theorem framesDistinct_updateSlot (l : List BufferSlot) (t : Int) (f : BufferSlot → BufferSlot)
    (hf : ∀ b, slotStep b (f b)) (hl : framesDistinct l) :
    framesDistinct (updateSlot l t f) :=
  framesDistinct_of_slotStep l _ (slotStep_updateSlot l t f hf) hl

theorem framesDistinct_freeBufferLocked (l : List BufferSlot) (slot : Int)
    (hl : framesDistinct l) : framesDistinct (freeBufferLocked l slot) := by
  unfold freeBufferLocked
  apply framesDistinct_updateSlot _ _ _ _ hl
  intro b
  right; left
  exact ⟨rfl, by simp⟩

theorem framesDistinct_freeAllBuffersLocked (l : List BufferSlot) (n : Nat)
    (hl : framesDistinct l) : framesDistinct (freeAllBuffersLocked l n) := by
  induction n with
  | zero => exact hl
  | succ n ih =>
    simp only [freeAllBuffersLocked]
    exact framesDistinct_freeBufferLocked _ _ ih

theorem slotAt_dropFront_frame (l : List BufferSlot) (front : BufferItem) (s : Int) :
    (slotAt (dropFront l front) s).mFrameNumber = (slotAt l s).mFrameNumber := by
  unfold dropFront
  split
  · rw [slotAt_updateSlot]
    split
    · rename_i hc
      rw [hc.1]
    · rfl
  · rfl

theorem slotAt_dropLoop_identity (E : Int) (l : List BufferSlot) (q : List BufferItem)
    (s : Int) :
    (slotAt (dropLoop E l q).1 s).mGraphicBuffer = (slotAt l s).mGraphicBuffer ∧
      (slotAt (dropLoop E l q).1 s).mFrameNumber = (slotAt l s).mFrameNumber := by
  induction q generalizing l with
  | nil => simp [dropLoop]
  | cons front t ih =>
    cases t with
    | nil => simp [dropLoop]
    | cons second rest =>
      simp only [dropLoop]
      split
      · exact ⟨rfl, rfl⟩
      · split
        · exact ⟨rfl, rfl⟩
        · rw [(ih (dropFront l front)).1, (ih (dropFront l front)).2,
            slotAt_dropFront_buffer, slotAt_dropFront_frame]
          exact ⟨rfl, rfl⟩

theorem acquireFront_slot_identity (c : BufferQueueCore) (k : List BufferSlot)
    (front : BufferItem) (rest : List BufferItem) (s : Int) :
    (slotAt (acquireFront c k front rest).core.mSlots s).mGraphicBuffer =
        (slotAt k s).mGraphicBuffer ∧
      (slotAt (acquireFront c k front rest).core.mSlots s).mFrameNumber =
        (slotAt k s).mFrameNumber := by
  unfold acquireFront
  dsimp only
  split
  · rw [slotAt_updateSlot]
    split
    · rename_i hc
      rw [hc.1]
      exact ⟨rfl, rfl⟩
    · exact ⟨rfl, rfl⟩
  · exact ⟨rfl, rfl⟩

/-- No call of `acquireBuffer` changes the buffer or the frame number of a slot. -/
theorem acquireBuffer_slot_identity (c : BufferQueueCore) (E : Int) (s : Int) :
    (slotAt (acquireBuffer c E).core.mSlots s).mGraphicBuffer =
        (slotAt c.mSlots s).mGraphicBuffer ∧
      (slotAt (acquireBuffer c E).core.mSlots s).mFrameNumber =
        (slotAt c.mSlots s).mFrameNumber := by
  by_cases hn : (acquiredCount c : Int) < c.mMaxAcquiredBufferCount + 1
  swap
  · rw [(acquireBuffer_core_of_blocked c E (Or.inl hn)).1]
    exact ⟨rfl, rfl⟩
  by_cases hq : c.mQueue = []
  · rw [(acquireBuffer_core_of_blocked c E (Or.inr hq)).1]
    exact ⟨rfl, rfl⟩
  by_cases hE : E = 0
  · subst hE
    match hc : c.mQueue with
    | [] => exact absurd hc hq
    | front :: rest =>
      rw [acquireBuffer_zero c hn front rest hc]
      exact acquireFront_slot_identity c c.mSlots front rest s
  · have hne := dropLoop_ne_nil E c.mSlots c.mQueue hq
    have hid := slotAt_dropLoop_identity E c.mSlots c.mQueue s
    generalize hd : dropLoop E c.mSlots c.mQueue = r at hne hid
    obtain ⟨k, q⟩ := r
    cases q with
    | nil => exact absurd rfl hne
    | cons front rest =>
      dsimp only at hid
      rw [acquireBuffer_of_dropLoop c E hE hn k front rest hd]
      by_cases hp : presentLater E front.mTimestamp = true
      · rw [if_pos hp]
        exact hid
      · rw [if_neg hp, (acquireFront_slot_identity c k front rest s).1,
          (acquireFront_slot_identity c k front rest s).2]
        exact hid

theorem stillTracking_buffer (l : List BufferSlot) (e : BufferItem)
    (h : stillTracking l e = true) : (slotAt l e.mSlot).mGraphicBuffer ≠ none := by
  unfold stillTracking at h
  simp only [Bool.and_eq_true, bne_iff_ne] at h
  exact h.1

/-- Every consumer call keeps the slots told apart by their frame numbers. -/
theorem ConsumerOp.apply_framesDistinct (c : BufferQueueCore) (op : ConsumerOp)
    (h : framesDistinct c.mSlots) : framesDistinct (op.apply c).mSlots := by
  cases op with
  | acquire E =>
    simp only [ConsumerOp.apply]
    apply framesDistinct_of_slotStep c.mSlots _ _ h
    intro s
    left
    refine ⟨(acquireBuffer_slot_identity c E s).1, (acquireBuffer_slot_identity c E s).2, ?_⟩
    intro hacq
    rcases acquireBuffer_slot_state c E s with hst | ⟨_, e, _, hes, het⟩
    · left; rw [← hst]; exact hacq
    · right
      rw [← hes]
      exact stillTracking_buffer c.mSlots e het
  | release slot frameNumber releaseFence eglDisplay eglFence =>
    simp only [ConsumerOp.apply]
    unfold releaseBuffer
    split
    · exact h
    · split
      · exact h
      · split
        · exact h
        · split
          · dsimp only
            exact framesDistinct_updateSlot c.mSlots slot
              (fun b => { b with mEglDisplay := eglDisplay, mEglFence := eglFence,
                                 mFence := releaseFence, mBufferState := BufferState.FREE })
              (fun b => Or.inl ⟨rfl, rfl, fun hc => absurd hc (by simp)⟩) h
          · split
            · dsimp only
              exact framesDistinct_updateSlot c.mSlots slot
                (fun b => { b with mNeedsCleanupOnRelease := false })
                (fun b => Or.inl ⟨rfl, rfl, fun hc => Or.inl hc⟩) h
            · exact h
  | attach outSlot buffer =>
    simp only [ConsumerOp.apply]
    cases outSlot with
    | none => exact h
    | some old =>
      by_cases hb : buffer = none
      · have hcore : (attachBuffer c (some old) buffer).core = c := by
          unfold attachBuffer
          dsimp only
          rw [if_pos hb]
        rw [hcore]
        exact h
      · rw [attachBuffer_of_args c old buffer hb]
        split
        · exact h
        · split
          · exact h
          · dsimp only
            exact framesDistinct_updateSlot c.mSlots _ (fun b => attachedSlot b buffer)
              (fun b => Or.inr (Or.inr ⟨rfl, hb⟩)) h
  | detach slot =>
    simp only [ConsumerOp.apply]
    unfold detachBuffer
    split
    · exact h
    · split
      · exact h
      · split
        · exact h
        · dsimp only
          exact framesDistinct_freeBufferLocked c.mSlots slot h
  | connect consumerListener controlledByApp =>
    simp only [ConsumerOp.apply, android.connect]
    split
    · exact h
    · split <;> exact h
  | disconnect =>
    simp only [ConsumerOp.apply, android.disconnect]
    split
    · exact h
    · dsimp only
      exact framesDistinct_freeAllBuffersLocked c.mSlots NUM_BUFFER_SLOTS h
  | getReleasedBuffers outSlotMask =>
    simp only [ConsumerOp.apply, android.getReleasedBuffers]
    split
    · exact h
    · split <;> exact h
  | setDefaultBufferSize width height =>
    simp only [ConsumerOp.apply, android.setDefaultBufferSize]
    split <;> exact h
  | setDefaultMaxBufferCount bufferCount =>
    simp only [ConsumerOp.apply, android.setDefaultMaxBufferCount, setDefaultMaxBufferCountLocked]
    split_ifs <;> exact h
  | disableAsyncBuffer =>
    simp only [ConsumerOp.apply, android.disableAsyncBuffer]
    split <;> exact h
  | setMaxAcquiredBufferCount maxAcquiredBuffers =>
    simp only [ConsumerOp.apply, android.setMaxAcquiredBufferCount]
    split
    · exact h
    · split <;> exact h
  | setConsumerName name => exact h
  | setDefaultBufferFormat defaultFormat => exact h
  | setConsumerUsageBits usage => exact h
  | setTransformHint hint => exact h

theorem runOps_framesDistinct (c : BufferQueueCore) (ops : List ConsumerOp)
    (h : framesDistinct c.mSlots) : framesDistinct (runOps c ops).mSlots := by
  induction ops generalizing c with
  | nil => exact h
  | cons op ops ih => exact ih (op.apply c) (ConsumerOp.apply_framesDistinct c op h)

theorem framesDistinct_of_no_buffer (l : List BufferSlot)
    (h : ∀ b ∈ l, b.mGraphicBuffer = none ∧ b.mBufferState ≠ BufferState.ACQUIRED) :
    framesDistinct l := by
  have hall : ∀ s : Int, (slotAt l s).mGraphicBuffer = none ∧
      (slotAt l s).mBufferState ≠ BufferState.ACQUIRED := by
    intro s
    rcases slotAt_mem_or_default l s with hm | hd
    · exact h _ hm
    · rw [hd]
      exact ⟨rfl, by decide⟩
  exact ⟨fun s hacq => absurd hacq (hall s).2, fun s _ _ hb _ _ => absurd (hall s).1 hb⟩

theorem framesDistinct_initialCore : framesDistinct initialCore.mSlots := by
  apply framesDistinct_of_no_buffer
  intro b hb
  simp only [initialCore] at hb
  rw [List.eq_of_mem_replicate hb]
  exact ⟨rfl, by decide⟩

/-- C28 (as amended): start from a core in which every ACQUIRED slot holds a buffer
and no two slots holding a buffer share a non-zero frame number (the initial core
is one).  In every state reached from it by any sequence of consumer calls
(attach, detach, acquire, release and the others), two distinct slots that are
ACQUIRED with the same frame number both have frame number 0, the number
`attachBuffer` gives every slot it fills: no two distinct ACQUIRED slots share a
non-zero frame number. -/
theorem acquired_slots_share_only_frame_zero (mCore : BufferQueueCore)
    (ops : List ConsumerOp) (h : framesDistinct mCore.mSlots) (s t : Int) (hne : s ≠ t)
    (hs : (slotAt (runOps mCore ops).mSlots s).mBufferState = BufferState.ACQUIRED)
    (ht : (slotAt (runOps mCore ops).mSlots t).mBufferState = BufferState.ACQUIRED)
    (hframe : (slotAt (runOps mCore ops).mSlots s).mFrameNumber =
      (slotAt (runOps mCore ops).mSlots t).mFrameNumber) :
    (slotAt (runOps mCore ops).mSlots s).mFrameNumber = 0 := by
  have hinv := runOps_framesDistinct mCore ops h
  exact hinv.2 s t hne (hinv.1 s hs) (hinv.1 t ht) hframe

set_option maxRecDepth 100000 in
/-- C28 (as amended) at the initial core and two attaches: slots 0 and 1 are
ACQUIRED with the same frame number, which is 0. -/
theorem acquired_slots_share_only_frame_zero_witness :
    (slotAt (runOps initialCore twoAttachRun).mSlots 0).mFrameNumber = 0 :=
  acquired_slots_share_only_frame_zero initialCore twoAttachRun framesDistinct_initialCore
    0 1 (by decide) (by decide) (by decide) (by decide)

set_option maxRecDepth 100000 in
/-- C28 (counterexample): after two `attachBuffer` calls on the initial core the
distinct slots 0 and 1 are both ACQUIRED and both have frame number 0. -/
theorem two_attached_slots_share_frame_number :
    isInitial initialCore ∧
      (slotAt (runOps initialCore twoAttachRun).mSlots 0).mBufferState =
        BufferState.ACQUIRED ∧
      (slotAt (runOps initialCore twoAttachRun).mSlots 1).mBufferState =
        BufferState.ACQUIRED ∧
      (slotAt (runOps initialCore twoAttachRun).mSlots 0).mFrameNumber =
        (slotAt (runOps initialCore twoAttachRun).mSlots 1).mFrameNumber :=
  ⟨isInitial_initialCore, by decide, by decide, by decide⟩

/-! ## C29: getReleasedBuffers -/

theorem one_shiftLeft_mod (n : Nat) (h : n < 64) : (1 <<< n) % 2 ^ 64 = 2 ^ n := by
  rw [Nat.one_shiftLeft]
  exact Nat.mod_eq_of_lt (Nat.pow_lt_pow_right (by decide) h)

/-- The mask built by the first loop of `getReleasedBuffers`: after `n ≤ 64`
iterations bit `i` is set exactly for the slots `i < n` whose `mAcquireCalled` is
false. -/
theorem testBit_releasedMask (l : List BufferSlot) (n : Nat) (hn : n ≤ 64) (i : Nat) :
    (releasedMask l n).testBit i = (decide (i < n) && !(slotAt l i).mAcquireCalled) := by
  induction n with
  | zero => simp [releasedMask]
  | succ n ih =>
    have ih2 := ih (by omega)
    simp only [releasedMask]
    by_cases hi : i = n
    · subst hi
      by_cases hflag : (slotAt l i).mAcquireCalled = true
      · simp [hflag, ih2]
      · simp only [Bool.not_eq_true] at hflag
        have hc : (!(slotAt l i).mAcquireCalled) = true := by rw [hflag]; rfl
        rw [if_pos hc, Nat.testBit_or, one_shiftLeft_mod i (by omega), Nat.testBit_two_pow,
          hflag]
        simp
    · have hne : ¬ n = i := fun h => hi h.symm
      have hlt : decide (i < n + 1) = decide (i < n) := by
        by_cases h : i < n
        · simp [h, Nat.lt_succ_of_lt h]
        · have h2 : ¬ i < n + 1 := by omega
          simp [h, h2]
      rw [hlt]
      split
      · rw [Nat.testBit_or, one_shiftLeft_mod n (by omega), Nat.testBit_two_pow, ih2]
        simp [hne]
      · exact ih2

theorem releasedMask_lt (l : List BufferSlot) (n : Nat) (hn : n ≤ 64) :
    releasedMask l n < 2 ^ 64 := by
  induction n with
  | zero => simp [releasedMask]
  | succ n ih =>
    simp only [releasedMask]
    split
    · exact Nat.or_lt_two_pow (ih (by omega)) (Nat.mod_lt _ (by decide))
    · exact ih (by omega)

theorem clearQueued_le (mask : Nat) (q : List BufferItem) : clearQueued mask q ≤ mask := by
  induction q generalizing mask with
  | nil => exact le_refl _
  | cons current rest ih =>
    simp only [clearQueued]
    split
    · exact le_trans (ih _) Nat.and_le_left
    · exact ih _

theorem testBit_clearMask (n i : Nat) (hn : n < 64) (hi : i < 64) :
    (2 ^ 64 - 1 - (1 <<< n) % 2 ^ 64).testBit i = decide (n ≠ i) := by
  rw [one_shiftLeft_mod n hn]
  have h1 : 2 ^ 64 - 1 - 2 ^ n = 2 ^ 64 - (2 ^ n + 1) := by omega
  rw [h1, Nat.testBit_two_pow_sub_succ (Nat.pow_lt_pow_right (by decide) hn),
    Nat.testBit_two_pow]
  simp [hi]

/-- The second loop of `getReleasedBuffers`, for queued entries that name slots of
the table: bit `i` survives exactly when no queued entry with `mAcquireCalled`
true names slot `i`. -/
theorem testBit_clearQueued (mask : Nat) (q : List BufferItem) (i : Nat) (hi : i < 64)
    (hq : ∀ e ∈ q, 0 ≤ e.mSlot ∧ e.mSlot < NUM_BUFFER_SLOTS) :
    (clearQueued mask q).testBit i = true ↔
      mask.testBit i = true ∧ ∀ e ∈ q, e.mSlot = (i : Int) → e.mAcquireCalled = false := by
  induction q generalizing mask with
  | nil => simp [clearQueued]
  | cons current rest ih =>
    have hrest : ∀ e ∈ rest, 0 ≤ e.mSlot ∧ e.mSlot < NUM_BUFFER_SLOTS :=
      fun e he => hq e (List.mem_cons_of_mem _ he)
    have hcur := hq current (List.mem_cons_self _ _)
    unfold NUM_BUFFER_SLOTS at hcur
    simp only [clearQueued, List.mem_cons, forall_eq_or_imp]
    by_cases hflag : current.mAcquireCalled = true
    · rw [if_pos hflag, ih _ hrest, Nat.testBit_and,
        testBit_clearMask current.mSlot.toNat i (by omega) hi]
      by_cases hs : current.mSlot = (i : Int)
      · have hn : current.mSlot.toNat = i := by omega
        simp [hn, hs, hflag]
      · have hn : current.mSlot.toNat ≠ i := by omega
        simp [hn, hs]
    · rw [if_neg hflag, ih _ hrest]
      simp only [Bool.not_eq_true] at hflag
      simp [hflag]

/-- C29 (as amended): on an abandoned queue `getReleasedBuffers` returns NO_INIT
and changes nothing; on a non-abandoned queue whose entries name slots of the
table it succeeds without changing the core and writes a 64-bit mask in which,
for every slot index `s` in 0..63, bit `s` is set if and only if the
`mAcquireCalled` flag of slot `s` is false at the time of the call and no Pending
Queue entry for slot `s` has `mAcquireCalled` true. -/
theorem getReleasedBuffers_mask (mCore : BufferQueueCore) (old : Nat) :
    (mCore.mIsAbandoned = true →
      getReleasedBuffers mCore (some old) =
        { status := status_t.NO_INIT, core := mCore, outSlotMask := some old }) ∧
    (mCore.mIsAbandoned = false →
      (∀ e ∈ mCore.mQueue, 0 ≤ e.mSlot ∧ e.mSlot < NUM_BUFFER_SLOTS) →
      ∃ mask,
        getReleasedBuffers mCore (some old) =
          { status := status_t.NO_ERROR, core := mCore, outSlotMask := some mask } ∧
        mask < 2 ^ 64 ∧
        ∀ s : Nat, s < 64 →
          (mask.testBit s = true ↔
            (slotAt mCore.mSlots s).mAcquireCalled = false ∧
              ∀ e ∈ mCore.mQueue, e.mSlot = (s : Int) → e.mAcquireCalled = false)) := by
  constructor
  · intro ha
    unfold getReleasedBuffers
    dsimp only
    rw [if_pos ha]
  · intro hna hq
    have ha : ¬ (mCore.mIsAbandoned = true) := by rw [hna]; decide
    refine ⟨clearQueued (releasedMask mCore.mSlots NUM_BUFFER_SLOTS) mCore.mQueue, ?_, ?_, ?_⟩
    · unfold getReleasedBuffers
      dsimp only
      rw [if_neg ha]
    · exact lt_of_le_of_lt (clearQueued_le _ _)
        (releasedMask_lt mCore.mSlots NUM_BUFFER_SLOTS (by decide))
    · intro s hs
      rw [testBit_clearQueued _ _ s hs hq,
        testBit_releasedMask mCore.mSlots NUM_BUFFER_SLOTS (by decide) s]
      have hlt : s < NUM_BUFFER_SLOTS := hs
      simp [hlt]

set_option maxRecDepth 100000 in
/-- C29 (as amended) at `queuedCore`, where no `mAcquireCalled` flag is set: all 64
bits are set. -/
theorem getReleasedBuffers_mask_witness :
    (getReleasedBuffers queuedCore (some 0)).outSlotMask = some 18446744073709551615 ∧
      ∃ mask,
        getReleasedBuffers queuedCore (some 0) =
          { status := status_t.NO_ERROR, core := queuedCore, outSlotMask := some mask } ∧
        mask < 2 ^ 64 ∧
        ∀ s : Nat, s < 64 →
          (mask.testBit s = true ↔
            (slotAt queuedCore.mSlots s).mAcquireCalled = false ∧
              ∀ e ∈ queuedCore.mQueue, e.mSlot = (s : Int) → e.mAcquireCalled = false) :=
  ⟨by decide, (getReleasedBuffers_mask queuedCore 0).2 (by decide) (by decide)⟩

set_option maxRecDepth 100000 in
/-- C29 (counterexample): slot 0 has `mAcquireCalled` set to true by
`acquireBuffer`; after a release and an `attachBuffer` that reuses slot 0 the flag
is false again, nothing is queued, and `getReleasedBuffers` returns a mask with
bit 0 set. -/
theorem getReleasedBuffers_bit_set_after_acquire :
    reuseCore.mIsAbandoned = false ∧
      (slotAt (runOps reuseCore [ConsumerOp.acquire 0]).mSlots 0).mAcquireCalled = true ∧
      (runOps reuseCore reuseRun).mQueue = [] ∧
      (slotAt (runOps reuseCore reuseRun).mSlots 0).mAcquireCalled = false ∧
      (getReleasedBuffers (runOps reuseCore reuseRun) (some 0)).status =
        status_t.NO_ERROR ∧
      (getReleasedBuffers (runOps reuseCore reuseRun) (some 0)).outSlotMask =
        some 18446744073709551615 ∧
      Nat.testBit 18446744073709551615 0 = true := by
  decide

/-! ## C34, C36: what acquireBuffer leaves of the queue -/

/-- Either the drop loop erases nothing and writes nothing, or the head it leaves is
due: its desired present time is at most `expectedPresent`. -/
theorem dropLoop_unchanged_or_due (E : Int) (l : List BufferSlot) (q : List BufferItem) :
    dropLoop E l q = (l, q) ∨
      ∃ front rest, (dropLoop E l q).2 = front :: rest ∧ front.mTimestamp ≤ E := by
  induction q generalizing l with
  | nil => left; simp [dropLoop]
  | cons front t ih =>
    cases t with
    | nil => left; simp [dropLoop]
    | cons second rest =>
      simp only [dropLoop]
      split
      · left; rfl
      · split
        · left; rfl
        · rename_i hnd
          right
          have hdue : second.mTimestamp ≤ E := by
            unfold noDrop at hnd
            simp only [Bool.or_eq_true, decide_eq_true_eq, not_or, not_lt] at hnd
            omega
          rcases ih (dropFront l front) with h | ⟨f, r, hf, hfd⟩
          · rw [h]
            exact ⟨second, rest, rfl, hdue⟩
          · exact ⟨f, r, hf, hfd⟩

theorem presentLater_false_of_due (E t : Int) (h : t ≤ E) : presentLater E t = false := by
  unfold presentLater
  have : ¬ (t > E) := by omega
  simp [this]

/-- A call of `acquireBuffer` that does not succeed changes nothing and writes no
item. -/
theorem acquireBuffer_failure_unchanged (c : BufferQueueCore) (E : Int)
    (hs : (acquireBuffer c E).status ≠ status_t.NO_ERROR) :
    (acquireBuffer c E).core = c ∧ (acquireBuffer c E).outBuffer = none := by
  by_cases hpass : (acquiredCount c : Int) < c.mMaxAcquiredBufferCount + 1 ∧ c.mQueue ≠ []
  swap
  · have hb : ¬ ((acquiredCount c : Int) < c.mMaxAcquiredBufferCount + 1) ∨ c.mQueue = [] := by
      by_cases h1 : (acquiredCount c : Int) < c.mMaxAcquiredBufferCount + 1
      · right
        by_contra h2
        exact hpass ⟨h1, h2⟩
      · left; exact h1
    exact ⟨(acquireBuffer_core_of_blocked c E hb).1, acquireBuffer_outBuffer_of_blocked c E hb⟩
  obtain ⟨hn, hq⟩ := hpass
  by_cases hE : E = 0
  · subst hE
    match hc : c.mQueue with
    | [] => exact absurd hc hq
    | front :: rest =>
      rw [acquireBuffer_zero c hn front rest hc] at hs
      exact absurd rfl hs
  · have hne := dropLoop_ne_nil E c.mSlots c.mQueue hq
    have hdue := dropLoop_unchanged_or_due E c.mSlots c.mQueue
    generalize hd : dropLoop E c.mSlots c.mQueue = r at hne hdue
    obtain ⟨k, q⟩ := r
    cases q with
    | nil => exact absurd rfl hne
    | cons front rest =>
      rw [acquireBuffer_of_dropLoop c E hE hn k front rest hd] at hs ⊢
      by_cases hp : presentLater E front.mTimestamp = true
      · rw [if_pos hp]
        rcases hdue with h | ⟨f, r, hf, hfd⟩
        · have hk : k = c.mSlots := (Prod.mk.inj h).1
          have hqq : front :: rest = c.mQueue := (Prod.mk.inj h).2
          rw [hk, hqq]
          exact ⟨rfl, rfl⟩
        · dsimp only at hf
          have hff : front = f := (List.cons.inj hf).1
          rw [hff, presentLater_false_of_due E f.mTimestamp hfd] at hp
          exact absurd hp (by decide)
      · rw [if_neg hp] at hs
        exact absurd rfl hs

/-- C34: failure atomicity of `acquireBuffer`.  Whenever the call evicts at least
one entry it succeeds (the head left by the drop loop has a desired present time
of at most `expectedPresent`, so it is not deferred); and every call that does
not succeed (INVALID_OPERATION, NO_BUFFER_AVAILABLE, PRESENT_LATER) leaves the
core, slot table and Pending Queue included, exactly as it was and writes no
item. -/
theorem acquireBuffer_failure_atomic (mCore : BufferQueueCore) (expectedPresent : Int) :
    (∀ dropped, dropped ≠ [] →
        mCore.mQueue = dropped ++ (acquireBuffer mCore expectedPresent).core.mQueue →
        (acquireBuffer mCore expectedPresent).status = status_t.NO_ERROR) ∧
      ((acquireBuffer mCore expectedPresent).status ≠ status_t.NO_ERROR →
        (acquireBuffer mCore expectedPresent).core = mCore ∧
          (acquireBuffer mCore expectedPresent).outBuffer = none) := by
  refine ⟨fun dropped hne hq => ?_, acquireBuffer_failure_unchanged mCore expectedPresent⟩
  by_contra hs
  have hcore := (acquireBuffer_failure_unchanged mCore expectedPresent hs).1
  rw [hcore] at hq
  have hlen := congrArg List.length hq
  rw [List.length_append] at hlen
  have hpos : 0 < dropped.length := List.length_pos.2 hne
  omega

set_option maxRecDepth 100000 in
/-- C34 at `queuedCore`: with expected present time 90 the head is deferred and
nothing changes; with 150 the head is evicted and the call succeeds. -/
theorem acquireBuffer_failure_atomic_witness :
    (acquireBuffer queuedCore 90).status = status_t.PRESENT_LATER ∧
      (acquireBuffer queuedCore 90).core = queuedCore ∧
      (acquireBuffer queuedCore 150).core.mQueue = [queuedEntry 2] ∧
      (acquireBuffer queuedCore 150).status = status_t.NO_ERROR :=
  ⟨by decide,
   ((acquireBuffer_failure_atomic queuedCore 90).2 (by decide)).1,
   by decide,
   (acquireBuffer_failure_atomic queuedCore 150).1 [queuedEntry 0, queuedEntry 1]
     (by decide) (by decide)⟩

/-- C36: `acquireBuffer` never reorders or inserts queue entries.  After every call
(successful or not, any `expectedPresent`) the Pending Queue is a suffix of the
queue before the call, and on success the item handed back is the entry of the
old queue immediately before that suffix. -/
theorem acquireBuffer_queue_suffix (mCore : BufferQueueCore) (expectedPresent : Int) :
    (∃ before, mCore.mQueue = before ++ (acquireBuffer mCore expectedPresent).core.mQueue) ∧
      ((acquireBuffer mCore expectedPresent).status = status_t.NO_ERROR →
        ∃ dropped front,
          mCore.mQueue =
            dropped ++ front :: (acquireBuffer mCore expectedPresent).core.mQueue ∧
          (acquireBuffer mCore expectedPresent).outBuffer = some (acquiredItem front)) := by
  by_cases hs : (acquireBuffer mCore expectedPresent).status = status_t.NO_ERROR
  · obtain ⟨dropped, front, rest, k, hq, _, heq⟩ :=
      acquireBuffer_success_cases mCore expectedPresent hs
    rw [heq]
    refine ⟨⟨dropped ++ [front], ?_⟩, fun _ => ⟨dropped, front, hq, rfl⟩⟩
    rw [hq]
    simp [acquireFront]
  · have hcore := (acquireBuffer_failure_unchanged mCore expectedPresent hs).1
    refine ⟨⟨[], ?_⟩, fun h => absurd h hs⟩
    rw [hcore]
    rfl

set_option maxRecDepth 100000 in
/-- C36 at `queuedCore` and expected present time 150: the first entry is dropped,
the second handed back, the third stays. -/
theorem acquireBuffer_queue_suffix_witness :
    queuedCore.mQueue = [queuedEntry 0] ++ queuedEntry 1 ::
        (acquireBuffer queuedCore 150).core.mQueue ∧
      ∃ dropped front,
        queuedCore.mQueue = dropped ++ front :: (acquireBuffer queuedCore 150).core.mQueue ∧
        (acquireBuffer queuedCore 150).outBuffer = some (acquiredItem front) :=
  ⟨by decide, (acquireBuffer_queue_suffix queuedCore 150).2 (by decide)⟩

/-! ## C38: the drop loop terminates and leaves a head -/

theorem dropStep_length (E : Int) (l k : List BufferSlot) (q r : List BufferItem)
    (h : dropStep E l q = some (k, r)) : r.length + 1 = q.length := by
  match q with
  | [] => simp [dropStep] at h
  | [a] => simp [dropStep] at h
  | front :: second :: rest =>
    simp only [dropStep] at h
    split at h
    · exact absurd h (by simp)
    · split at h
      · exact absurd h (by simp)
      · have hr : second :: rest = r := (Prod.mk.inj (Option.some.inj h)).2
        rw [← hr]
        rfl

theorem dropStep_dropLoop (E : Int) (l : List BufferSlot) (q : List BufferItem) :
    dropStep E (dropLoop E l q).1 (dropLoop E l q).2 = none := by
  induction q generalizing l with
  | nil => simp [dropLoop, dropStep]
  | cons front t ih =>
    cases t with
    | nil => simp [dropLoop, dropStep]
    | cons second rest =>
      simp only [dropLoop]
      split
      · rename_i h
        simp [dropStep, h]
      · split
        · rename_i h1 h2
          simp [dropStep, h1, h2]
        · exact ih (dropFront l front)

theorem dropLoopFuel_eq (E : Int) (fuel : Nat) (l : List BufferSlot) (q : List BufferItem)
    (hf : q.length - 1 ≤ fuel) :
    ∃ n, n + (dropLoop E l q).2.length = q.length ∧
      dropLoopFuel E fuel l q = some ((dropLoop E l q).1, (dropLoop E l q).2, n) := by
  induction fuel generalizing l q with
  | zero =>
    have hnone : dropStep E l q = none := by
      match q with
      | [] => rfl
      | [a] => rfl
      | a :: b :: r => simp at hf
    refine ⟨0, ?_, ?_⟩
    · rw [dropLoop_eq_dropStep, hnone]
      simp
    · rw [dropLoop_eq_dropStep]
      simp only [dropLoopFuel, hnone]
  | succ fuel ih =>
    cases hstep : dropStep E l q with
    | none =>
      refine ⟨0, ?_, ?_⟩
      · rw [dropLoop_eq_dropStep, hstep]
        simp
      · rw [dropLoop_eq_dropStep]
        simp only [dropLoopFuel, hstep]
    | some kr =>
      obtain ⟨k, r⟩ := kr
      have hlen := dropStep_length E l k q r hstep
      obtain ⟨n, hn, heq⟩ := ih k r (by omega)
      refine ⟨n + 1, ?_, ?_⟩
      · rw [dropLoop_eq_dropStep, hstep]
        dsimp only
        omega
      · rw [dropLoop_eq_dropStep]
        simp only [dropLoopFuel, hstep, heq]

/-- C38: the drop loop of `acquireBuffer` terminates after at most (queue length
minus one) iterations.  Run with any bound `fuel` of at least that many
iterations it stops by itself, after `n ≤ length - 1` iterations, in the state
`dropLoop` computes, where the loop condition or the `break` test ends it; every
iteration that does not stop removes exactly one entry, so exactly `n` entries
are gone; and a non-empty queue is never emptied, so the head read after the
loop exists. -/
theorem dropLoop_terminates (expectedPresent : Int) (fuel : Nat) (mSlots : List BufferSlot)
    (mQueue : List BufferItem) (hfuel : mQueue.length - 1 ≤ fuel) :
    (∃ n, n ≤ mQueue.length - 1 ∧
        n + (dropLoop expectedPresent mSlots mQueue).2.length = mQueue.length ∧
        dropLoopFuel expectedPresent fuel mSlots mQueue =
          some ((dropLoop expectedPresent mSlots mQueue).1,
            (dropLoop expectedPresent mSlots mQueue).2, n)) ∧
      dropStep expectedPresent (dropLoop expectedPresent mSlots mQueue).1
        (dropLoop expectedPresent mSlots mQueue).2 = none ∧
      (∀ k r, dropStep expectedPresent mSlots mQueue = some (k, r) →
        r.length + 1 = mQueue.length) ∧
      (mQueue ≠ [] →
        ∃ front rest, (dropLoop expectedPresent mSlots mQueue).2 = front :: rest) := by
  refine ⟨?_, dropStep_dropLoop expectedPresent mSlots mQueue,
    fun k r h => dropStep_length expectedPresent mSlots k mQueue r h, fun hq => ?_⟩
  · obtain ⟨n, hn, heq⟩ := dropLoopFuel_eq expectedPresent fuel mSlots mQueue hfuel
    refine ⟨n, ?_, hn, heq⟩
    by_cases hq : mQueue = []
    · subst hq
      simp at hn
      omega
    · have hne := dropLoop_ne_nil expectedPresent mSlots mQueue hq
      have hpos : 0 < (dropLoop expectedPresent mSlots mQueue).2.length :=
        List.length_pos.2 hne
      omega
  · have hne := dropLoop_ne_nil expectedPresent mSlots mQueue hq
    cases hd : (dropLoop expectedPresent mSlots mQueue).2 with
    | nil => exact absurd hd hne
    | cons front rest => exact ⟨front, rest, rfl⟩

set_option maxRecDepth 100000 in
/-- C38 at `queuedCore` and expected present time 150: with a bound of two
iterations the loop stops after one, leaving two of the three entries. -/
theorem dropLoop_terminates_witness :
    queuedCore.mQueue.length - 1 ≤ 2 ∧
      dropLoopFuel 150 2 queuedCore.mSlots queuedCore.mQueue =
        some ((dropLoop 150 queuedCore.mSlots queuedCore.mQueue).1,
          [queuedEntry 1, queuedEntry 2], 1) ∧
      ∃ front rest, (dropLoop 150 queuedCore.mSlots queuedCore.mQueue).2 = front :: rest :=
  ⟨by decide, by decide,
   (dropLoop_terminates 150 2 queuedCore.mSlots queuedCore.mQueue (by decide)).2.2.2
     (by decide)⟩

/-! ## C35: closed form of the drop loop -/

/-- C39: `MAX_REASONABLE_NSEC` is 1000000000 and fits a signed 32-bit `int`; and
for every `expectedPresent` with `0 < expectedPresent ≤ 2^63 - 1 - 10^9` and every
timestamp (signed 64-bit or any other integer), `expectedPresent - 10^9` and `expectedPresent + 10^9` are
representable in 64 bits, so the drop test and the defer test, computed modulo
`2^64`, agree with the same comparisons over the integers. -/
theorem max_reasonable_nsec_no_overflow (expectedPresent desiredPresent : Int)
    (hpos : 0 < expectedPresent) (hmax : expectedPresent ≤ 2 ^ 63 - 1 - 10 ^ 9) :
    MAX_REASONABLE_NSEC = 1000000000 ∧
      -(2 ^ 31) ≤ MAX_REASONABLE_NSEC ∧ MAX_REASONABLE_NSEC ≤ 2 ^ 31 - 1 ∧
      isInt64 (expectedPresent - MAX_REASONABLE_NSEC) ∧
      isInt64 (expectedPresent + MAX_REASONABLE_NSEC) ∧
      wrapInt64 (expectedPresent - MAX_REASONABLE_NSEC) = expectedPresent - 10 ^ 9 ∧
      wrapInt64 (expectedPresent + MAX_REASONABLE_NSEC) = expectedPresent + 10 ^ 9 ∧
      noDrop expectedPresent desiredPresent =
        decide (desiredPresent < expectedPresent - 10 ^ 9 ∨
          desiredPresent > expectedPresent) ∧
      presentLater expectedPresent desiredPresent =
        decide (desiredPresent > expectedPresent ∧
          desiredPresent < expectedPresent + 10 ^ 9) := by
  have h1 : isInt64 (expectedPresent - MAX_REASONABLE_NSEC) := by
    unfold isInt64 INT64_MIN INT64_MAX MAX_REASONABLE_NSEC
    constructor <;> omega
  have h2 : isInt64 (expectedPresent + MAX_REASONABLE_NSEC) := by
    unfold isInt64 INT64_MIN INT64_MAX MAX_REASONABLE_NSEC
    constructor <;> omega
  have hm : MAX_REASONABLE_NSEC = 10 ^ 9 := by
    unfold MAX_REASONABLE_NSEC
    norm_num
  refine ⟨rfl, by unfold MAX_REASONABLE_NSEC; norm_num, by unfold MAX_REASONABLE_NSEC; norm_num,
    h1, h2, ?_, ?_, ?_, ?_⟩
  · rw [wrapInt64_of_isInt64 _ h1, hm]
  · rw [wrapInt64_of_isInt64 _ h2, hm]
  · unfold noDrop
    rw [wrapInt64_of_isInt64 _ h1, hm]
    simp
  · unfold presentLater
    rw [wrapInt64_of_isInt64 _ h2, hm]
    simp

/-- C39 at the largest admitted `expectedPresent` and the largest timestamp. -/
theorem max_reasonable_nsec_no_overflow_witness :
    isInt64 (9223372035854775807 + MAX_REASONABLE_NSEC) ∧
      presentLater 9223372035854775807 9223372036854775807 =
        decide ((9223372036854775807 : Int) > 9223372035854775807 ∧
          (9223372036854775807 : Int) < 9223372035854775807 + 10 ^ 9) :=
  ⟨(max_reasonable_nsec_no_overflow 9223372035854775807 9223372036854775807 (by decide)
      (by decide)).2.2.2.2.1,
   (max_reasonable_nsec_no_overflow 9223372035854775807 9223372036854775807 (by decide)
      (by decide)).2.2.2.2.2.2.2.2⟩

/-! ## C37: one buffer of headroom -/

theorem noTrackedAcquired_mem (c : BufferQueueCore) (h : noTrackedAcquired c = true)
    (item : BufferItem) (hm : item ∈ c.mQueue) (ht : stillTracking c.mSlots item = true) :
    (slotAt c.mSlots item.mSlot).mBufferState ≠ BufferState.ACQUIRED := by
  unfold noTrackedAcquired at h
  rw [List.all_eq_true] at h
  have hi := h item hm
  simp only [ht, Bool.not_true, Bool.false_or, decide_eq_true_eq] at hi
  exact hi

theorem dropFront_length (l : List BufferSlot) (front : BufferItem) :
    (dropFront l front).length = l.length := by
  unfold dropFront
  split
  · exact updateSlot_length _ _ _
  · rfl

theorem dropLoop_length (E : Int) (l : List BufferSlot) (q : List BufferItem) :
    (dropLoop E l q).1.length = l.length := by
  induction q generalizing l with
  | nil => simp [dropLoop]
  | cons front t ih =>
    cases t with
    | nil => simp [dropLoop]
    | cons second rest =>
      simp only [dropLoop]
      split
      · rfl
      · split
        · rfl
        · rw [ih, dropFront_length]

theorem numAcquiredBuffers_congr (l k : List BufferSlot)
    (h : ∀ s : Int, (slotAt k s).mBufferState = BufferState.ACQUIRED ↔
      (slotAt l s).mBufferState = BufferState.ACQUIRED) (n : Nat) :
    numAcquiredBuffers k n = numAcquiredBuffers l n := by
  induction n with
  | zero => rfl
  | succ n ih =>
    simp only [numAcquiredBuffers]
    by_cases hk : (slotAt k (n : Int)).mBufferState = BufferState.ACQUIRED
    · rw [if_pos hk, if_pos ((h n).1 hk), ih]
    · rw [if_neg hk, if_neg (fun hl => hk ((h n).2 hl)), ih]

/-- A successful `acquireBuffer` takes an entry of the queue with the slot table
the drop loop left (the table of the core when `expectedPresent` is zero). -/
theorem acquireBuffer_success_slots (c : BufferQueueCore) (E : Int)
    (hs : (acquireBuffer c E).status = status_t.NO_ERROR) :
    (acquiredCount c : Int) < c.mMaxAcquiredBufferCount + 1 ∧
      ∃ dropped front rest k, c.mQueue = dropped ++ front :: rest ∧
        (k = c.mSlots ∨ k = (dropLoop E c.mSlots c.mQueue).1) ∧
        acquireBuffer c E = acquireFront c k front rest := by
  by_cases hn : (acquiredCount c : Int) < c.mMaxAcquiredBufferCount + 1
  swap
  · exact absurd hs (acquireBuffer_core_of_blocked c E (Or.inl hn)).2
  by_cases hq : c.mQueue = []
  · exact absurd hs (acquireBuffer_core_of_blocked c E (Or.inr hq)).2
  refine ⟨hn, ?_⟩
  by_cases hE : E = 0
  · subst hE
    match hc : c.mQueue with
    | [] => exact absurd hc hq
    | front :: rest =>
      exact ⟨[], front, rest, c.mSlots, rfl, Or.inl rfl, acquireBuffer_zero c hn front rest hc⟩
  · have hne := dropLoop_ne_nil E c.mSlots c.mQueue hq
    obtain ⟨dropped, hsuf⟩ := dropLoop_suffix E c.mSlots c.mQueue
    generalize hd : dropLoop E c.mSlots c.mQueue = r at hne hsuf
    obtain ⟨k, q⟩ := r
    cases q with
    | nil => exact absurd rfl hne
    | cons front rest =>
      rw [acquireBuffer_of_dropLoop c E hE hn k front rest hd] at hs ⊢
      by_cases hp : presentLater E front.mTimestamp = true
      · rw [if_pos hp] at hs
        simp at hs
      · rw [if_neg hp]
        exact ⟨dropped, front, rest, k, hsuf, Or.inr rfl, rfl⟩

theorem dropLoop_acquired_iff (c : BufferQueueCore) (E : Int)
    (hc : noTrackedAcquired c = true)
    (k : List BufferSlot) (hk : k = c.mSlots ∨ k = (dropLoop E c.mSlots c.mQueue).1)
    (s : Int) :
    (slotAt k s).mBufferState = BufferState.ACQUIRED ↔
      (slotAt c.mSlots s).mBufferState = BufferState.ACQUIRED := by
  rcases hk with hk | hk
  · rw [hk]
  · rw [hk]
    rcases slotAt_dropLoop_state E c.mSlots c.mQueue s with h | ⟨hfree, d, hd, hds, hdt⟩
    · rw [h]
    · have hqd := noTrackedAcquired_mem c hc d hd hdt
      rw [hds] at hqd
      rw [hfree]
      constructor
      · intro h
        exact absurd h (by decide)
      · intro h
        exact absurd h hqd

theorem stillTracking_of_slots (c : BufferQueueCore) (E : Int) (k : List BufferSlot)
    (hk : k = c.mSlots ∨ k = (dropLoop E c.mSlots c.mQueue).1) (item : BufferItem) :
    stillTracking k item = stillTracking c.mSlots item := by
  rcases hk with hk | hk
  · rw [hk]
  · rw [hk, stillTracking_dropLoop]

/-- C37 fails when the acquired entry names a slot that is already ACQUIRED: on
`heldQueuedCore` (bound 2; slots 0 and 2 ACQUIRED, the queued entry names slot 2
and is still tracked) `acquireBuffer` succeeds, hands back that entry, and two
slots are ACQUIRED before and after the call, not one more. -/
theorem acquireBuffer_of_acquired_slot_keeps_count :
    (acquireBuffer heldQueuedCore 0).status = status_t.NO_ERROR ∧
      heldQueuedCore.mQueue.map (fun item => item.mSlot) = [2] ∧
      heldQueuedCore.mQueue.all (fun item => stillTracking heldQueuedCore.mSlots item) = true ∧
      (acquireBuffer heldQueuedCore 0).outBuffer =
        heldQueuedCore.mQueue.head?.map acquiredItem ∧
      (slotAt heldQueuedCore.mSlots 2).mBufferState = BufferState.ACQUIRED ∧
      acquiredCount heldQueuedCore = 2 ∧
      heldQueuedCore.mMaxAcquiredBufferCount = 2 ∧
      acquiredCount (acquireBuffer heldQueuedCore 0).core = 2 := by
  decide

/-- C37: one buffer of headroom.  If `acquireBuffer` or `attachBuffer` succeeds,
at most `mMaxAcquiredBufferCount` slots were ACQUIRED before the call and at most
`mMaxAcquiredBufferCount + 1` are afterwards.  On a table of `NUM_BUFFER_SLOTS`
slots exactly one more slot is ACQUIRED after a successful `attachBuffer`, and
after a successful `acquireBuffer` whose entry's slot is still tracked when no
still-tracked entry of the Pending Queue names a slot that is already
ACQUIRED. -/
theorem acquire_attach_headroom (mCore : BufferQueueCore) (expectedPresent : Int)
    (outSlot : Option Int) (buffer : Option Nat) :
    ((acquireBuffer mCore expectedPresent).status = status_t.NO_ERROR →
        (acquiredCount mCore : Int) ≤ mCore.mMaxAcquiredBufferCount ∧
        (acquiredCount (acquireBuffer mCore expectedPresent).core : Int) ≤
          mCore.mMaxAcquiredBufferCount + 1 ∧
        ∃ dropped front,
          mCore.mQueue =
            dropped ++ front :: (acquireBuffer mCore expectedPresent).core.mQueue ∧
          (acquireBuffer mCore expectedPresent).outBuffer = some (acquiredItem front) ∧
          (stillTracking mCore.mSlots front = true → noTrackedAcquired mCore = true →
            mCore.mSlots.length = NUM_BUFFER_SLOTS →
            acquiredCount (acquireBuffer mCore expectedPresent).core =
              acquiredCount mCore + 1)) ∧
      ((attachBuffer mCore outSlot buffer).status = status_t.NO_ERROR →
        (acquiredCount mCore : Int) ≤ mCore.mMaxAcquiredBufferCount ∧
        (acquiredCount (attachBuffer mCore outSlot buffer).core : Int) ≤
          mCore.mMaxAcquiredBufferCount + 1 ∧
        (mCore.mSlots.length = NUM_BUFFER_SLOTS →
          acquiredCount (attachBuffer mCore outSlot buffer).core =
            acquiredCount mCore + 1)) := by
  constructor
  · intro hs
    obtain ⟨hn, dropped, front, rest, k, hq, hk, heq⟩ :=
      acquireBuffer_success_slots mCore expectedPresent hs
    have hkle : numAcquiredBuffers k NUM_BUFFER_SLOTS ≤ acquiredCount mCore := by
      rcases hk with hk | hk
      · rw [hk]
        exact le_refl _
      · rw [hk]
        exact numAcquiredBuffers_dropLoop_le expectedPresent mCore.mSlots mCore.mQueue _
    have hle := acquireFront_acquiredCount_le mCore k front rest
    rw [heq]
    refine ⟨by omega, by omega, dropped, front, hq, rfl, fun ht hc hlen => ?_⟩
    have hmem : front ∈ mCore.mQueue := by
      rw [hq]
      simp
    have htk : stillTracking k front = true := by
      rw [stillTracking_of_slots mCore expectedPresent k hk]
      exact ht
    have hbuf : (slotAt k front.mSlot).mGraphicBuffer ≠ none := by
      unfold stillTracking at htk
      simp only [Bool.and_eq_true, bne_iff_ne] at htk
      exact htk.1
    have hr := slotAt_inRange_of_buffer k front.mSlot hbuf
    have hklen : k.length = NUM_BUFFER_SLOTS := by
      rcases hk with hk | hk
      · rw [hk]
        exact hlen
      · rw [hk, dropLoop_length]
        exact hlen
    have hlt : front.mSlot < (NUM_BUFFER_SLOTS : Int) := by
      have h2 := hr.2
      rw [hklen] at h2
      have h1 := hr.1
      omega
    have hiff := dropLoop_acquired_iff mCore expectedPresent hc k hk
    have hnot : (slotAt k front.mSlot).mBufferState ≠ BufferState.ACQUIRED := fun h =>
      noTrackedAcquired_mem mCore hc front hmem ht ((hiff front.mSlot).1 h)
    have hacq := (acquireFront_tracked_slot mCore k front rest htk).1
    have hcount := numAcquiredBuffers_eq_succ (acquireFront mCore k front rest).core.mSlots k
      front.mSlot
      (fun s hne => by
        rcases acquireFront_slot_state mCore k front rest s with h | ⟨_, h, _⟩
        · exact h.symm
        · exact absurd h.symm hne)
      hacq hnot NUM_BUFFER_SLOTS
    rw [if_pos ⟨hr.1, hlt⟩, numAcquiredBuffers_congr mCore.mSlots k hiff] at hcount
    exact hcount
  · intro hs
    obtain ⟨f, hf, hlt, _, hn, heq⟩ := attachBuffer_success mCore outSlot buffer hs
    have hfree := attachScan_found_free mCore.mSlots NUM_BUFFER_SLOTS f hf
    rw [heq]
    dsimp only
    have hle := numAcquiredBuffers_updateSlot_le_succ mCore.mSlots (f : Int)
      (fun b => attachedSlot b buffer) NUM_BUFFER_SLOTS
    unfold acquiredCount at hn ⊢
    dsimp only
    refine ⟨by omega, by omega, fun hlen => ?_⟩
    exact numAcquiredBuffers_attachedSlot mCore.mSlots f NUM_BUFFER_SLOTS buffer
      (by rw [hlen]; exact hlt) hlt hfree

set_option maxRecDepth 100000 in
/-- C37 at `queuedCore` with the bound raised to 2 (one slot ACQUIRED, three
QUEUED): after an acquire two slots are ACQUIRED, and after an attach as well. -/
theorem acquire_attach_headroom_witness :
    noTrackedAcquired { queuedCore with mMaxAcquiredBufferCount := 2 } = true ∧
      queuedCore.mSlots.length = NUM_BUFFER_SLOTS ∧
      acquiredCount { queuedCore with mMaxAcquiredBufferCount := 2 } = 1 ∧
      (∃ dropped front,
        queuedCore.mQueue = dropped ++ front ::
          (acquireBuffer { queuedCore with mMaxAcquiredBufferCount := 2 } 0).core.mQueue ∧
        (acquireBuffer { queuedCore with mMaxAcquiredBufferCount := 2 } 0).outBuffer =
          some (acquiredItem front) ∧
        (stillTracking queuedCore.mSlots front = true →
          noTrackedAcquired { queuedCore with mMaxAcquiredBufferCount := 2 } = true →
          queuedCore.mSlots.length = NUM_BUFFER_SLOTS →
          acquiredCount (acquireBuffer { queuedCore with mMaxAcquiredBufferCount := 2 } 0).core =
            acquiredCount { queuedCore with mMaxAcquiredBufferCount := 2 } + 1)) ∧
      acquiredCount (acquireBuffer { queuedCore with mMaxAcquiredBufferCount := 2 } 0).core = 2 ∧
      acquiredCount
          (attachBuffer { queuedCore with mMaxAcquiredBufferCount := 2 } (some 0)
            (some 20)).core =
        acquiredCount { queuedCore with mMaxAcquiredBufferCount := 2 } + 1 :=
  ⟨by decide, by decide, by decide,
   ((acquire_attach_headroom { queuedCore with mMaxAcquiredBufferCount := 2 } 0 (some 0)
      (some 20)).1 (by decide)).2.2,
   by decide,
   ((acquire_attach_headroom { queuedCore with mMaxAcquiredBufferCount := 2 } 0 (some 0)
      (some 20)).2 (by decide)).2.2 (by decide)⟩

/-! ## TaskQueue: reads and writes of the memory -/

theorem holderAt_set (l : List TaskHolder) (a b : Nat) (v : TaskHolder) :
    holderAt (l.set a v) b = if b = a ∧ a < l.length then v else holderAt l b := by
  unfold holderAt
  simp only [List.getD_eq_getElem?_getD, List.getElem?_set]
  by_cases h : a = b
  · subst h
    by_cases h2 : a < l.length
    · simp [h2]
    · have h4 : l[a]? = none := List.getElem?_eq_none (by omega)
      simp [h2, h4]
  · have h3 : ¬ b = a := fun e => h e.symm
    simp [h, h3]

theorem setHolderNext_length (l : List TaskHolder) (a : Nat) (n : Option Nat) :
    (setHolderNext l a n).length = l.length := by
  simp [setHolderNext]

theorem holderAt_setHolderNext_mTask (l : List TaskHolder) (a b : Nat) (n : Option Nat) :
    (holderAt (setHolderNext l a n) b).mTask = (holderAt l b).mTask := by
  unfold setHolderNext
  rw [holderAt_set]
  split
  · rename_i h
    rw [h.1]
  · rfl

theorem holderAt_setHolderNext_mRunAt (l : List TaskHolder) (a b : Nat) (n : Option Nat) :
    (holderAt (setHolderNext l a n) b).mRunAt = (holderAt l b).mRunAt := by
  unfold setHolderNext
  rw [holderAt_set]
  split
  · rename_i h
    rw [h.1]
  · rfl

theorem holderAt_setHolderNext_ne (l : List TaskHolder) (a b : Nat) (n : Option Nat)
    (h : b ≠ a) : holderAt (setHolderNext l a n) b = holderAt l b := by
  unfold setHolderNext
  rw [holderAt_set, if_neg (fun hc => h hc.1)]

theorem holderAt_setHolderNext_self (l : List TaskHolder) (a : Nat) (n : Option Nat)
    (h : a < l.length) : (holderAt (setHolderNext l a n) a).mNext = n := by
  unfold setHolderNext
  rw [holderAt_set, if_pos ⟨rfl, h⟩]

theorem holderAt_append_lt (l : List TaskHolder) (v : TaskHolder) (b : Nat)
    (h : b < l.length) : holderAt (l ++ [v]) b = holderAt l b := by
  unfold holderAt
  simp only [List.getD_eq_getElem?_getD]
  rw [List.getElem?_append_left h]

theorem holderAt_append_self (l : List TaskHolder) (v : TaskHolder) :
    holderAt (l ++ [v]) l.length = v := by
  unfold holderAt
  simp [List.getD_eq_getElem?_getD]

theorem setTaskNext_ne (tasks : Nat → RenderTask) (t a : Nat) (n : Option Nat) (h : a ≠ t) :
    setTaskNext tasks t n a = tasks a := by
  unfold setTaskNext
  rw [if_neg h]

theorem setTaskNext_self (tasks : Nat → RenderTask) (t : Nat) (n : Option Nat) :
    (setTaskNext tasks t n t).mNext = n := by
  unfold setTaskNext
  rw [if_pos rfl]

theorem setTaskNext_mRunAt (tasks : Nat → RenderTask) (t a : Nat) (n : Option Nat) :
    (setTaskNext tasks t n a).mRunAt = (tasks a).mRunAt := by
  unfold setTaskNext
  split <;> rfl

theorem isSegment_lt (m : List TaskHolder) (xs : List Nat) (p e : Option Nat)
    (h : isSegment m p xs e) : ∀ a ∈ xs, a < m.length := by
  induction xs generalizing p with
  | nil => intro a ha; simp at ha
  | cons x xs ih =>
    obtain ⟨_, hx, hrest⟩ := h
    intro a ha
    rcases List.mem_cons.1 ha with h1 | h1
    · rw [h1]; exact hx
    · exact ih _ hrest a h1

theorem isSegment_congr (m k : List TaskHolder) (xs : List Nat) (p e : Option Nat)
    (hlen : m.length ≤ k.length)
    (hnext : ∀ a ∈ xs, (holderAt k a).mNext = (holderAt m a).mNext)
    (h : isSegment m p xs e) : isSegment k p xs e := by
  induction xs generalizing p with
  | nil => exact h
  | cons x xs ih =>
    obtain ⟨hp, hx, hrest⟩ := h
    refine ⟨hp, by omega, ?_⟩
    rw [hnext x (List.mem_cons_self x xs)]
    exact ih _ (fun a ha => hnext a (List.mem_cons_of_mem x ha)) hrest

theorem isSegment_append (m : List TaskHolder) (xs ys : List Nat) (p e : Option Nat) :
    isSegment m p (xs ++ ys) e ↔ ∃ r, isSegment m p xs r ∧ isSegment m r ys e := by
  induction xs generalizing p with
  | nil =>
    constructor
    · intro h
      exact ⟨p, rfl, h⟩
    · rintro ⟨r, hr, h⟩
      have hpr : p = r := hr
      rw [hpr]
      exact h
  | cons x xs ih =>
    constructor
    · rintro ⟨hp, hx, hrest⟩
      obtain ⟨r, h1, h2⟩ := (ih _).1 hrest
      exact ⟨r, ⟨hp, hx, h1⟩, h2⟩
    · rintro ⟨r, ⟨hp, hx, h1⟩, h2⟩
      exact ⟨hp, hx, (ih _).2 ⟨r, h1, h2⟩⟩

theorem isSegment_head (m : List TaskHolder) (xs : List Nat) (p : Option Nat)
    (h : isSegment m p xs none) : p = xs.head? := by
  cases xs with
  | nil => exact h
  | cons x xs => exact h.1

theorem isSegment_none (m : List TaskHolder) (xs : List Nat)
    (h : isSegment m none xs none) : xs = [] := by
  cases xs with
  | nil => rfl
  | cons x xs => exact absurd h.1 (by simp)

theorem nodup_length_le (xs : List Nat) (n : Nat) (hn : xs.Nodup) (hlt : ∀ a ∈ xs, a < n) :
    xs.length ≤ n := by
  have hsub : xs.toFinset ⊆ Finset.range n := by
    intro a ha
    rw [List.mem_toFinset] at ha
    exact Finset.mem_range.2 (hlt a ha)
  have hcard := Finset.card_le_card hsub
  rw [List.toFinset_card_of_nodup hn, Finset.card_range] at hcard
  exact hcard

theorem chainFrom_eq (m : List TaskHolder) (xs : List Nat) (p : Option Nat) (fuel : Nat)
    (h : isSegment m p xs none) (hf : xs.length ≤ fuel) : chainFrom m fuel p = xs := by
  induction xs generalizing p fuel with
  | nil =>
    have hp : p = none := h
    subst hp
    cases fuel <;> rfl
  | cons x xs ih =>
    obtain ⟨hp, _, hrest⟩ := h
    subst hp
    cases fuel with
    | zero => simp at hf
    | succ fuel =>
      simp only [chainFrom]
      rw [ih _ fuel hrest (by simpa using hf)]

theorem TaskQueue.WellFormed.chain_eq (q : TaskQueue) (xs : List Nat) (h : q.WellFormed xs) :
    q.chain = xs :=
  chainFrom_eq q.holders xs q.mHead q.holders.length h.chain
    (nodup_length_le xs q.holders.length h.nodup (isSegment_lt _ _ _ _ h.chain))

theorem tasksLinked_congr (m k : List TaskHolder) (t u : Nat → RenderTask) (xs : List Nat)
    (e : Option Nat)
    (hm : ∀ a ∈ xs, (holderAt k a).mTask = (holderAt m a).mTask)
    (ht : ∀ a ∈ xs, (u (holderAt m a).mTask).mNext = (t (holderAt m a).mTask).mNext)
    (h : tasksLinked m t xs e) : tasksLinked k u xs e := by
  induction xs with
  | nil => trivial
  | cons x xs ih =>
    obtain ⟨hx, hrest⟩ := h
    refine ⟨?_, ih (fun a ha => hm a (List.mem_cons_of_mem x ha))
      (fun a ha => ht a (List.mem_cons_of_mem x ha)) hrest⟩
    rw [hm x (List.mem_cons_self x xs), ht x (List.mem_cons_self x xs), hx]
    cases xs with
    | nil => rfl
    | cons y ys =>
      simp only [taskAfter]
      rw [hm y (List.mem_cons_of_mem x (List.mem_cons_self y ys))]

theorem tasksLinked_append (m : List TaskHolder) (t : Nat → RenderTask) (xs ys : List Nat)
    (e : Option Nat) :
    tasksLinked m t (xs ++ ys) e ↔
      tasksLinked m t xs (taskAfter m ys e) ∧ tasksLinked m t ys e := by
  induction xs with
  | nil => simp [tasksLinked]
  | cons x xs ih =>
    cases xs with
    | nil =>
      cases ys with
      | nil => simp [tasksLinked, taskAfter]
      | cons y ys => simp [tasksLinked, taskAfter]
    | cons z zs =>
      simp only [List.cons_append, tasksLinked, taskAfter] at ih ⊢
      rw [ih]
      tauto

/-! ## TaskQueue: linking and unlinking a holder -/

theorem getLast?_append_cons_cons (ys : List Nat) (p x : Nat) (zs : List Nat) :
    (ys ++ p :: x :: zs).getLast? = (x :: zs).getLast? := by
  rw [show ys ++ p :: x :: zs = (ys ++ [p]) ++ x :: zs by simp]
  rw [List.getLast?_append_of_ne_nil _ (by simp)]

theorem getLast?_append_singleton (ys : List Nat) (p : Nat) :
    (ys ++ [p]).getLast? = some p := by
  simp

/-- Every task in the queue trips the test of `TaskQueue::queue`: its `mNext` is
set, or it is the task of the tail. -/
theorem alreadyQueued_of_mem (q : TaskQueue) (xs : List Nat) (hwf : q.WellFormed xs)
    (hl : q.Linked xs) (a : Nat) (ha : a ∈ xs) :
    q.alreadyQueued (holderAt q.holders a).mTask = true := by
  obtain ⟨ys, zs, hxs⟩ := List.append_of_mem ha
  have hlink := hl.linked
  rw [hxs, tasksLinked_append] at hlink
  have h1 := hlink.2.1
  unfold TaskQueue.alreadyQueued
  cases zs with
  | nil =>
    have ht := hwf.tail
    rw [hxs, getLast?_append_singleton] at ht
    rw [ht]
    simp
  | cons b zs =>
    simp only [taskAfter] at h1
    rw [h1]
    simp

theorem not_mem_of_not_alreadyQueued (q : TaskQueue) (xs : List Nat) (hwf : q.WellFormed xs)
    (hl : q.Linked xs) (task : Nat) (hpass : q.alreadyQueued task = false) :
    task ∉ xs.map (fun a => (holderAt q.holders a).mTask) := by
  intro hm
  obtain ⟨a, ha, hta⟩ := List.mem_map.1 hm
  have h := alreadyQueued_of_mem q xs hwf hl a ha
  rw [hta, hpass] at h
  exact absurd h (by decide)

theorem wellFormed_insert_front (q k : TaskQueue) (xs : List Nat)
    (hwf : q.WellFormed xs)
    (hlen : k.holders.length = q.holders.length + 1)
    (hold : ∀ a, a < q.holders.length →
      (holderAt k.holders a).mNext = (holderAt q.holders a).mNext)
    (hnew : (holderAt k.holders q.holders.length).mNext = q.mHead)
    (hhead : k.mHead = some q.holders.length)
    (htail : k.mTail = if xs = [] then some q.holders.length else q.mTail) :
    k.WellFormed (q.holders.length :: xs) := by
  have hlt := isSegment_lt _ _ _ _ hwf.chain
  refine ⟨⟨hhead, by omega, ?_⟩, ?_, ?_⟩
  · rw [hnew]
    exact isSegment_congr q.holders k.holders xs q.mHead none (by omega)
      (fun a ha => hold a (hlt a ha)) hwf.chain
  · exact List.nodup_cons.2 ⟨fun hm => absurd (hlt _ hm) (lt_irrefl _), hwf.nodup⟩
  · rw [htail]
    cases xs with
    | nil => simp
    | cons x xs =>
      rw [if_neg (by simp), hwf.tail, List.getLast?_cons_cons]

theorem linked_insert_front (q k : TaskQueue) (xs : List Nat) (task : Nat)
    (hwf : q.WellFormed xs) (hl : q.Linked xs)
    (hnotin : task ∉ xs.map (fun a => (holderAt q.holders a).mTask))
    (hold : ∀ a, a < q.holders.length →
      (holderAt k.holders a).mTask = (holderAt q.holders a).mTask)
    (hnew : (holderAt k.holders q.holders.length).mTask = task)
    (htasks : ∀ t, t ≠ task → k.tasks t = q.tasks t)
    (hlink : (k.tasks task).mNext = taskAfter q.holders xs none) :
    k.Linked (q.holders.length :: xs) := by
  have hlt := isSegment_lt _ _ _ _ hwf.chain
  have hmap : xs.map (fun a => (holderAt k.holders a).mTask) =
      xs.map (fun a => (holderAt q.holders a).mTask) :=
    List.map_congr_left (fun a ha => hold a (hlt a ha))
  constructor
  · rw [List.map_cons, hmap, hnew]
    exact List.nodup_cons.2 ⟨hnotin, hl.tasksNodup⟩
  · refine ⟨?_, ?_⟩
    · rw [hnew, hlink]
      cases xs with
      | nil => rfl
      | cons b bs =>
        simp only [taskAfter]
        rw [hold b (hlt b (List.mem_cons_self b bs))]
    · refine tasksLinked_congr q.holders k.holders q.tasks k.tasks xs none
        (fun a ha => hold a (hlt a ha)) (fun a ha => ?_) hl.linked
      rw [htasks]
      intro hc
      exact hnotin (List.mem_map.2 ⟨a, ha, hc⟩)

theorem wellFormed_insert_after (q k : TaskQueue) (ys zs : List Nat) (p : Nat)
    (hwf : q.WellFormed (ys ++ p :: zs))
    (hlen : k.holders.length = q.holders.length + 1)
    (hold : ∀ a, a < q.holders.length → a ≠ p →
      (holderAt k.holders a).mNext = (holderAt q.holders a).mNext)
    (hp : (holderAt k.holders p).mNext = some q.holders.length)
    (hnew : (holderAt k.holders q.holders.length).mNext = zs.head?)
    (hhead : k.mHead = q.mHead)
    (htail : k.mTail = if zs = [] then some q.holders.length else q.mTail) :
    k.WellFormed (ys ++ p :: q.holders.length :: zs) := by
  have hlt := isSegment_lt _ _ _ _ hwf.chain
  have hnd := hwf.nodup
  obtain ⟨r, hseg1, hseg2⟩ := (isSegment_append _ _ _ _ _).1 hwf.chain
  obtain ⟨hr, hpl, hseg3⟩ := hseg2
  have hpys : p ∉ ys := fun hm => by
    have := List.disjoint_of_nodup_append hnd hm (List.mem_cons_self p zs)
    exact this
  have hpzs : p ∉ zs := by
    have h1 := (List.nodup_append.1 hnd).2.1
    exact (List.nodup_cons.1 h1).1
  refine ⟨?_, ?_, ?_⟩
  · rw [hhead]
    refine (isSegment_append _ _ _ _ _).2 ⟨r, ?_, ?_⟩
    · exact isSegment_congr q.holders k.holders ys q.mHead r (by omega)
        (fun a ha => hold a (hlt a (List.mem_append_left _ ha))
          (fun hc => hpys (hc ▸ ha))) hseg1
    · refine ⟨hr, by omega, ?_⟩
      rw [hp]
      refine ⟨rfl, by omega, ?_⟩
      rw [hnew, ← isSegment_head _ _ _ hseg3]
      exact isSegment_congr q.holders k.holders zs _ none (by omega)
        (fun a ha => hold a
          (hlt a (List.mem_append_right _ (List.mem_cons_of_mem p ha)))
          (fun hc => hpzs (hc ▸ ha))) hseg3
  · have hperm : (ys ++ p :: q.holders.length :: zs).Perm
        (q.holders.length :: (ys ++ p :: zs)) := by
      rw [show ys ++ p :: q.holders.length :: zs = (ys ++ [p]) ++ q.holders.length :: zs by simp,
        show ys ++ p :: zs = (ys ++ [p]) ++ zs by simp]
      exact List.perm_middle
    rw [hperm.nodup_iff]
    exact List.nodup_cons.2 ⟨fun hm => absurd (hlt _ hm) (lt_irrefl _), hnd⟩
  · rw [htail]
    cases zs with
    | nil =>
      rw [if_pos rfl, getLast?_append_cons_cons]
      rfl
    | cons z zs =>
      rw [if_neg (by simp), hwf.tail, getLast?_append_cons_cons,
        show ys ++ p :: q.holders.length :: z :: zs =
          (ys ++ [p]) ++ q.holders.length :: z :: zs by simp,
        getLast?_append_cons_cons]

theorem task_ne_of_nodup_middle (f : Nat → Nat) (ys zs : List Nat) (p : Nat)
    (h : ((ys ++ p :: zs).map f).Nodup) :
    (∀ a ∈ ys, f a ≠ f p) ∧ (∀ a ∈ zs, f a ≠ f p) := by
  rw [List.map_append, List.map_cons, List.nodup_middle, List.nodup_cons] at h
  have hnot := h.1
  constructor
  · intro a ha hc
    exact hnot (List.mem_append_left _ (hc ▸ List.mem_map_of_mem f ha))
  · intro a ha hc
    exact hnot (List.mem_append_right _ (hc ▸ List.mem_map_of_mem f ha))

theorem linked_insert_after (q k : TaskQueue) (ys zs : List Nat) (p task : Nat)
    (hwf : q.WellFormed (ys ++ p :: zs)) (hl : q.Linked (ys ++ p :: zs))
    (hnotin : task ∉ (ys ++ p :: zs).map (fun a => (holderAt q.holders a).mTask))
    (hold : ∀ a, a < q.holders.length →
      (holderAt k.holders a).mTask = (holderAt q.holders a).mTask)
    (hnew : (holderAt k.holders q.holders.length).mTask = task)
    (htasks : ∀ t, t ≠ task → t ≠ (holderAt q.holders p).mTask → k.tasks t = q.tasks t)
    (hp : (k.tasks (holderAt q.holders p).mTask).mNext = some task)
    (hlink : (k.tasks task).mNext = taskAfter q.holders zs none) :
    k.Linked (ys ++ p :: q.holders.length :: zs) := by
  have hlt := isSegment_lt _ _ _ _ hwf.chain
  have hmap : (ys ++ p :: zs).map (fun a => (holderAt k.holders a).mTask) =
      (ys ++ p :: zs).map (fun a => (holderAt q.holders a).mTask) :=
    List.map_congr_left (fun a ha => hold a (hlt a ha))
  obtain ⟨hys, hzs⟩ := task_ne_of_nodup_middle _ ys zs p hl.tasksNodup
  have hperm : (ys ++ p :: q.holders.length :: zs).Perm
      (q.holders.length :: (ys ++ p :: zs)) := by
    rw [show ys ++ p :: q.holders.length :: zs = (ys ++ [p]) ++ q.holders.length :: zs by simp,
      show ys ++ p :: zs = (ys ++ [p]) ++ zs by simp]
    exact List.perm_middle
  have hpold := hold p (hlt p (by simp))
  have hlinks := (tasksLinked_append _ _ _ _ _).1 hl.linked
  constructor
  · rw [(hperm.map _).nodup_iff, List.map_cons, hmap, hnew]
    exact List.nodup_cons.2 ⟨hnotin, hl.tasksNodup⟩
  · refine (tasksLinked_append _ _ _ _ _).2 ⟨?_, ?_, ?_, ?_⟩
    · simp only [taskAfter] at hlinks ⊢
      rw [hpold]
      refine tasksLinked_congr q.holders k.holders q.tasks k.tasks ys _
        (fun a ha => hold a (hlt a (List.mem_append_left _ ha))) (fun a ha => ?_) hlinks.1
      rw [htasks _ (fun hc => hnotin (List.mem_map.2 ⟨a, List.mem_append_left _ ha, hc⟩))
        (hys a ha)]
    · simp only [taskAfter]
      rw [hpold, hp, hnew]
    · rw [hnew, hlink]
      cases zs with
      | nil => rfl
      | cons b bs =>
        simp only [taskAfter]
        rw [hold b (hlt b (by simp))]
    · refine tasksLinked_congr q.holders k.holders q.tasks k.tasks zs none
        (fun a ha => hold a (hlt a (by simp [ha]))) (fun a ha => ?_) hlinks.2.2
      rw [htasks _ (fun hc => hnotin (List.mem_map.2 ⟨a, by simp [ha], hc⟩)) (hzs a ha)]

theorem wellFormed_unlink_front (q k : TaskQueue) (x : Nat) (zs : List Nat)
    (hwf : q.WellFormed (x :: zs))
    (hlen : q.holders.length ≤ k.holders.length)
    (hold : ∀ a, a ≠ x → (holderAt k.holders a).mNext = (holderAt q.holders a).mNext)
    (hhead : k.mHead = (holderAt q.holders x).mNext)
    (htail : k.mTail = if (holderAt q.holders x).mNext = none then none else q.mTail) :
    k.WellFormed zs := by
  obtain ⟨_, _, hseg⟩ := hwf.chain
  obtain ⟨hx, hnd⟩ := List.nodup_cons.1 hwf.nodup
  refine ⟨?_, hnd, ?_⟩
  · rw [hhead]
    exact isSegment_congr q.holders k.holders zs _ none hlen
      (fun a ha => hold a (fun hc => hx (hc ▸ ha))) hseg
  · rw [htail]
    cases zs with
    | nil =>
      have hn : (holderAt q.holders x).mNext = none := hseg
      rw [if_pos hn]
      rfl
    | cons z zs =>
      have hn : (holderAt q.holders x).mNext ≠ none := by
        rw [hseg.1]
        simp
      rw [if_neg hn, hwf.tail, List.getLast?_cons_cons]

theorem linked_unlink_front (q k : TaskQueue) (x : Nat) (zs : List Nat)
    (hl : q.Linked (x :: zs))
    (hold : ∀ a, (holderAt k.holders a).mTask = (holderAt q.holders a).mTask)
    (htasks : ∀ t, t ≠ (holderAt q.holders x).mTask → k.tasks t = q.tasks t) :
    k.Linked zs := by
  have hnd := hl.tasksNodup
  rw [List.map_cons, List.nodup_cons] at hnd
  have hmap : zs.map (fun a => (holderAt k.holders a).mTask) =
      zs.map (fun a => (holderAt q.holders a).mTask) :=
    List.map_congr_left (fun a _ => hold a)
  constructor
  · rw [hmap]
    exact hnd.2
  · refine tasksLinked_congr q.holders k.holders q.tasks k.tasks zs none
      (fun a _ => hold a) (fun a ha => ?_) hl.linked.2
    rw [htasks]
    intro hc
    exact hnd.1 (List.mem_map.2 ⟨a, ha, hc⟩)

theorem wellFormed_unlink_after (q k : TaskQueue) (ys zs : List Nat) (p x : Nat)
    (hwf : q.WellFormed (ys ++ p :: x :: zs))
    (hlen : q.holders.length ≤ k.holders.length)
    (hold : ∀ a, a ≠ p → (holderAt k.holders a).mNext = (holderAt q.holders a).mNext)
    (hp : (holderAt k.holders p).mNext = (holderAt q.holders x).mNext)
    (hhead : k.mHead = q.mHead)
    (htail : k.mTail = if q.mTail = some x then some p else q.mTail) :
    k.WellFormed (ys ++ p :: zs) := by
  have hnd := hwf.nodup
  obtain ⟨r, hseg1, hseg2⟩ := (isSegment_append _ _ _ _ _).1 hwf.chain
  obtain ⟨hr, hpl, hseg3⟩ := hseg2
  obtain ⟨hnx, hxl, hseg4⟩ := hseg3
  have hsub : (ys ++ p :: zs).Sublist (ys ++ p :: x :: zs) := by
    apply List.Sublist.append_left
    apply List.Sublist.cons₂
    exact List.sublist_cons_self x zs
  have hnd2 : (ys ++ p :: zs).Nodup := hnd.sublist hsub
  have hpys : p ∉ ys := fun hm =>
    List.disjoint_of_nodup_append hnd2 hm (List.mem_cons_self p zs)
  have hpzs : p ∉ zs := (List.nodup_cons.1 (List.nodup_append.1 hnd2).2.1).1
  have hxzs : x ∉ zs := by
    have h1 := (List.nodup_append.1 hnd).2.1
    exact (List.nodup_cons.1 (List.nodup_cons.1 h1).2).1
  refine ⟨?_, hnd2, ?_⟩
  · rw [hhead]
    refine (isSegment_append _ _ _ _ _).2 ⟨r, ?_, hr, by omega, ?_⟩
    · exact isSegment_congr q.holders k.holders ys q.mHead r hlen
        (fun a ha => hold a (fun hc => hpys (hc ▸ ha))) hseg1
    · rw [hp]
      exact isSegment_congr q.holders k.holders zs _ none hlen
        (fun a ha => hold a (fun hc => hpzs (hc ▸ ha))) hseg4
  · have ht := hwf.tail
    rw [getLast?_append_cons_cons] at ht
    rw [htail, ht]
    cases zs with
    | nil => simp
    | cons z zs =>
      rw [getLast?_append_cons_cons, List.getLast?_cons_cons]
      have hne : (z :: zs).getLast? ≠ some x := by
        intro hc
        exact hxzs (List.mem_of_getLast?_eq_some hc)
      rw [if_neg hne]

theorem linked_unlink_after (q k : TaskQueue) (ys zs : List Nat) (p x : Nat)
    (hl : q.Linked (ys ++ p :: x :: zs))
    (hold : ∀ a, (holderAt k.holders a).mTask = (holderAt q.holders a).mTask)
    (htasks : ∀ t, t ≠ (holderAt q.holders p).mTask → k.tasks t = q.tasks t)
    (hp : (k.tasks (holderAt q.holders p).mTask).mNext = taskAfter q.holders zs none) :
    k.Linked (ys ++ p :: zs) := by
  have hsub : (ys ++ p :: zs).Sublist (ys ++ p :: x :: zs) := by
    apply List.Sublist.append_left
    apply List.Sublist.cons₂
    exact List.sublist_cons_self x zs
  have hnd : ((ys ++ p :: zs).map (fun a => (holderAt q.holders a).mTask)).Nodup :=
    hl.tasksNodup.sublist (hsub.map _)
  have hmap : (ys ++ p :: zs).map (fun a => (holderAt k.holders a).mTask) =
      (ys ++ p :: zs).map (fun a => (holderAt q.holders a).mTask) :=
    List.map_congr_left (fun a _ => hold a)
  obtain ⟨hys, hzs⟩ := task_ne_of_nodup_middle _ ys zs p hnd
  have hlinks := (tasksLinked_append _ _ _ _ _).1 hl.linked
  constructor
  · rw [hmap]
    exact hnd
  · refine (tasksLinked_append _ _ _ _ _).2 ⟨?_, ?_, ?_⟩
    · simp only [taskAfter] at hlinks ⊢
      rw [hold p]
      exact tasksLinked_congr q.holders k.holders q.tasks k.tasks ys _
        (fun a _ => hold a) (fun a ha => by rw [htasks _ (hys a ha)]) hlinks.1
    · rw [hold p, hp]
      cases zs with
      | nil => rfl
      | cons b bs =>
        simp only [taskAfter]
        rw [hold b]
    · exact tasksLinked_congr q.holders k.holders q.tasks k.tasks zs none
        (fun a _ => hold a) (fun a ha => by rw [htasks _ (hzs a ha)]) hlinks.2.2.2

/-! ## TaskQueue: the operations on a well-formed list -/

theorem attach_length (q : TaskQueue) (s : Nat) (t : Option Nat) :
    (TaskHolder.attach q s t).holders.length = q.holders.length :=
  setHolderNext_length _ _ _

theorem attach_mTask (q : TaskQueue) (s : Nat) (t : Option Nat) (a : Nat) :
    (holderAt (TaskHolder.attach q s t).holders a).mTask = (holderAt q.holders a).mTask :=
  holderAt_setHolderNext_mTask _ _ _ _

theorem attach_mRunAt (q : TaskQueue) (s : Nat) (t : Option Nat) (a : Nat) :
    (holderAt (TaskHolder.attach q s t).holders a).mRunAt = (holderAt q.holders a).mRunAt :=
  holderAt_setHolderNext_mRunAt _ _ _ _

theorem attach_mNext_ne (q : TaskQueue) (s : Nat) (t : Option Nat) (a : Nat) (h : a ≠ s) :
    (holderAt (TaskHolder.attach q s t).holders a).mNext = (holderAt q.holders a).mNext := by
  unfold TaskHolder.attach
  dsimp only
  rw [holderAt_setHolderNext_ne _ _ _ _ h]

theorem attach_mNext_self (q : TaskQueue) (s : Nat) (t : Option Nat)
    (h : s < q.holders.length) :
    (holderAt (TaskHolder.attach q s t).holders s).mNext = t :=
  holderAt_setHolderNext_self _ _ _ h

theorem attach_tasks_ne (q : TaskQueue) (s : Nat) (t : Option Nat) (u : Nat)
    (h : u ≠ (holderAt q.holders s).mTask) :
    (TaskHolder.attach q s t).tasks u = q.tasks u :=
  setTaskNext_ne _ _ _ _ h

theorem attach_tasks_self (q : TaskQueue) (s : Nat) (t : Option Nat) :
    ((TaskHolder.attach q s t).tasks (holderAt q.holders s).mTask).mNext =
      (match t with
       | some h => some (holderAt q.holders h).mTask
       | none => none) :=
  setTaskNext_self _ _ _

theorem attach_tasks_mRunAt (q : TaskQueue) (s : Nat) (t : Option Nat) (u : Nat) :
    ((TaskHolder.attach q s t).tasks u).mRunAt = (q.tasks u).mRunAt :=
  setTaskNext_mRunAt _ _ _ _

theorem allocate_length (q : TaskQueue) (task : Nat) :
    (q.allocate task).holders.length = q.holders.length + 1 := by
  simp [TaskQueue.allocate]

theorem allocate_lt (q : TaskQueue) (task : Nat) (a : Nat) (h : a < q.holders.length) :
    holderAt (q.allocate task).holders a = holderAt q.holders a :=
  holderAt_append_lt _ _ _ h

theorem allocate_self (q : TaskQueue) (task : Nat) :
    holderAt (q.allocate task).holders q.holders.length =
      { mRunAt := (q.tasks task).mRunAt, mNext := none, mTask := task } :=
  holderAt_append_self _ _

theorem insertionScan_spec (m : List TaskHolder) (r : Int) (xs : List Nat)
    (p prev : Option Nat) (fuel : Nat)
    (h : isSegment m p xs none) (hf : xs.length ≤ fuel) :
    ∃ ys zs, xs = ys ++ zs ∧ (∀ a ∈ ys, (holderAt m a).mRunAt ≤ r) ∧
      (∀ b, zs.head? = some b → r < (holderAt m b).mRunAt) ∧
      insertionScan m r fuel prev p =
        some (if ys = [] then prev else ys.getLast?, zs.head?) := by
  induction xs generalizing p prev fuel with
  | nil =>
    have hp : p = none := h
    subst hp
    refine ⟨[], [], rfl, by simp, by simp, ?_⟩
    cases fuel <;> simp [insertionScan]
  | cons x xs ih =>
    obtain ⟨hp, _, hrest⟩ := h
    subst hp
    by_cases hx : (holderAt m x).mRunAt ≤ r
    · cases fuel with
      | zero => simp at hf
      | succ fuel =>
        obtain ⟨ys, zs, hxs, hys, hzs, hscan⟩ :=
          ih _ (some x) fuel hrest (by simpa using hf)
        refine ⟨x :: ys, zs, by rw [hxs]; rfl, ?_, hzs, ?_⟩
        · intro a ha
          rcases List.mem_cons.1 ha with h1 | h1
          · rw [h1]; exact hx
          · exact hys a h1
        · simp only [insertionScan, if_pos hx]
          rw [hscan]
          cases ys with
          | nil => simp
          | cons y ys => simp [List.getLast?_cons_cons]
    · refine ⟨[], x :: xs, rfl, by simp, ?_, ?_⟩
      · intro b hb
        simp only [List.head?_cons, Option.some.injEq] at hb
        rw [← hb]
        omega
      · cases fuel <;> simp [insertionScan, hx]

theorem mNext_none_of_not_alreadyQueued (q : TaskQueue) (task : Nat)
    (hpass : q.alreadyQueued task = false) : (q.tasks task).mNext = none := by
  unfold TaskQueue.alreadyQueued at hpass
  simp only [Bool.or_eq_false_iff] at hpass
  cases h : (q.tasks task).mNext with
  | none => rfl
  | some v =>
    rw [h] at hpass
    simp at hpass

/-- What `TaskQueue::queue` does on a well-formed list when its assertion passes:
it returns, with the new holder (at address `q.holders.length`) linked in between
a front part `ys` and a back part `zs` of the list; either it was appended behind
a tail that runs no later, or `ys` runs no later and the head of `zs` later than
the task. -/
theorem TaskQueue.queue_spec (q : TaskQueue) (xs : List Nat) (task : Nat)
    (hwf : q.WellFormed xs) (hpass : q.alreadyQueued task = false) :
    ∃ k ys zs, q.queue task = Except.ok k ∧ xs = ys ++ zs ∧
      k.WellFormed (ys ++ q.holders.length :: zs) ∧
      k.holders.length = q.holders.length + 1 ∧
      (holderAt k.holders q.holders.length).mTask = task ∧
      (holderAt k.holders q.holders.length).mRunAt = (q.tasks task).mRunAt ∧
      (∀ a, a < q.holders.length →
        (holderAt k.holders a).mTask = (holderAt q.holders a).mTask ∧
        (holderAt k.holders a).mRunAt = (holderAt q.holders a).mRunAt) ∧
      ((zs = [] ∧ ∀ t, xs.getLast? = some t →
          (holderAt q.holders t).mRunAt ≤ (q.tasks task).mRunAt) ∨
        ((∀ a ∈ ys, (holderAt q.holders a).mRunAt ≤ (q.tasks task).mRunAt) ∧
          ∃ b rest, zs = b :: rest ∧ (q.tasks task).mRunAt < (holderAt q.holders b).mRunAt)) ∧
      (q.Linked xs → k.Linked (ys ++ q.holders.length :: zs)) := by
  have hlt := isSegment_lt _ _ _ _ hwf.chain
  have hlen := nodup_length_le xs q.holders.length hwf.nodup hlt
  have hnext := mNext_none_of_not_alreadyQueued q task hpass
  unfold TaskQueue.queue
  rw [hpass]
  simp only [Bool.false_eq_true, if_false]
  cases htl : q.mTail with
  | none =>
    have hxs : xs = [] := by
      have ht := hwf.tail
      rw [htl] at ht
      exact List.getLast?_eq_none_iff.1 ht.symm
    subst hxs
    have hhd : q.mHead = none := hwf.chain
    refine ⟨_, [], [], rfl, rfl, ?_, allocate_length q task, ?_, ?_, ?_,
      Or.inl ⟨rfl, by simp⟩, fun hl => ?_⟩
    · refine wellFormed_insert_front q _ [] hwf (allocate_length q task)
        (fun a ha => by dsimp only; rw [allocate_lt q task a ha]) ?_ rfl rfl
      dsimp only
      rw [allocate_self, hhd]
    · dsimp only
      rw [allocate_self]
    · dsimp only
      rw [allocate_self]
    · intro a ha
      dsimp only
      rw [allocate_lt q task a ha]
      exact ⟨rfl, rfl⟩
    · refine linked_insert_front q _ [] task hwf hl (by simp)
        (fun a ha => by dsimp only; rw [allocate_lt q task a ha]) ?_
        (fun t _ => rfl) ?_
      · dsimp only
        rw [allocate_self]
      · exact hnext
  | some tail =>
    dsimp only
    have htx := hwf.tail
    rw [htl] at htx
    obtain ⟨ys0, hxs⟩ := List.getLast?_eq_some_iff.1 htx.symm
    have htlt : tail < q.holders.length := hlt tail (by rw [hxs]; simp)
    by_cases hfast : (holderAt q.holders tail).mRunAt ≤ (q.tasks task).mRunAt
    · rw [if_pos hfast]
      subst hxs
      have hwf2 : q.WellFormed (ys0 ++ tail :: []) := hwf
      refine ⟨_, ys0 ++ [tail], [], rfl, by simp, ?_, ?_, ?_, ?_, ?_,
        Or.inl ⟨rfl, fun t ht => ?_⟩, fun hl => ?_⟩
      · rw [show (ys0 ++ [tail]) ++ q.holders.length :: [] =
          ys0 ++ tail :: q.holders.length :: [] by simp]
        refine wellFormed_insert_after q _ ys0 [] tail hwf2 ?_ ?_ ?_ ?_ rfl rfl
        · dsimp only
          rw [attach_length, allocate_length]
        · intro a ha hne
          dsimp only
          rw [attach_mNext_ne _ _ _ _ hne, allocate_lt q task a ha]
        · dsimp only
          rw [attach_mNext_self _ _ _ (by rw [allocate_length]; omega)]
        · dsimp only
          rw [attach_mNext_ne _ _ _ _ (by omega), allocate_self]
          rfl
      · dsimp only
        rw [attach_length, allocate_length]
      · dsimp only
        rw [attach_mTask, allocate_self]
      · dsimp only
        rw [attach_mRunAt, allocate_self]
      · intro a ha
        dsimp only
        rw [attach_mTask, attach_mRunAt, allocate_lt q task a ha]
        exact ⟨rfl, rfl⟩
      · rw [← htx] at ht
        rw [← Option.some.inj ht]
        exact hfast
      · have hnotin := not_mem_of_not_alreadyQueued q _ hwf hl task hpass
        have hne : task ≠ (holderAt q.holders tail).mTask := fun hc =>
          hnotin (List.mem_map.2 ⟨tail, by simp, hc.symm⟩)
        rw [show (ys0 ++ [tail]) ++ q.holders.length :: [] =
          ys0 ++ tail :: q.holders.length :: [] by simp]
        refine linked_insert_after q _ ys0 [] tail task hwf2 hl hnotin ?_ ?_ ?_ ?_ ?_
        · intro a ha
          dsimp only
          rw [attach_mTask, allocate_lt q task a ha]
        · dsimp only
          rw [attach_mTask, allocate_self]
        · intro t _ ht
          dsimp only
          rw [attach_tasks_ne _ _ _ _ (by rw [allocate_lt q task tail htlt]; exact ht)]
          rfl
        · have h1 := attach_tasks_self (q.allocate task) tail (some q.holders.length)
          dsimp only at h1
          rw [allocate_lt q task tail htlt, allocate_self] at h1
          exact h1
        · dsimp only
          rw [attach_tasks_ne _ _ _ _ (by rw [allocate_lt q task tail htlt]; exact hne)]
          exact hnext
    · rw [if_neg hfast]
      have hseg0 : isSegment (q.allocate task).holders q.mHead xs none :=
        isSegment_congr q.holders _ xs q.mHead none (by rw [allocate_length]; omega)
          (fun a ha => by rw [allocate_lt q task a (hlt a ha)]) hwf.chain
      obtain ⟨ys, zs, hyz, hys, hzs, hscan⟩ :=
        insertionScan_spec (q.allocate task).holders (q.tasks task).mRunAt xs q.mHead none
          q.holders.length hseg0 hlen
      have hys2 : ∀ a ∈ ys, (holderAt q.holders a).mRunAt ≤ (q.tasks task).mRunAt := by
        intro a ha
        rw [← allocate_lt q task a (hlt a (by rw [hyz]; exact List.mem_append_left _ ha))]
        exact hys a ha
      cases zs with
      | nil =>
        exfalso
        apply hfast
        apply hys2
        rw [List.append_nil] at hyz
        rw [← hyz, hxs]
        simp
      | cons b rest =>
        have hblt : b < q.holders.length := hlt b (by rw [hyz]; simp)
        have hb : (q.tasks task).mRunAt < (holderAt q.holders b).mRunAt := by
          rw [← allocate_lt q task b hblt]
          exact hzs b rfl
        rw [hscan]
        simp only [List.head?_cons]
        rcases List.eq_nil_or_concat ys with hnil | ⟨ys1, p, hconcat⟩
        · subst hnil
          rw [List.nil_append] at hyz
          rw [if_pos rfl]
          dsimp only
          have hhd : q.mHead = some b := by
            rw [isSegment_head _ _ _ hwf.chain, hyz]
            rfl
          refine ⟨_, [], b :: rest, rfl, hyz, ?_, ?_, ?_, ?_, ?_,
            Or.inr ⟨hys2, b, rest, rfl, hb⟩, fun hl => ?_⟩
          · rw [List.nil_append, ← hyz]
            refine wellFormed_insert_front q _ xs hwf ?_ ?_ ?_ rfl ?_
            · dsimp only
              rw [attach_length, allocate_length]
            · intro a ha
              dsimp only
              rw [attach_mNext_ne _ _ _ _ (by omega), allocate_lt q task a ha]
            · dsimp only
              rw [attach_mNext_self _ _ _ (by rw [allocate_length]; omega)]
            · dsimp only
              rw [if_neg (by rw [hyz]; simp)]
              rfl
          · dsimp only
            rw [attach_length, allocate_length]
          · dsimp only
            rw [attach_mTask, allocate_self]
          · dsimp only
            rw [attach_mRunAt, allocate_self]
          · intro a ha
            dsimp only
            rw [attach_mTask, attach_mRunAt, allocate_lt q task a ha]
            exact ⟨rfl, rfl⟩
          · have hnotin := not_mem_of_not_alreadyQueued q _ hwf hl task hpass
            rw [List.nil_append, ← hyz]
            refine linked_insert_front q _ xs task hwf hl hnotin ?_ ?_ ?_ ?_
            · intro a ha
              dsimp only
              rw [attach_mTask, allocate_lt q task a ha]
            · dsimp only
              rw [attach_mTask, allocate_self]
            · intro t ht
              dsimp only
              rw [attach_tasks_ne _ _ _ _ (by rw [allocate_self]; exact ht)]
              rfl
            · have h1 := attach_tasks_self (q.allocate task) q.holders.length q.mHead
              rw [allocate_self, hhd] at h1
              dsimp only at h1 ⊢
              rw [hhd, h1, allocate_lt q task b hblt, hyz]
              rfl
        · rw [List.concat_eq_append] at hconcat
          subst hconcat
          have hyz2 : xs = ys1 ++ p :: b :: rest := by
            rw [hyz]
            simp
          have hplt : p < q.holders.length := hlt p (by rw [hyz2]; simp)
          rw [if_neg (by simp), getLast?_append_singleton]
          dsimp only
          subst hyz2
          refine ⟨_, ys1 ++ [p], b :: rest, rfl, by simp, ?_, ?_, ?_, ?_, ?_,
            Or.inr ⟨hys2, b, rest, rfl, hb⟩, fun hl => ?_⟩
          · rw [show (ys1 ++ [p]) ++ q.holders.length :: b :: rest =
              ys1 ++ p :: q.holders.length :: b :: rest by simp]
            refine wellFormed_insert_after q _ ys1 (b :: rest) p hwf ?_ ?_ ?_ ?_ rfl rfl
            · rw [attach_length, attach_length, allocate_length]
            · intro a ha hne
              rw [attach_mNext_ne _ _ _ _ (by omega), attach_mNext_ne _ _ _ _ hne,
                allocate_lt q task a ha]
            · rw [attach_mNext_ne _ _ _ _ (by omega),
                attach_mNext_self _ _ _ (by rw [allocate_length]; omega)]
            · rw [attach_mNext_self _ _ _ (by rw [attach_length, allocate_length]; omega)]
              rfl
          · rw [attach_length, attach_length, allocate_length]
          · rw [attach_mTask, attach_mTask, allocate_self]
          · rw [attach_mRunAt, attach_mRunAt, allocate_self]
          · intro a ha
            rw [attach_mTask, attach_mRunAt, attach_mTask, attach_mRunAt,
              allocate_lt q task a ha]
            exact ⟨rfl, rfl⟩
          · have hnotin := not_mem_of_not_alreadyQueued q _ hwf hl task hpass
            have hne : task ≠ (holderAt q.holders p).mTask := fun hc =>
              hnotin (List.mem_map.2 ⟨p, by simp, hc.symm⟩)
            have hnewtask : (holderAt (TaskHolder.attach (q.allocate task) p
                (some q.holders.length)).holders q.holders.length).mTask = task := by
              rw [attach_mTask, allocate_self]
            rw [show (ys1 ++ [p]) ++ q.holders.length :: b :: rest =
              ys1 ++ p :: q.holders.length :: b :: rest by simp]
            refine linked_insert_after q _ ys1 (b :: rest) p task hwf hl hnotin ?_ ?_ ?_ ?_ ?_
            · intro a ha
              rw [attach_mTask, attach_mTask, allocate_lt q task a ha]
            · rw [attach_mTask, attach_mTask, allocate_self]
            · intro t ht1 ht2
              rw [attach_tasks_ne _ _ _ _ (by rw [hnewtask]; exact ht1),
                attach_tasks_ne _ _ _ _ (by rw [allocate_lt q task p hplt]; exact ht2)]
              rfl
            · rw [attach_tasks_ne _ _ _ _ (by rw [hnewtask]; exact hne.symm)]
              have h1 := attach_tasks_self (q.allocate task) p (some q.holders.length)
              dsimp only at h1
              rw [allocate_lt q task p hplt, allocate_self] at h1
              exact h1
            · have h1 := attach_tasks_self
                (TaskHolder.attach (q.allocate task) p (some q.holders.length))
                q.holders.length (some b)
              dsimp only at h1
              rw [hnewtask, attach_mTask, allocate_lt q task b hblt] at h1
              rw [h1]
              rfl

theorem wellFormed_empty (tasks : Nat → RenderTask) : (TaskQueue.empty tasks).WellFormed [] :=
  ⟨rfl, List.nodup_nil, rfl⟩

theorem linked_empty (tasks : Nat → RenderTask) : (TaskQueue.empty tasks).Linked [] :=
  ⟨List.nodup_nil, trivial⟩

/-- What `TaskQueue::next` does on a well-formed list: the head is unlinked, the
holders behind it stay in order. -/
theorem TaskQueue.next_spec (q : TaskQueue) (xs : List Nat) (kill : Bool)
    (hwf : q.WellFormed xs) :
    (q.next kill).1.WellFormed xs.tail ∧
      (q.Linked xs → (q.next kill).1.Linked xs.tail) ∧
      (q.next kill).1.holders.length = q.holders.length ∧
      (∀ a, (holderAt (q.next kill).1.holders a).mTask = (holderAt q.holders a).mTask) ∧
      (∀ x, q.mHead = some x →
        ((q.next kill).1.tasks (holderAt q.holders x).mTask).mNext = none) := by
  unfold TaskQueue.next
  cases hh : q.mHead with
  | none =>
    have hc := hwf.chain
    rw [hh] at hc
    have hxs := isSegment_none _ _ hc
    subst hxs
    exact ⟨hwf, fun hl => hl, rfl, fun a => rfl, fun x hx => by simp at hx⟩
  | some x =>
    dsimp only
    cases xs with
    | nil =>
      have hc : q.mHead = none := hwf.chain
      rw [hh] at hc
      exact absurd hc (by simp)
    | cons y zs =>
      have hxy : x = y := by
        have hc := hwf.chain.1
        rw [hh] at hc
        exact Option.some.inj hc
      subst hxy
      refine ⟨?_, fun hl => ?_, ?_, ?_, ?_⟩
      · refine wellFormed_unlink_front q _ x zs hwf ?_ ?_ rfl rfl
        · unfold TaskHolder.detach
          dsimp only
          rw [setHolderNext_length]
        · intro a ha
          unfold TaskHolder.detach
          dsimp only
          rw [holderAt_setHolderNext_ne _ _ _ _ ha]
      · refine linked_unlink_front q _ x zs hl ?_ ?_
        · intro a
          exact holderAt_setHolderNext_mTask _ _ _ _
        · intro t ht
          exact setTaskNext_ne _ _ _ _ ht
      · exact setHolderNext_length _ _ _
      · intro a
        exact holderAt_setHolderNext_mTask _ _ _ _
      · intro x2 hx2
        rw [← Option.some.inj hx2]
        exact setTaskNext_self _ _ _

theorem removeScan_ok (m : List TaskHolder) (task : Nat) (xs : List Nat) (p : Option Nat)
    (fuel previous : Nat) (h : isSegment m p xs none)
    (hscan : removeScan m task fuel p = Except.ok previous) :
    ∃ ys x zs, xs = ys ++ previous :: x :: zs ∧ (holderAt m x).mTask = task ∧
      (holderAt m previous).mNext = some x := by
  induction xs generalizing p fuel with
  | nil =>
    have hp : p = none := h
    subst hp
    cases fuel <;> simp [removeScan] at hscan
  | cons a as ih =>
    obtain ⟨hp, _, hrest⟩ := h
    subst hp
    cases hn : (holderAt m a).mNext with
    | none =>
      cases fuel <;> simp [removeScan, hn] at hscan
    | some n =>
      rw [hn] at hrest
      have has : ∃ as1, as = n :: as1 := by
        cases as with
        | nil => exact absurd hrest (by simp [isSegment])
        | cons b bs =>
          have hb := hrest.1
          rw [Option.some.inj hb]
          exact ⟨bs, rfl⟩
      obtain ⟨as1, has1⟩ := has
      by_cases ht : (holderAt m n).mTask = task
      · have hprev : a = previous := by
          cases fuel <;> simp [removeScan, hn, ht] at hscan <;> exact hscan
        subst hprev
        exact ⟨[], n, as1, by rw [has1]; rfl, ht, hn⟩
      · cases fuel with
        | zero => simp [removeScan, hn, ht] at hscan
        | succ fuel =>
          simp only [removeScan, hn, ne_eq, ht, not_false_eq_true, if_true] at hscan
          obtain ⟨ys, x, zs, hxs, hx, hnx⟩ := ih (some n) fuel hrest hscan
          exact ⟨a :: ys, x, zs, by rw [hxs]; rfl, hx, hnx⟩

/-- What `TaskQueue::remove` does on a well-formed list when it returns: a holder
that wraps the task is unlinked, the other holders stay in order. -/
theorem TaskQueue.remove_spec (q k : TaskQueue) (xs : List Nat) (task : Nat)
    (hwf : q.WellFormed xs) (hrem : q.remove task = Except.ok k) :
    ∃ ys x zs, xs = ys ++ x :: zs ∧ (holderAt q.holders x).mTask = task ∧
      k.WellFormed (ys ++ zs) ∧ (q.Linked xs → k.Linked (ys ++ zs)) ∧
      k.holders.length = q.holders.length ∧
      (∀ a, (holderAt k.holders a).mTask = (holderAt q.holders a).mTask) := by
  have hlt := isSegment_lt _ _ _ _ hwf.chain
  unfold TaskQueue.remove at hrem
  split at hrem
  · exact absurd hrem (by simp)
  split at hrem
  · rename_i hpeek
    have hk : k = (q.next true).1 := (Except.ok.inj hrem).symm
    subst hk
    unfold TaskQueue.peek at hpeek
    cases hh : q.mHead with
    | none =>
      rw [hh] at hpeek
      exact absurd hpeek (by simp)
    | some x =>
      rw [hh] at hpeek
      dsimp only at hpeek
      cases xs with
      | nil =>
        have hc : q.mHead = none := hwf.chain
        rw [hh] at hc
        exact absurd hc (by simp)
      | cons y zs =>
        have hxy : x = y := by
          have hc := hwf.chain.1
          rw [hh] at hc
          exact Option.some.inj hc
        subst hxy
        obtain ⟨h1, h2, h3, h4, _⟩ := TaskQueue.next_spec q (x :: zs) true hwf
        exact ⟨[], x, zs, rfl, Option.some.inj hpeek, h1, h2, h3, h4⟩
  · split at hrem
    · exact absurd hrem (by simp)
    · rename_i previous hscan
      split at hrem
      · exact absurd hrem (by simp)
      · rename_i holder hnext
        have hk := (Except.ok.inj hrem).symm
        subst hk
        obtain ⟨ys, x, zs, hxs, hx, hnx⟩ :=
          removeScan_ok q.holders task xs q.mHead q.holders.length previous hwf.chain hscan
        have hhx : holder = x := by
          rw [hnx] at hnext
          exact (Option.some.inj hnext).symm
        subst hhx
        subst hxs
        have hplt : previous < q.holders.length := hlt previous (by simp)
        have hzs : (holderAt q.holders holder).mNext = zs.head? := by
          obtain ⟨r, _, hseg2⟩ := (isSegment_append _ _ _ _ _).1 hwf.chain
          exact isSegment_head _ _ _ hseg2.2.2.2.2
        refine ⟨ys ++ [previous], holder, zs, by simp, hx, ?_, fun hl => ?_, ?_, ?_⟩
        · rw [show (ys ++ [previous]) ++ zs = ys ++ previous :: zs by simp]
          refine wellFormed_unlink_after q _ ys zs previous holder hwf ?_ ?_ ?_ rfl rfl
          · dsimp only
            rw [attach_length]
          · intro a ha
            dsimp only
            rw [attach_mNext_ne _ _ _ _ ha]
          · dsimp only
            rw [attach_mNext_self _ _ _ hplt]
        · rw [show (ys ++ [previous]) ++ zs = ys ++ previous :: zs by simp]
          refine linked_unlink_after q _ ys zs previous holder hl ?_ ?_ ?_
          · intro a
            dsimp only
            rw [attach_mTask]
          · intro t ht
            dsimp only
            rw [attach_tasks_ne _ _ _ _ ht]
          · have h1 := attach_tasks_self q previous (holderAt q.holders holder).mNext
            dsimp only
            rw [h1, hzs]
            cases zs <;> rfl
        · dsimp only
          rw [attach_length]
        · intro a
          dsimp only
          rw [attach_mTask]

/-- What `TaskQueue::queueAtFront` does on a well-formed list: the new holder
becomes the head, whatever its task is. -/
theorem TaskQueue.queueAtFront_spec (q : TaskQueue) (xs : List Nat) (task : Nat)
    (hwf : q.WellFormed xs) :
    (q.queueAtFront task).WellFormed (q.holders.length :: xs) ∧
      (holderAt (q.queueAtFront task).holders q.holders.length).mTask = task ∧
      (∀ a, a < q.holders.length →
        (holderAt (q.queueAtFront task).holders a).mTask = (holderAt q.holders a).mTask) := by
  unfold TaskQueue.queueAtFront
  cases htl : q.mTail with
  | none =>
    have hxs : xs = [] := by
      have ht := hwf.tail
      rw [htl] at ht
      exact List.getLast?_eq_none_iff.1 ht.symm
    subst hxs
    have hhd : q.mHead = none := hwf.chain
    refine ⟨?_, ?_, ?_⟩
    · refine wellFormed_insert_front q _ [] hwf (allocate_length q task)
        (fun a ha => by dsimp only; rw [allocate_lt q task a ha]) ?_ rfl rfl
      dsimp only
      rw [allocate_self, hhd]
    · dsimp only
      rw [allocate_self]
    · intro a ha
      dsimp only
      rw [allocate_lt q task a ha]
  | some tail =>
    dsimp only
    have hne : xs ≠ [] := by
      intro hc
      have ht := hwf.tail
      rw [htl, hc] at ht
      exact absurd ht (by simp)
    refine ⟨?_, ?_, ?_⟩
    · refine wellFormed_insert_front q _ xs hwf ?_ ?_ ?_ rfl ?_
      · dsimp only
        rw [attach_length, allocate_length]
      · intro a ha
        dsimp only
        rw [attach_mNext_ne _ _ _ _ (by omega), allocate_lt q task a ha]
      · dsimp only
        rw [attach_mNext_self _ _ _ (by rw [allocate_length]; omega)]
      · dsimp only
        rw [if_neg hne]
        rfl
    · dsimp only
      rw [attach_mTask, allocate_self]
    · intro a ha
      rw [attach_mTask, allocate_lt q task a ha]

/-- Every queue built by `queue`, `next` and `remove` calls from a well-formed,
linked one is well-formed and linked. -/
theorem runTaskOps_invariant (ops : List TaskOp) (q k : TaskQueue) (xs : List Nat)
    (hwf : q.WellFormed xs) (hl : q.Linked xs) (hrun : runTaskOps q ops = Except.ok k) :
    ∃ ys, k.WellFormed ys ∧ k.Linked ys := by
  induction ops generalizing q xs with
  | nil =>
    have hk : q = k := Except.ok.inj hrun
    subst hk
    exact ⟨xs, hwf, hl⟩
  | cons op ops ih =>
    simp only [runTaskOps] at hrun
    split at hrun
    · rename_i q1 hop
      cases op with
      | queue task =>
        simp only [TaskOp.apply] at hop
        by_cases hpass : q.alreadyQueued task = false
        · obtain ⟨k1, ys, zs, hq, _, hwf1, _, _, _, _, _, hl1⟩ :=
            TaskQueue.queue_spec q xs task hwf hpass
          rw [hq] at hop
          have hk1 : k1 = q1 := Except.ok.inj hop
          subst hk1
          exact ih k1 _ hwf1 (hl1 hl) hrun
        · have ht : q.alreadyQueued task = true := by simpa using hpass
          unfold TaskQueue.queue at hop
          rw [ht, if_pos rfl] at hop
          exact absurd hop (by simp)
      | next kill =>
        simp only [TaskOp.apply] at hop
        have hk1 := Except.ok.inj hop
        subst hk1
        obtain ⟨hwf1, hl1, _⟩ := TaskQueue.next_spec q xs kill hwf
        exact ih _ _ hwf1 (hl1 hl) hrun
      | remove task =>
        simp only [TaskOp.apply] at hop
        obtain ⟨ys, x, zs, _, _, hwf1, hl1, _⟩ := TaskQueue.remove_spec q q1 xs task hwf hop
        exact ih _ _ hwf1 (hl1 hl) hrun
    · exact absurd hrun (by simp)

/-! ## C31: queue keeps the list ordered by run time -/

theorem pairwise_le_insert (l1 l2 : List Int) (r : Int)
    (h : (l1 ++ l2).Pairwise (fun s t => s ≤ t))
    (h1 : ∀ a ∈ l1, a ≤ r) (h2 : ∀ b ∈ l2, r < b) :
    (l1 ++ r :: l2).Pairwise (fun s t => s ≤ t) := by
  rw [List.pairwise_append] at h ⊢
  refine ⟨h.1, List.pairwise_cons.2 ⟨fun b hb => le_of_lt (h2 b hb), h.2.1⟩, ?_⟩
  intro a ha b hb
  rcases List.mem_cons.1 hb with hbr | hb2
  · rw [hbr]
    exact h1 a ha
  · exact h.2.2 a ha b hb2

/-- Every queue built by `queue`, `next` and `remove` calls from the empty queue is
a well-formed list. -/
theorem wellFormed_of_run (tasks : Nat → RenderTask) (ops : List TaskOp) (q : TaskQueue)
    (hrun : runTaskOps (TaskQueue.empty tasks) ops = Except.ok q) :
    q.WellFormed q.chain := by
  obtain ⟨ys, hwf, _⟩ :=
    runTaskOps_invariant ops _ q [] (wellFormed_empty tasks) (linked_empty tasks) hrun
  rw [TaskQueue.WellFormed.chain_eq q ys hwf]
  exact hwf

/-- C31: `TaskQueue` is time-ordered.  On a well-formed list (from `mHead` the
holders `q.chain` lead to `NULL`, each once, and `mTail` is the last) whose run
times are in non-decreasing order, a call `queue(task)` that passes its assertion
returns; the new holder, which wraps `task` with the run time of `task`, is
linked in between a front part `before` and a back part `after` of the old list,
whose holders keep their order, tasks and run times; every holder in `before` has
a run time less than or equal to the one of `task` (FIFO among equal run times),
every holder in `after` a greater one; the run times are again in non-decreasing
order; and `mHead` and `mTail` designate the first and the last holder of the new
list. -/
theorem queue_keeps_time_order (q : TaskQueue) (task : Nat)
    (hwf : q.WellFormed q.chain)
    (hsorted : q.runTimes.Pairwise (fun s t => s ≤ t))
    (hpass : q.alreadyQueued task = false) :
    ∃ k before after,
      q.queue task = Except.ok k ∧
      q.chain = before ++ after ∧
      k.chain = before ++ q.holders.length :: after ∧
      (holderAt k.holders q.holders.length).mTask = task ∧
      (holderAt k.holders q.holders.length).mRunAt = (q.tasks task).mRunAt ∧
      (∀ a ∈ q.chain,
        (holderAt k.holders a).mTask = (holderAt q.holders a).mTask ∧
        (holderAt k.holders a).mRunAt = (holderAt q.holders a).mRunAt) ∧
      (∀ a ∈ before, (holderAt q.holders a).mRunAt ≤ (q.tasks task).mRunAt) ∧
      (∀ a ∈ after, (q.tasks task).mRunAt < (holderAt q.holders a).mRunAt) ∧
      k.runTimes.Pairwise (fun s t => s ≤ t) ∧
      k.mHead = k.chain.head? ∧ k.mTail = k.chain.getLast? ∧
      k.WellFormed k.chain := by
  have hlt := isSegment_lt _ _ _ _ hwf.chain
  obtain ⟨k, ys, zs, hq, hxs, hwfk, _, htask, hrun, hold, hcase, _⟩ :=
    TaskQueue.queue_spec q q.chain task hwf hpass
  have hchain := TaskQueue.WellFormed.chain_eq k _ hwfk
  have hsorted2 : (ys.map (fun a => (holderAt q.holders a).mRunAt) ++
      zs.map (fun a => (holderAt q.holders a).mRunAt)).Pairwise (fun s t => s ≤ t) := by
    unfold TaskQueue.runTimes at hsorted
    rw [hxs, List.map_append] at hsorted
    exact hsorted
  have hbefore : ∀ a ∈ ys, (holderAt q.holders a).mRunAt ≤ (q.tasks task).mRunAt := by
    rcases hcase with ⟨hzs, htail⟩ | ⟨hys, _⟩
    · intro a ha
      subst hzs
      rw [List.append_nil] at hxs
      rcases List.eq_nil_or_concat ys with hnil | ⟨ys1, t, hconcat⟩
      · rw [hnil] at ha
        simp at ha
      · rw [List.concat_eq_append] at hconcat
        have hlast : (holderAt q.holders t).mRunAt ≤ (q.tasks task).mRunAt :=
          htail t (by rw [hxs, hconcat]; simp)
        rw [hconcat] at ha hsorted2
        rcases List.mem_append.1 ha with h1 | h1
        · simp only [List.map_append, List.map_cons, List.map_nil, List.append_nil] at hsorted2
          have h2 := (List.pairwise_append.1 hsorted2).2.2 _ (List.mem_map_of_mem _ h1)
            (holderAt q.holders t).mRunAt (by simp)
          omega
        · rw [List.mem_singleton.1 h1]
          exact hlast
    · exact hys
  have hafter : ∀ a ∈ zs, (q.tasks task).mRunAt < (holderAt q.holders a).mRunAt := by
    rcases hcase with ⟨hzs, _⟩ | ⟨_, b, rest, hzs, hb⟩
    · intro a ha
      rw [hzs] at ha
      simp at ha
    · intro a ha
      rw [hzs] at ha hsorted2
      rcases List.mem_cons.1 ha with h1 | h1
      · rw [h1]
        exact hb
      · have h2 := (List.pairwise_append.1 hsorted2).2.1
        rw [List.map_cons, List.pairwise_cons] at h2
        have h3 := h2.1 _ (List.mem_map_of_mem _ h1)
        omega
  have holdys : ys.map (fun a => (holderAt k.holders a).mRunAt) =
      ys.map (fun a => (holderAt q.holders a).mRunAt) :=
    List.map_congr_left (fun a ha =>
      (hold a (hlt a (by rw [hxs]; exact List.mem_append_left _ ha))).2)
  have holdzs : zs.map (fun a => (holderAt k.holders a).mRunAt) =
      zs.map (fun a => (holderAt q.holders a).mRunAt) :=
    List.map_congr_left (fun a ha =>
      (hold a (hlt a (by rw [hxs]; exact List.mem_append_right _ ha))).2)
  refine ⟨k, ys, zs, hq, hxs, hchain, htask, hrun, fun a ha => hold a (hlt a ha), hbefore,
    hafter, ?_, ?_, ?_, ?_⟩
  · unfold TaskQueue.runTimes
    rw [hchain, List.map_append, List.map_cons, holdys, holdzs, hrun]
    refine pairwise_le_insert _ _ _ hsorted2 ?_ ?_
    · intro s hs
      obtain ⟨a, ha, has⟩ := List.mem_map.1 hs
      rw [← has]
      exact hbefore a ha
    · intro s hs
      obtain ⟨a, ha, has⟩ := List.mem_map.1 hs
      rw [← has]
      exact hafter a ha
  · rw [hchain]
    exact isSegment_head _ _ _ hwfk.chain
  · rw [hchain]
    exact hwfk.tail
  · rw [hchain]
    exact hwfk

/-- C31 at `queuedTasks` (tasks 0, 1, 3 with run times 10, 20, 30) and task 2 (run
time 20): the call returns a list ordered by run time that holds the tasks 0, 1,
2, 3, the new task behind the task with the same run time. -/
theorem queue_keeps_time_order_witness :
    queuedTasks.runTimes.Pairwise (fun s t => s ≤ t) ∧
      queuedTasks.alreadyQueued 2 = false ∧
      (∃ k, queuedTasks.queue 2 = Except.ok k ∧
        k.runTimes.Pairwise (fun s t => s ≤ t) ∧ k.mTail = k.chain.getLast?) ∧
      (stateOf queuedTasks (queuedTasks.queue 2)).queued = [0, 1, 2, 3] :=
  ⟨by decide, by decide,
   match queue_keeps_time_order queuedTasks 2
      (wellFormed_of_run someTasks [TaskOp.queue 1, TaskOp.queue 3, TaskOp.queue 0]
        queuedTasks rfl)
      (by decide) (by decide) with
   | ⟨k, _, _, hq, _, _, _, _, _, _, _, hs, _, ht, _⟩ => ⟨k, hq, hs, ht⟩,
   by decide⟩

/-! ## C32: a queued task cannot be queued again -/

/-- C32: the same task is never queued twice through `queue()`.  For every queue
built by `queue`, `next` and `remove` calls from the empty queue and every task
currently in it (head, middle or tail), `queue(task)` ends in the fatal assertion
of `TaskQueue::queue` instead of inserting the task; whereas `queueAtFront`
performs no such check: it puts any task, also one that is in the queue, in
front of the queued ones. -/
theorem queue_twice_is_fatal (tasks : Nat → RenderTask) (ops : List TaskOp) (q : TaskQueue)
    (hrun : runTaskOps (TaskQueue.empty tasks) ops = Except.ok q) :
    (∀ task ∈ q.queued, q.queue task = Except.error Fault.alreadyInQueue) ∧
      ∀ task, (q.queueAtFront task).queued = task :: q.queued := by
  obtain ⟨ys, hwf, hl⟩ :=
    runTaskOps_invariant ops _ q [] (wellFormed_empty tasks) (linked_empty tasks) hrun
  have hchain := TaskQueue.WellFormed.chain_eq q ys hwf
  have hlt := isSegment_lt _ _ _ _ hwf.chain
  constructor
  · intro task hmem
    unfold TaskQueue.queued at hmem
    rw [hchain] at hmem
    obtain ⟨a, ha, hta⟩ := List.mem_map.1 hmem
    have hq := alreadyQueued_of_mem q ys hwf hl a ha
    rw [hta] at hq
    unfold TaskQueue.queue
    rw [if_pos hq]
  · intro task
    obtain ⟨hwf2, hnew, hold⟩ := TaskQueue.queueAtFront_spec q ys task hwf
    unfold TaskQueue.queued
    rw [TaskQueue.WellFormed.chain_eq _ _ hwf2, hchain, List.map_cons, hnew]
    congr 1
    exact List.map_congr_left (fun a ha => hold a (hlt a ha))

/-- C32 at `queuedTasks` (tasks 0, 1, 3): queueing the head, the middle or the tail
task again is fatal, and `queueAtFront` of the tail task leaves it queued
twice. -/
theorem queue_twice_is_fatal_witness :
    queuedTasks.queued = [0, 1, 3] ∧
      queuedTasks.queue 0 = Except.error Fault.alreadyInQueue ∧
      queuedTasks.queue 1 = Except.error Fault.alreadyInQueue ∧
      queuedTasks.queue 3 = Except.error Fault.alreadyInQueue ∧
      (queuedTasks.queueAtFront 3).queued = [3, 0, 1, 3] :=
  ⟨by decide,
   (queue_twice_is_fatal someTasks [TaskOp.queue 1, TaskOp.queue 3, TaskOp.queue 0]
      queuedTasks rfl).1 0 (by decide),
   (queue_twice_is_fatal someTasks [TaskOp.queue 1, TaskOp.queue 3, TaskOp.queue 0]
      queuedTasks rfl).1 1 (by decide),
   (queue_twice_is_fatal someTasks [TaskOp.queue 1, TaskOp.queue 3, TaskOp.queue 0]
      queuedTasks rfl).1 3 (by decide),
   by decide⟩

/-! ## C33: remove on the empty queue -/

/-- C33 does not hold on the empty queue: there `remove(task)` does not end in the
fatal assertion of `TaskQueue::remove`, for any task; the test
`mTail != NULL && ...` is false, the call reaches the list scan and dereferences
the `NULL` head.  Nor does it hold for a task that was removed from the middle of
a list (task 1 of `queuedTasks`): its `mNext` is still set, a second `remove`
passes the assertion and the scan runs past the end of the list. -/
theorem remove_unqueued_not_fatal (tasks : Nat → RenderTask) (task : Nat) :
    (TaskQueue.empty tasks).notQueued task = false ∧
      (TaskQueue.empty tasks).queued = [] ∧
      (TaskQueue.empty tasks).remove task = Except.error Fault.nullDereference ∧
      (stateOf queuedTasks (queuedTasks.remove 1)).queued = [0, 3] ∧
      (stateOf queuedTasks (queuedTasks.remove 1)).notQueued 1 = false ∧
      faultOf ((stateOf queuedTasks (queuedTasks.remove 1)).remove 1) =
        some Fault.nullDereference := by
  refine ⟨?_, rfl, ?_, by decide, by decide, by decide⟩
  · simp [TaskQueue.notQueued, TaskQueue.empty]
  · simp [TaskQueue.remove, TaskQueue.notQueued, TaskQueue.empty, TaskQueue.peek, removeScan]

/-! ## C40: remove, then queue again -/

/-- C40 does not hold for a task in the middle of the list: after `remove` of the
middle task 1 of `queuedTasks` (tasks 0, 1, 3) the queue holds the tasks 0 and 3,
but the `mNext` of task 1 still points to task 3, and `queue` of task 1 ends in
the fatal assertion of `TaskQueue::queue`; after `remove` of the head task 0 or
of the tail task 3 the link is `NULL` and the task is queued again. -/
theorem remove_middle_keeps_link :
    queuedTasks.queued = [0, 1, 3] ∧
      faultOf (queuedTasks.remove 1) = none ∧
      (stateOf queuedTasks (queuedTasks.remove 1)).queued = [0, 3] ∧
      ((stateOf queuedTasks (queuedTasks.remove 1)).tasks 1).mNext = some 3 ∧
      faultOf ((stateOf queuedTasks (queuedTasks.remove 1)).queue 1) =
        some Fault.alreadyInQueue ∧
      ((stateOf queuedTasks (queuedTasks.remove 0)).tasks 0).mNext = none ∧
      faultOf ((stateOf queuedTasks (queuedTasks.remove 0)).queue 0) = none ∧
      ((stateOf queuedTasks (queuedTasks.remove 3)).tasks 3).mNext = none ∧
      faultOf ((stateOf queuedTasks (queuedTasks.remove 3)).queue 3) = none := by
  decide

end android
